import Mathlib

/-!
# CitrusOps GitLab web app: configuration store and aggregation handlers

A shallow embedding of `app/server/GitLab/GitLab-Web-App/controller/config.go`
and `controller/gitlab.go`.

* Go strings are Lean strings; the functions of package `strings` that the
  controller uses are defined on the underlying character lists.
* The two configuration files are fields of `FileSys`; reading and writing
  them can fail.
* The upstream GitLab server is a function from the history of requests and
  the current request to an answer; handlers run in a state monad that
  records every request they issue and every reading of the clock.
* `encoding/json`, `time.Format`, `url.PathEscape` and the request
  validation of `net/http` are outside the repository: they are the fields of
  `Lib`.
-/

namespace CitrusOps

/-! ## Package `strings` -/

namespace strings

/-- `strings.HasPrefix`. -/
def HasPrefix (s p : String) : Bool := p.data.isPrefixOf s.data

/-- `strings.TrimPrefix`. -/
def TrimPrefix (s p : String) : String :=
  if HasPrefix s p then String.mk (s.data.drop p.data.length) else s

/-- Scan for `strings.Contains`: does `sub` start at some position of the text. -/
def containsAux (sub : List Char) : List Char → Bool
  | [] => sub.isPrefixOf []
  | c :: cs => sub.isPrefixOf (c :: cs) || containsAux sub cs

/-- `strings.Contains`. -/
def Contains (s sub : String) : Bool := containsAux sub.data s.data

/-- Scan for `strings.Split` with a non-empty separator: `skip` counts the
characters of a matched separator still to be dropped, `cur` is the piece
being collected, reversed. -/
def splitAux (sep : List Char) : List Char → Nat → List Char → List (List Char)
  | [], _, cur => [cur.reverse]
  | _ :: cs, skip + 1, cur => splitAux sep cs skip cur
  | c :: cs, 0, cur =>
    if sep.isPrefixOf (c :: cs) then cur.reverse :: splitAux sep cs (sep.length - 1) []
    else splitAux sep cs 0 (c :: cur)

/-- `strings.Split`: all pieces of `s` between occurrences of `sep`; with an
empty separator the string is split after each character. -/
def Split (s sep : String) : List String :=
  if sep.data = [] then s.data.map fun c => String.mk [c]
  else (splitAux sep.data s.data 0 []).map String.mk

/-- Scan for `strings.SplitN`: as `splitAux`, with `budget` separators left to
split at. -/
def splitNAux (sep : List Char) : Nat → List Char → Nat → List Char → List (List Char)
  | _, [], _, cur => [cur.reverse]
  | b, _ :: cs, skip + 1, cur => splitNAux sep b cs skip cur
  | 0, c :: cs, 0, cur => splitNAux sep 0 cs 0 (c :: cur)
  | b + 1, c :: cs, 0, cur =>
    if sep.isPrefixOf (c :: cs) then cur.reverse :: splitNAux sep b cs (sep.length - 1) []
    else splitNAux sep (b + 1) cs 0 (c :: cur)

/-- `strings.SplitN` for a non-empty separator: `n = 0` gives no piece,
`n < 0` all pieces, `n > 0` at most `n` pieces, the last one unsplit. -/
def SplitN (s sep : String) (n : Int) : List String :=
  if n = 0 then []
  else if n < 0 then Split s sep
  else (splitNAux sep.data (n.toNat - 1) s.data 0 []).map String.mk

/-- `strings.Join`. -/
def Join : List String → String → String
  | [], _ => ""
  | [a], _ => a
  | a :: b :: rest, sep => a ++ sep ++ Join (b :: rest) sep

end strings

/-! ## `config.go` -/

/-- `GitLabConfig`. -/
structure GitLabConfig where
  URL : String
  Token : String
  ProjectID : String
  deriving DecidableEq, Repr

/-- One file of the working directory: `content` is `none` when the file does
not exist; `readable` and `writable` say whether the process may read it and
may create or overwrite it. -/
structure File where
  content : Option String
  readable : Bool
  writable : Bool
  deriving DecidableEq, Repr

/-- `ioutil.ReadFile`. -/
def File.read (f : File) : Except String String :=
  match f.content with
  | none => .error "no such file or directory"
  | some c => if f.readable then .ok c else .error "permission denied"

/-- `ioutil.WriteFile`: creates or truncates the file. -/
def File.write (f : File) (data : String) : Except String File :=
  if f.writable then .ok { f with content := some data } else .error "permission denied"

/-- `os.Create` on a file that does not exist. -/
def File.create (f : File) : Except String File :=
  if f.writable then .ok { f with content := some "" } else .error "permission denied"

/-- The two stores beside the running process: the flat store `.env` and the
structured store `.gitlab-config.json` (`configFilePath`). -/
structure FileSys where
  dotenv : File
  config : File
  deriving DecidableEq, Repr

/-- The part of `encoding/json` that `config.go` uses, at the type
`GitLabConfig`. -/
structure ConfigCodec where
  /-- `json.MarshalIndent(config, "", "  ")`. -/
  marshal : GitLabConfig → Except String String
  /-- `json.Unmarshal(jsonContent, &jsonConfig)`. -/
  unmarshal : String → Except String GitLabConfig

/-- The default configuration of `getConfigFromFile`. -/
def defaultConfig : GitLabConfig :=
  { URL := "https://gitlab.com", Token := "", ProjectID := "" }

/-- Body of the loop over the lines of `.env` in `getConfigFromFile`. -/
def scanLine (config : GitLabConfig) (line : String) : GitLabConfig :=
  if strings.HasPrefix line "GITLAB_URL=" then
    { config with URL := strings.TrimPrefix line "GITLAB_URL=" }
  else if strings.HasPrefix line "GITLAB_TOKEN=" then
    { config with Token := strings.TrimPrefix line "GITLAB_TOKEN=" }
  else if strings.HasPrefix line "GITLAB_PROJECT_ID=" then
    { config with ProjectID := strings.TrimPrefix line "GITLAB_PROJECT_ID=" }
  else config

/-- The flat-store reader of `getConfigFromFile`: the loop over the lines of
the content of `.env`. -/
def scanDotenv (config : GitLabConfig) (content : String) : GitLabConfig :=
  (strings.Split content "\n").foldl scanLine config

/-- The overlay of the structured store in `getConfigFromFile`: only the
non-empty fields override. -/
def overlayJSON (config jsonConfig : GitLabConfig) : GitLabConfig :=
  let config := if jsonConfig.URL ≠ "" then { config with URL := jsonConfig.URL } else config
  let config := if jsonConfig.Token ≠ "" then { config with Token := jsonConfig.Token } else config
  if jsonConfig.ProjectID ≠ "" then { config with ProjectID := jsonConfig.ProjectID } else config

/-- `getConfigFromFile`: the configuration and the error, which is always nil.
`configFilePath` is `.gitlab-config.json`, so its directory is `.` and the
`os.MkdirAll` branch is not taken. -/
def getConfigFromFile (J : ConfigCodec) (fs : FileSys) : GitLabConfig × Option String :=
  let config := defaultConfig
  let config :=
    match fs.dotenv.read with
    | .ok content => scanDotenv config content
    | .error _ => config
  let config :=
    match fs.config.read with
    | .ok jsonContent =>
      match J.unmarshal jsonContent with
      | .ok jsonConfig => overlayJSON config jsonConfig
      | .error _ => config
    | .error _ => config
  (config, none)

/-- `GetGitLabConfig`. -/
def GetGitLabConfig (J : ConfigCodec) (fs : FileSys) : GitLabConfig × Option String :=
  getConfigFromFile J fs

/-- The switch of `updateDotenv` from a field to its key in `.env`. -/
def envKey (field : String) : Option String :=
  if field = "url" then some "GITLAB_URL"
  else if field = "token" then some "GITLAB_TOKEN"
  else if field = "project_id" then some "GITLAB_PROJECT_ID"
  else none

/-- The loop of `updateDotenv` that replaces the first line whose key is `key`;
the second component is `found`. -/
def replaceFirst (key value : String) : List String → List String × Bool
  | [] => ([], false)
  | line :: rest =>
    let pair := strings.SplitN line "=" 2
    if pair.length = 2 ∧ pair.head? = some key then
      ((key ++ "=" ++ value) :: rest, true)
    else
      let r := replaceFirst key value rest
      (line :: r.1, r.2)

/-- The new content of `.env` that `updateDotenv` computes from the old one. -/
def upsertDotenv (key value content : String) : String :=
  let lines := strings.Split content "\n"
  let r := replaceFirst key value lines
  let lines := if r.2 then r.1 else r.1 ++ [key ++ "=" ++ value]
  strings.Join lines "\n"

/-- `updateDotenv`: the error (nil on success) and the file afterwards. -/
def updateDotenv (dotenv : File) (field value : String) : Option String × File :=
  match envKey field with
  | none => (some ("unknown field: " ++ field), dotenv)
  | some key =>
    let created : Except String File :=
      if dotenv.content.isNone then dotenv.create else .ok dotenv
    match created with
    | .error err => (some err, dotenv)
    | .ok dotenv =>
      match dotenv.read with
      | .error err => (some err, dotenv)
      | .ok content =>
        match dotenv.write (upsertDotenv key value content) with
        | .error err => (some err, dotenv)
        | .ok dotenv => (none, dotenv)

/-- The switch of `updateConfig` that sets one field. -/
def setField (config : GitLabConfig) (field value : String) : GitLabConfig :=
  if field = "url" then { config with URL := value }
  else if field = "token" then { config with Token := value }
  else if field = "project_id" then { config with ProjectID := value }
  else config

/-- `updateConfig`: the error (nil on success) and the stores afterwards. -/
def updateConfig (J : ConfigCodec) (fs : FileSys) (field value : String) :
    Option String × FileSys :=
  match getConfigFromFile J fs with
  | (_, some err) => (some err, fs)
  | (config, none) =>
    let config := setField config field value
    let fs := { fs with dotenv := (updateDotenv fs.dotenv field value).2 }
    match J.marshal config with
    | .error err => (some err, fs)
    | .ok jsonData =>
      match fs.config.write jsonData with
      | .error err => (some err, fs)
      | .ok config => (none, { fs with config := config })

/-! ## `gitlab.go`: data -/

/-- A `time.Time`, in nanoseconds since the Unix epoch. -/
abbrev Time := Int

/-- `time.Minute`. -/
def Minute : Int := 60 * 1000000000

/-- `time.Hour`. -/
def Hour : Int := 60 * Minute

/-- `Time.Unix`: the seconds since the epoch. -/
def Time.Unix (t : Time) : Int := t / 1000000000

/-- The anonymous `User` struct of `GitLabPipeline` and `GitLabJob`. -/
structure UserInfo where
  ID : Int
  Name : String
  Username : String
  WebURL : String
  AvatarURL : String
  deriving DecidableEq, Repr

/-- `GitLabPipeline`. -/
structure GitLabPipeline where
  ID : Int
  Status : String
  Ref : String
  SHA : String
  WebURL : String
  CreatedAt : Time
  UpdatedAt : Time
  User : UserInfo
  deriving DecidableEq, Repr

/-- `GitLabProject`. -/
structure GitLabProject where
  ID : Int
  Name : String
  NameWithNamespace : String
  WebURL : String
  deriving DecidableEq, Repr

/-- `GitLabJob`. -/
structure GitLabJob where
  ID : Int
  Name : String
  Status : String
  Stage : String
  CreatedAt : Time
  StartedAt : Time
  FinishedAt : Time
  Duration : ℚ
  WebURL : String
  User : UserInfo
  deriving DecidableEq, Repr

/-- `GitLabUser`. -/
structure GitLabUser where
  ID : Int
  Name : String
  Username : String
  AvatarURL : String
  deriving DecidableEq, Repr

/-- The anonymous `TimeStats` struct of `GitLabMergeRequest`. -/
structure TimeStats where
  TimeEstimate : Int
  TotalTimeSpent : Int
  HumanTimeEstimate : String
  HumanTotalTimeSpent : String
  deriving DecidableEq, Repr

/-- `GitLabMergeRequest`; a nil pointer is `none`. -/
structure GitLabMergeRequest where
  ID : Int
  IID : Int
  Title : String
  Description : String
  State : String
  CreatedAt : Time
  UpdatedAt : Time
  MergedAt : Option Time
  ClosedAt : Option Time
  WebURL : String
  SourceBranch : String
  TargetBranch : String
  Author : GitLabUser
  Assignee : Option GitLabUser
  MergedBy : Option GitLabUser
  WorkInProgress : Bool
  MergeStatus : String
  Draft : Bool
  HasConflicts : Bool
  TimeStats : TimeStats
  deriving DecidableEq, Repr

/-- A Go value handed to `c.JSON`: what `json.Unmarshal` stores in an
`interface{}` (`null`, `bool`, `float`, `str`, `arr`, `obj`), the Go constants
and times of the example data (`int`, `time`), and the typed slices and structs
of this package. A slice that is not nil is a list; a nil slice, which
`encoding/json` writes as `null`, is the value `null` (see `GoVal.ofSlice`). -/
inductive GoVal where
  | null
  | bool (b : Bool)
  | int (n : Int)
  | float (x : ℚ)
  | str (s : String)
  | time (t : Time)
  | arr (xs : List GoVal)
  | obj (kvs : List (String × GoVal))
  | projects (xs : List GitLabProject)
  | pipeline (p : GitLabPipeline)
  | pipelines (ps : List GitLabPipeline)
  | jobs (js : List GitLabJob)
  | mergeRequests (ms : List GitLabMergeRequest)

/-- A `map[string]interface{}` or a `gin.H`, keys in the order of writing. -/
abbrev GoMap := List (String × GoVal)

/-- Assignment `m[key] = v` on a map that is not nil. -/
def GoMap.set (m : GoMap) (key : String) (v : GoVal) : GoMap :=
  if (m.lookup key).isSome then m.map fun kv => if kv.1 = key then (kv.1, v) else kv
  else m ++ [(key, v)]

/-- A slice as a value handed to `c.JSON`: a nil slice is written as `null`,
every other slice, the empty one included, as the list of its elements. -/
def GoVal.ofSlice {α : Type} (f : List α → GoVal) : Option (List α) → GoVal
  | some xs => f xs
  | none => .null

/-- The packages outside the repository that `gitlab.go` calls. Each
`unmarshal` field is `json.Unmarshal` at one target type. At a slice or map
target the result `none` is the nil slice or nil map that the JSON text `null`
decodes to; `some []` is the empty slice that `[]` decodes to. -/
structure Lib where
  /-- `encoding/json` at `GitLabConfig`. -/
  config : ConfigCodec
  /-- Target `[]GitLabProject`. -/
  unmarshalProjects : String → Except String (Option (List GitLabProject))
  /-- Target `[]GitLabPipeline`. -/
  unmarshalPipelines : String → Except String (Option (List GitLabPipeline))
  /-- Target `GitLabPipeline`. -/
  unmarshalPipeline : String → Except String GitLabPipeline
  /-- Target `[]GitLabJob`. -/
  unmarshalJobs : String → Except String (Option (List GitLabJob))
  /-- Target `[]GitLabMergeRequest`. -/
  unmarshalMergeRequests : String → Except String (Option (List GitLabMergeRequest))
  /-- Target `map[string]interface{}`. -/
  unmarshalMap : String → Except String (Option GoMap)
  /-- Target `[]map[string]interface{}`, each element an `obj` or `null`. -/
  unmarshalMaps : String → Except String (Option (List GoVal))
  /-- `Time.Format(time.RFC3339)`. -/
  formatRFC3339 : Time → String
  /-- `url.PathEscape`. -/
  PathEscape : String → String
  /-- The error of `http.NewRequest(method, url, nil)`, `none` when the
  request can be built. -/
  NewRequest : String → String → Option String

/-! ## `gitlab.go`: requests, upstream and responses -/

/-- One HTTP request sent to the upstream server. -/
structure Call where
  method : String
  url : String
  token : String
  deriving DecidableEq, Repr

/-- What `client.Do` returns: a transport error, or a response with its status
code, the bytes that `ioutil.ReadAll` reads from the body and the error of
that read. -/
inductive UpResult where
  | transportError (err : String)
  | response (status : Int) (body : String) (readErr : Option String)
  deriving DecidableEq, Repr

/-- The inbound request as the handlers see it through `c.Param`, `c.Query`
and `c.DefaultQuery`. -/
structure Request where
  params : List (String × String)
  query : List (String × String)
  deriving DecidableEq, Repr

/-- `c.Param`. -/
def Request.Param (c : Request) (key : String) : String := (c.params.lookup key).getD ""

/-- `c.Query`. -/
def Request.Query (c : Request) (key : String) : String := (c.query.lookup key).getD ""

/-- `c.DefaultQuery`. -/
def Request.DefaultQuery (c : Request) (key dflt : String) : String :=
  (c.query.lookup key).getD dflt

/-- Everything a handler depends on: the libraries, the upstream server (its
answer may depend on all requests sent before), the clock (its `n`-th reading)
and the configuration files. -/
structure Env where
  lib : Lib
  upstream : List Call → Call → UpResult
  clock : Nat → Time
  fs : FileSys

/-- What a handler has done so far: the upstream requests sent, in order, and
the number of clock readings. -/
structure World where
  calls : List Call
  ticks : Nat
  deriving DecidableEq, Repr

/-- Handlers run in the state monad over `World`. -/
abbrev M := StateM World

/-- `time.Now()`. -/
def timeNow (E : Env) : M Time :=
  fun w => (E.clock w.ticks, { w with ticks := w.ticks + 1 })

/-- `client.Do(req)`. -/
def clientDo (E : Env) (call : Call) : M UpResult :=
  fun w => (E.upstream w.calls call, { w with calls := w.calls ++ [call] })

/-- What a handler answers: the status and body given to `c.JSON`, or a
runtime panic. -/
inductive Outcome where
  | json (status : Nat) (body : GoVal)
  | panic (msg : String)

/-- The HTTP status the client sees; the recovery middleware of `gin.Default()`
turns a panic into a 500. -/
def Outcome.status : Outcome → Nat
  | .json status _ => status
  | .panic _ => 500

/-- The value of a key of a Go value that is a map. -/
def GoVal.get (v : GoVal) (key : String) : Option GoVal :=
  match v with
  | .obj kvs => kvs.lookup key
  | _ => none

/-- The value of a key of the response body, when the body is a map. -/
def Outcome.field (o : Outcome) (key : String) : Option GoVal :=
  match o with
  | .json _ body => body.get key
  | .panic _ => none

/-- The `note` of the response body, when there is one. -/
def Outcome.note (o : Outcome) : Option String :=
  match o.field "note" with
  | some (.str s) => some s
  | _ => none

/-- `makeGitLabAPIRequest`. -/
def makeGitLabAPIRequest (E : Env) (method endpoint : String) (config : GitLabConfig) :
    M (Except String String) := do
  let url := config.URL ++ "/api/v4/" ++ endpoint
  match E.lib.NewRequest method url with
  | some err => pure (.error err)
  | none =>
    let resp ← clientDo E { method := method, url := url, token := config.Token }
    match resp with
    | .transportError err => pure (.error err)
    | .response status body readErr =>
      if status ≠ 200 ∧ status ≠ 201 then
        if body ≠ "" then
          pure (.error ("GitLab API returned status code " ++ toString status ++ ": " ++ body))
        else
          pure (.error ("GitLab API returned status code " ++ toString status))
      else
        match readErr with
        | some err => pure (.error err)
        | none => pure (.ok body)

/-! ## `gitlab.go`: example data -/

/-- `getExamplePipelines`. -/
def getExamplePipelines (E : Env) : M (List GitLabPipeline) := do
  let now ← timeNow E
  pure [
    { ID := 1, Status := "success", Ref := "main", SHA := "1234567890abcdef",
      WebURL := "https://gitlab.com/group/project/-/pipelines/1",
      CreatedAt := now + -Hour, UpdatedAt := now + -30 * Minute,
      User := { ID := 1, Name := "John Doe", Username := "johndoe",
                WebURL := "https://gitlab.com/johndoe",
                AvatarURL := "https://secure.gravatar.com/avatar/abcdefg" } },
    { ID := 2, Status := "failed", Ref := "feature-branch", SHA := "abcdef1234567890",
      WebURL := "https://gitlab.com/group/project/-/pipelines/2",
      CreatedAt := now + -2 * Hour, UpdatedAt := now + -90 * Minute,
      User := { ID := 2, Name := "Jane Smith", Username := "janesmith",
                WebURL := "https://gitlab.com/janesmith",
                AvatarURL := "https://secure.gravatar.com/avatar/hijklmn" } },
    { ID := 3, Status := "running", Ref := "develop", SHA := "9876543210fedcba",
      WebURL := "https://gitlab.com/group/project/-/pipelines/3",
      CreatedAt := now + -30 * Minute, UpdatedAt := now + -5 * Minute,
      User := { ID := 1, Name := "John Doe", Username := "johndoe",
                WebURL := "https://gitlab.com/johndoe",
                AvatarURL := "https://secure.gravatar.com/avatar/abcdefg" } } ]

/-- The user of the example pipelines and jobs. -/
def johnDoe : UserInfo :=
  { ID := 1, Name := "John Doe", Username := "johndoe",
    WebURL := "https://gitlab.com/johndoe",
    AvatarURL := "https://secure.gravatar.com/avatar/abcdefg" }

/-- The expression `getExamplePipelines()[0]`; the index is in range because
the example list is not empty. -/
def firstExamplePipeline (E : Env) : M GitLabPipeline := do
  let ps ← getExamplePipelines E
  match ps with
  | p :: _ => pure p
  | [] => pure { ID := 0, Status := "", Ref := "", SHA := "", WebURL := "", CreatedAt := 0,
                 UpdatedAt := 0,
                 User := { ID := 0, Name := "", Username := "", WebURL := "", AvatarURL := "" } }

/-- `getExamplePipelineDetails`. -/
def getExamplePipelineDetails (E : Env) : M GoVal := do
  let now ← timeNow E
  let startTime : Time := now + -30 * Minute
  let endTime : Time := now + -5 * Minute
  pure (.obj [
    ("id", .int 1),
    ("status", .str "success"),
    ("ref", .str "main"),
    ("sha", .str "1234567890abcdef"),
    ("web_url", .str "https://gitlab.com/group/project/-/pipelines/1"),
    ("created_at", .str (E.lib.formatRFC3339 (now + -Hour))),
    ("updated_at", .str (E.lib.formatRFC3339 (now + -30 * Minute))),
    ("started_at", .str (E.lib.formatRFC3339 startTime)),
    ("finished_at", .str (E.lib.formatRFC3339 endTime)),
    ("duration", .float ((endTime.Unix - startTime.Unix : Int) : ℚ)),
    ("coverage", .float (171 / 2)),
    ("user", .obj [
      ("id", .int 1),
      ("name", .str "John Doe"),
      ("username", .str "johndoe"),
      ("web_url", .str "https://gitlab.com/johndoe"),
      ("avatar_url", .str "https://secure.gravatar.com/avatar/abcdefg")])])

/-- The job list that `GetPipelineJobs` answers when no project id is
available. -/
def exampleJobsNoProject (E : Env) : M (List GitLabJob) := do
  let t1 ← timeNow E
  let t2 ← timeNow E
  let t3 ← timeNow E
  pure [
    { ID := 1, Name := "build", Status := "success", Stage := "build",
      CreatedAt := t1 + -Hour, StartedAt := t2 + -Hour,
      FinishedAt := t3 + (-Hour + 5 * Minute), Duration := 300,
      WebURL := "https://gitlab.com/group/project/-/jobs/1", User := johnDoe } ]

/-- The job list that `GetPipelineJobs` answers when the upstream request
fails. -/
def exampleJobsAPIError (E : Env) : M (List GitLabJob) := do
  let t1 ← timeNow E
  let t2 ← timeNow E
  let t3 ← timeNow E
  let t4 ← timeNow E
  let t5 ← timeNow E
  let t6 ← timeNow E
  pure [
    { ID := 1, Name := "build", Status := "success", Stage := "build",
      CreatedAt := t1 + -Hour, StartedAt := t2 + -Hour,
      FinishedAt := t3 + (-Hour + 5 * Minute), Duration := 300,
      WebURL := "https://gitlab.com/group/project/-/jobs/1", User := johnDoe },
    { ID := 2, Name := "test", Status := "success", Stage := "test",
      CreatedAt := t4 + (-Hour + 5 * Minute), StartedAt := t5 + (-Hour + 5 * Minute),
      FinishedAt := t6 + (-Hour + 15 * Minute), Duration := 600,
      WebURL := "https://gitlab.com/group/project/-/jobs/2", User := johnDoe } ]

/-- The example report that `GetPipelineTestReport` answers when the upstream
request fails. -/
def exampleTestReport : GoVal :=
  .obj [
    ("total", .obj [
      ("time", .int 5000), ("count", .int 20), ("success", .int 18),
      ("failed", .int 2), ("skipped", .int 0), ("error", .int 0)]),
    ("test_suites", .arr [
      .obj [("name", .str "Unit Tests"), ("duration", .int 3000), ("tests", .arr [])],
      .obj [("name", .str "Integration Tests"), ("duration", .int 2000), ("tests", .arr [])]])]

/-- `getExampleTestReportSummary`. -/
def getExampleTestReportSummary : GoVal :=
  .obj [
    ("total", .obj [
      ("time", .int 5000), ("count", .int 20), ("success", .int 18),
      ("failed", .int 2), ("skipped", .int 0), ("error", .int 0)]),
    ("test_suites", .arr [
      .obj [
        ("name", .str "Unit Tests"), ("duration", .int 3000), ("count", .int 12),
        ("success", .int 11), ("failed", .int 1), ("skipped", .int 0), ("error", .int 0),
        ("tests", .arr [
          .obj [("name", .str "Test User Authentication"), ("status", .str "success"),
                ("duration", .int 150)],
          .obj [("name", .str "Test Data Validation"), ("status", .str "failed"),
                ("duration", .int 200),
                ("failure", .str "Expected value to be 42 but got 41")]])],
      .obj [
        ("name", .str "Integration Tests"), ("duration", .int 2000), ("count", .int 8),
        ("success", .int 7), ("failed", .int 1), ("skipped", .int 0), ("error", .int 0),
        ("tests", .arr [
          .obj [("name", .str "Test API Endpoint"), ("status", .str "success"),
                ("duration", .int 350)],
          .obj [("name", .str "Test Database Connection"), ("status", .str "failed"),
                ("duration", .int 400),
                ("failure", .str "Connection timed out")]])]])]

/-- The all-zero summary with a note that `GetPipelineTestReportSummary`
answers on failures and on an empty report. -/
def zeroSummary (note : String) : GoVal :=
  .obj [
    ("total", .obj [
      ("time", .int 0), ("count", .int 0), ("success", .int 0),
      ("failed", .int 0), ("skipped", .int 0), ("error", .int 0)]),
    ("test_suites", .arr []),
    ("note", .str note)]

/-- `getExampleVariables`. -/
def getExampleVariables : GoVal :=
  .arr [
    .obj [("key", .str "CI_COMMIT_REF_NAME"), ("value", .str "main"),
          ("variable_type", .str "env_var")],
    .obj [("key", .str "CI_COMMIT_SHA"), ("value", .str "1234567890abcdef"),
          ("variable_type", .str "env_var")],
    .obj [("key", .str "CI_PROJECT_NAME"), ("value", .str "example-project"),
          ("variable_type", .str "env_var")],
    .obj [("key", .str "CI_ENVIRONMENT_NAME"), ("value", .str "production"),
          ("variable_type", .str "env_var")],
    .obj [("key", .str "CI_PIPELINE_ID"), ("value", .str "1856940408"),
          ("variable_type", .str "env_var")]]

/-- The example job of `GetJobDetails`. -/
def exampleJob (E : Env) : M GoVal := do
  let t1 ← timeNow E
  let t2 ← timeNow E
  let t3 ← timeNow E
  pure (.obj [
    ("id", .int 0), ("name", .str "Example Job"), ("status", .str "unknown"),
    ("stage", .str "build"), ("web_url", .str "#"), ("duration", .int 0),
    ("created_at", .time t1), ("started_at", .time t2), ("finished_at", .time t3)])

/-- The job that `GetJobDetails` answers when upstream does not know the job. -/
def jobNotFound (E : Env) (config : GitLabConfig) (jobID : String) : M GoVal := do
  let t1 ← timeNow E
  let t2 ← timeNow E
  let t3 ← timeNow E
  pure (.obj [
    ("id", .int 0), ("name", .str "Job Not Found"), ("status", .str "unknown"),
    ("stage", .str "unknown"),
    ("web_url", .str (config.URL ++ "/project/-/jobs/" ++ jobID)), ("duration", .int 0),
    ("created_at", .time t1), ("started_at", .time t2), ("finished_at", .time t3)])

/-- `getExampleMergeRequests`. -/
def getExampleMergeRequests (E : Env) : M (List GitLabMergeRequest) := do
  let now ← timeNow E
  let mergedTime : Time := now + -2 * Hour
  let alice : GitLabUser :=
    { ID := 1, Name := "Alice Developer", Username := "alice",
      AvatarURL := "https://gitlab.com/uploads/-/system/user/avatar/1/avatar.png" }
  let bob : GitLabUser :=
    { ID := 2, Name := "Bob Reviewer", Username := "bob",
      AvatarURL := "https://gitlab.com/uploads/-/system/user/avatar/2/avatar.png" }
  pure [
    { ID := 1, IID := 101, Title := "Add new feature for user authentication",
      Description := "This MR adds OAuth2 authentication support", State := "merged",
      CreatedAt := now + -3 * Hour, UpdatedAt := now + -2 * Hour,
      MergedAt := some mergedTime, ClosedAt := none,
      WebURL := "https://gitlab.com/group/project/-/merge_requests/101",
      SourceBranch := "feature/oauth2-auth", TargetBranch := "main",
      Author := alice, Assignee := some bob, MergedBy := some bob,
      WorkInProgress := false, MergeStatus := "can_be_merged", Draft := false,
      HasConflicts := false,
      TimeStats := { TimeEstimate := 7200, TotalTimeSpent := 5400,
                     HumanTimeEstimate := "2h", HumanTotalTimeSpent := "1h 30m" } },
    { ID := 2, IID := 102, Title := "Fix critical bug in payment processing",
      Description := "Resolves issue #123 with payment validation", State := "opened",
      CreatedAt := now + -1 * Hour, UpdatedAt := now + -30 * Minute,
      MergedAt := none, ClosedAt := none,
      WebURL := "https://gitlab.com/group/project/-/merge_requests/102",
      SourceBranch := "bugfix/payment-validation", TargetBranch := "main",
      Author := { ID := 3, Name := "Charlie Coder", Username := "charlie",
                  AvatarURL := "https://gitlab.com/uploads/-/system/user/avatar/3/avatar.png" },
      Assignee := some alice, MergedBy := none,
      WorkInProgress := false, MergeStatus := "can_be_merged", Draft := false,
      HasConflicts := false,
      TimeStats := { TimeEstimate := 3600, TotalTimeSpent := 1800,
                     HumanTimeEstimate := "1h", HumanTotalTimeSpent := "30m" } },
    { ID := 3, IID := 103, Title := "Update documentation for API endpoints",
      Description := "Comprehensive documentation update for v2 API", State := "opened",
      CreatedAt := now + -45 * Minute, UpdatedAt := now + -15 * Minute,
      MergedAt := none, ClosedAt := none,
      WebURL := "https://gitlab.com/group/project/-/merge_requests/103",
      SourceBranch := "docs/api-v2-update", TargetBranch := "develop",
      Author := { ID := 4, Name := "Diana Writer", Username := "diana",
                  AvatarURL := "https://gitlab.com/uploads/-/system/user/avatar/4/avatar.png" },
      Assignee := none, MergedBy := none,
      WorkInProgress := true, MergeStatus := "can_be_merged", Draft := true,
      HasConflicts := false,
      TimeStats := { TimeEstimate := 5400, TotalTimeSpent := 2700,
                     HumanTimeEstimate := "1h 30m", HumanTotalTimeSpent := "45m" } } ]

/-! ## `gitlab.go`: handlers -/

/-- The head of every handler: resolve the configuration, answer 500 when that
fails, otherwise continue with the configuration. -/
def withConfig (E : Env) (k : GitLabConfig → M Outcome) : M Outcome :=
  match GetGitLabConfig E.lib.config E.fs with
  | (_, some err) =>
    pure (.json 500 (.obj [("error", .str ("Error getting GitLab config: " ++ err))]))
  | (config, none) => k config

/-- The two example projects that `GetGitLabProjects` answers when the upstream
request fails. -/
def exampleProjects : List GitLabProject :=
  [ { ID := 1, Name := "Example Project 1", NameWithNamespace := "Group / Example Project 1",
      WebURL := "https://gitlab.com/group/example-project-1" },
    { ID := 2, Name := "Example Project 2", NameWithNamespace := "Group / Example Project 2",
      WebURL := "https://gitlab.com/group/example-project-2" } ]

/-- `GetGitLabProjects`, after the configuration is resolved. -/
def GetGitLabProjectsWith (E : Env) (config : GitLabConfig) : M Outcome := do
  if config.Token = "" then
    pure (.json 400 (.obj [("error", .str "GitLab token not configured")]))
  else
    let r ← makeGitLabAPIRequest E "GET" "projects?membership=true&per_page=100" config
    match r with
    | .error _ => pure (.json 200 (.obj [("projects", .projects exampleProjects)]))
    | .ok body =>
      match E.lib.unmarshalProjects body with
      | .error err =>
        pure (.json 500 (.obj [("error", .str ("Error parsing GitLab projects: " ++ err))]))
      | .ok projects => pure (.json 200 (.obj [("projects", GoVal.ofSlice .projects projects)]))

/-- `GetGitLabProjects`. -/
def GetGitLabProjects (E : Env) (_c : Request) : M Outcome :=
  withConfig E fun config => GetGitLabProjectsWith E config

/-- The decoration of a pipeline's `WebURL` in the fan-out of
`GetGitLabPipelines`: the suffix `?project_id=<id>` is added unless the URL
contains `projects/<id>`. -/
def decorateWebURL (webURL : String) (id : Int) : String :=
  if !strings.Contains webURL ("projects/" ++ toString id) then
    webURL ++ "?project_id=" ++ toString id
  else webURL

/-- Body of the loop that adds project information to one pipeline. -/
def decoratePipeline (project : GitLabProject) (p : GitLabPipeline) : GitLabPipeline :=
  { p with
    Ref := p.Ref ++ " (" ++ project.Name ++ ")"
    WebURL := decorateWebURL p.WebURL project.ID }

/-- The endpoint of the pipelines of one project in the fan-out. -/
def projectPipelinesEndpoint (project : GitLabProject) : String :=
  "projects/" ++ toString project.ID ++ "/pipelines?per_page=5"

/-- The loop of `GetGitLabPipelines` over the projects: `i` is the loop index,
`pipelines` and `projectNames` are the two slices it appends to. -/
def fanOutLoop (E : Env) (config : GitLabConfig) :
    Nat → List GitLabProject → List GitLabPipeline → List String →
    M (List GitLabPipeline × List String)
  | _, [], pipelines, projectNames => pure (pipelines, projectNames)
  | i, project :: rest, pipelines, projectNames =>
    if i ≥ 5 then pure (pipelines, projectNames)
    else do
      let projectNames := projectNames ++ [project.Name]
      let r ← makeGitLabAPIRequest E "GET" (projectPipelinesEndpoint project) config
      match r with
      | .error _ => fanOutLoop E config (i + 1) rest pipelines projectNames
      | .ok body =>
        match E.lib.unmarshalPipelines body with
        | .error _ => fanOutLoop E config (i + 1) rest pipelines projectNames
        | .ok projectPipelines =>
          let projectPipelines := (projectPipelines.getD []).map (decoratePipeline project)
          fanOutLoop E config (i + 1) rest (pipelines ++ projectPipelines) projectNames

/-- The endpoint of the details of one pipeline in the enrichment pass of
`GetGitLabPipelines`; the empty string when it cannot be derived. -/
def detailsEndpoint (E : Env) (config : GitLabConfig) (pipeline : GitLabPipeline) : String :=
  if config.ProjectID ≠ "" then
    "projects/" ++ config.ProjectID ++ "/pipelines/" ++ toString pipeline.ID
  else
    let parts := strings.Split pipeline.WebURL "/-/pipelines/"
    if parts.length = 2 then
      let projectURL := parts.headD ""
      let projectParts := strings.Split projectURL "/"
      if projectParts.length ≥ 2 then
        let projectPath := strings.Join (projectParts.drop (projectParts.length - 2)) "/"
        "projects/" ++ E.lib.PathEscape projectPath ++ "/pipelines/" ++ toString pipeline.ID
      else ""
    else ""

/-- The enrichment pass of `GetGitLabPipelines`: the loop that fetches the
user of each pipeline. -/
def enrichLoop (E : Env) (config : GitLabConfig) :
    List GitLabPipeline → M (List GitLabPipeline)
  | [] => pure []
  | pipeline :: rest => do
    let endpoint := detailsEndpoint E config pipeline
    if endpoint = "" then
      let rest ← enrichLoop E config rest
      pure (pipeline :: rest)
    else
      let r ← makeGitLabAPIRequest E "GET" endpoint config
      match r with
      | .error _ =>
        let rest ← enrichLoop E config rest
        pure (pipeline :: rest)
      | .ok body =>
        match E.lib.unmarshalPipeline body with
        | .error _ =>
          let rest ← enrichLoop E config rest
          pure (pipeline :: rest)
        | .ok pipelineDetails =>
          let rest ← enrichLoop E config rest
          pure ({ pipeline with User := pipelineDetails.User } :: rest)

/-- The end of `GetGitLabPipelines`, from the check for an empty pipeline list
on. -/
def finishPipelines (E : Env) (config : GitLabConfig) (pipelines : List GitLabPipeline)
    (projectInfo : String) : M Outcome := do
  if pipelines.length = 0 then
    pure (.json 200 (.obj [
      ("pipelines", .pipelines []),
      ("note", .str "No pipelines found in any of your GitLab projects")]))
  else
    let pipelines ← enrichLoop E config pipelines
    pure (.json 200 (.obj [("pipelines", .pipelines pipelines), ("info", .str projectInfo)]))

/-- The `projectInfo` of `GetGitLabPipelines` with a default project, from the
answer to the request for the project. -/
def singleProjectInfo (E : Env) (config : GitLabConfig) (r : Except String String) : String :=
  match r with
  | .error _ => ""
  | .ok projectBody =>
    match E.lib.unmarshalMap projectBody with
    | .error _ => ""
    | .ok project =>
      match (project.getD []).lookup "name" with
      | some (.str name) =>
        "Showing pipelines for project: " ++ name ++ " (ID: " ++ config.ProjectID ++ ")"
      | _ => ""

/-- `GetGitLabPipelines`, after the configuration is resolved. -/
def GetGitLabPipelinesWith (E : Env) (config : GitLabConfig) : M Outcome := do
  if config.Token = "" then
    let ex ← getExamplePipelines E
    pure (.json 200 (.obj [
      ("pipelines", .pipelines ex),
      ("note", .str "Using example data because GitLab token is not configured")]))
  else if config.ProjectID ≠ "" then
    let endpoint := "projects/" ++ config.ProjectID ++ "/pipelines"
    let r ← makeGitLabAPIRequest E "GET" endpoint config
    match r with
    | .error _ =>
      let ex ← getExamplePipelines E
      pure (.json 200 (.obj [
        ("pipelines", .pipelines ex),
        ("note", .str "Using example data due to API error")]))
    | .ok body =>
      match E.lib.unmarshalPipelines body with
      | .error _ =>
        let ex ← getExamplePipelines E
        pure (.json 200 (.obj [
          ("pipelines", .pipelines ex),
          ("note", .str "Using example data due to parsing error")]))
      | .ok pipelines =>
        let projectEndpoint := "projects/" ++ config.ProjectID
        let pr ← makeGitLabAPIRequest E "GET" projectEndpoint config
        finishPipelines E config (pipelines.getD []) (singleProjectInfo E config pr)
  else
    let r ← makeGitLabAPIRequest E "GET" "projects?membership=true&per_page=5" config
    match r with
    | .error _ =>
      let ex ← getExamplePipelines E
      pure (.json 200 (.obj [
        ("pipelines", .pipelines ex),
        ("note", .str "Using example data because no projects could be fetched")]))
    | .ok projectsBody =>
      match E.lib.unmarshalProjects projectsBody with
      | .error _ =>
        let ex ← getExamplePipelines E
        pure (.json 200 (.obj [
          ("pipelines", .pipelines ex),
          ("note", .str "Using example data due to project parsing error")]))
      | .ok projects =>
        if (projects.getD []).length = 0 then
          pure (.json 200 (.obj [
            ("pipelines", .pipelines []),
            ("note", .str "No projects found in your GitLab account")]))
        else
          let (pipelines, projectNames) ← fanOutLoop E config 0 (projects.getD []) [] []
          let projectInfo :=
            "Showing pipelines from " ++ toString projectNames.length ++ " projects: " ++
              strings.Join projectNames ", "
          finishPipelines E config pipelines projectInfo

/-- `GetGitLabPipelines`. -/
def GetGitLabPipelines (E : Env) (_c : Request) : M Outcome :=
  withConfig E fun config => GetGitLabPipelinesWith E config

/-- The project id of the handlers that prefer the configured one: the
`project_id` query parameter is used only when none is configured. -/
def effectiveProjectID (config : GitLabConfig) (c : Request) : String :=
  if config.ProjectID = "" then c.Query "project_id" else config.ProjectID

/-- `GetGitLabPipeline`, after the configuration is resolved. -/
def GetGitLabPipelineWith (E : Env) (config : GitLabConfig) (c : Request) : M Outcome := do
  let pipelineID := c.Param "id"
  if config.Token = "" then
    let p ← firstExamplePipeline E
    pure (.json 200 (.obj [
      ("pipeline", .pipeline p),
      ("note", .str "Using example data because GitLab token is not configured")]))
  else
    let projectID := effectiveProjectID config c
    if projectID = "" then
      let p ← firstExamplePipeline E
      pure (.json 200 (.obj [
        ("pipeline", .pipeline p),
        ("note", .str "Using example data because no project ID is configured or provided")]))
    else
      let endpoint := "projects/" ++ projectID ++ "/pipelines/" ++ pipelineID
      let r ← makeGitLabAPIRequest E "GET" endpoint config
      match r with
      | .error _ =>
        let p ← firstExamplePipeline E
        pure (.json 200 (.obj [
          ("pipeline", .pipeline p),
          ("note", .str "Using example data due to API error")]))
      | .ok body =>
        match E.lib.unmarshalPipeline body with
        | .error _ =>
          let p ← firstExamplePipeline E
          pure (.json 200 (.obj [
            ("pipeline", .pipeline p),
            ("note", .str "Using example data due to parsing error")]))
        | .ok pipeline => pure (.json 200 (.obj [("pipeline", .pipeline pipeline)]))

/-- `GetGitLabPipeline`. -/
def GetGitLabPipeline (E : Env) (c : Request) : M Outcome :=
  withConfig E fun config => GetGitLabPipelineWith E config c

/-- `GetPipelineJobs`, after the configuration is resolved. -/
def GetPipelineJobsWith (E : Env) (config : GitLabConfig) (c : Request) : M Outcome := do
  let pipelineID := c.Param "id"
  if config.Token = "" then
    pure (.json 200 (.obj [
      ("jobs", .jobs []),
      ("note", .str "Using example data because GitLab token is not configured")]))
  else
    let projectID := effectiveProjectID config c
    if projectID = "" then
      let ex ← exampleJobsNoProject E
      pure (.json 200 (.obj [
        ("jobs", .jobs ex),
        ("note", .str "Using example data because no project ID is configured or provided")]))
    else
      let endpoint := "projects/" ++ projectID ++ "/pipelines/" ++ pipelineID ++ "/jobs"
      let r ← makeGitLabAPIRequest E "GET" endpoint config
      match r with
      | .error _ =>
        let ex ← exampleJobsAPIError E
        pure (.json 200 (.obj [
          ("jobs", .jobs ex),
          ("note", .str "Using example data due to API error")]))
      | .ok body =>
        match E.lib.unmarshalJobs body with
        | .error _ =>
          pure (.json 200 (.obj [
            ("jobs", .jobs []),
            ("note", .str "Using example data due to parsing error")]))
        | .ok jobs => pure (.json 200 (.obj [("jobs", GoVal.ofSlice .jobs jobs)]))

/-- `GetPipelineJobs`. -/
def GetPipelineJobs (E : Env) (c : Request) : M Outcome :=
  withConfig E fun config => GetPipelineJobsWith E config c

/-- The value of a key of a `map[string]interface{}`, nil when the key is
absent or the map is nil. -/
def mapGet (m : Option GoMap) (key : String) : GoVal :=
  ((m.getD []).lookup key).getD .null

/-- A `map[string]interface{}` as a value: a nil map is `null`. -/
def GoVal.ofMap : Option GoMap → GoVal
  | some m => .obj m
  | none => .null

/-- The response of `GetPipelineDetails` built from the decoded upstream
map. -/
def pipelineDetailsResponse (pipelineMap : Option GoMap) : GoVal :=
  let response : GoMap := [
    ("id", mapGet pipelineMap "id"),
    ("status", mapGet pipelineMap "status"),
    ("ref", mapGet pipelineMap "ref"),
    ("sha", mapGet pipelineMap "sha"),
    ("web_url", mapGet pipelineMap "web_url"),
    ("created_at", mapGet pipelineMap "created_at"),
    ("updated_at", mapGet pipelineMap "updated_at"),
    ("started_at", mapGet pipelineMap "started_at"),
    ("finished_at", mapGet pipelineMap "finished_at"),
    ("duration", mapGet pipelineMap "duration"),
    ("coverage", mapGet pipelineMap "coverage")]
  match mapGet pipelineMap "user" with
  | .obj user => .obj (response.set "user" (.obj user))
  | _ =>
    .obj (response.set "user" (.obj [
      ("name", .str "Unknown User"),
      ("username", .str "unknown"),
      ("avatar_url", .str "")]))

/-- `GetPipelineDetails`, after the configuration is resolved. -/
def GetPipelineDetailsWith (E : Env) (config : GitLabConfig) (c : Request) : M Outcome := do
  let pipelineID := c.Param "id"
  if config.Token = "" then
    let ex ← getExamplePipelineDetails E
    pure (.json 200 (.obj [
      ("pipeline", ex),
      ("note", .str "Using example data because GitLab token is not configured")]))
  else
    let projectID := effectiveProjectID config c
    if projectID = "" then
      let ex ← getExamplePipelineDetails E
      pure (.json 200 (.obj [
        ("pipeline", ex),
        ("note", .str "Using example data because no project ID is configured or provided")]))
    else
      let endpoint := "projects/" ++ projectID ++ "/pipelines/" ++ pipelineID
      let r ← makeGitLabAPIRequest E "GET" endpoint config
      match r with
      | .error _ =>
        let ex ← getExamplePipelineDetails E
        pure (.json 200 (.obj [
          ("pipeline", ex),
          ("note", .str "Using example data due to API error")]))
      | .ok body =>
        match E.lib.unmarshalMap body with
        | .error _ =>
          let ex ← getExamplePipelineDetails E
          pure (.json 200 (.obj [
            ("pipeline", ex),
            ("note", .str "Using example data due to parsing error")]))
        | .ok pipelineMap =>
          pure (.json 200 (.obj [("pipeline", pipelineDetailsResponse pipelineMap)]))

/-- `GetPipelineDetails`. -/
def GetPipelineDetails (E : Env) (c : Request) : M Outcome :=
  withConfig E fun config => GetPipelineDetailsWith E config c

/-- `GetPipelineTestReport`, after the configuration is resolved. -/
def GetPipelineTestReportWith (E : Env) (config : GitLabConfig) (c : Request) : M Outcome := do
  let pipelineID := c.Param "id"
  if config.Token = "" then
    pure (.json 400 (.obj [("error", .str "GitLab token not configured")]))
  else if config.ProjectID = "" then
    pure (.json 400 (.obj [("error", .str "GitLab project ID not configured")]))
  else
    let endpoint := "projects/" ++ config.ProjectID ++ "/pipelines/" ++ pipelineID ++ "/test_report"
    let r ← makeGitLabAPIRequest E "GET" endpoint config
    match r with
    | .error _ => pure (.json 200 exampleTestReport)
    | .ok body =>
      match E.lib.unmarshalMap body with
      | .error err =>
        pure (.json 500 (.obj [
          ("error", .str ("Error parsing GitLab pipeline test report: " ++ err))]))
      | .ok testReport => pure (.json 200 (GoVal.ofMap testReport))

/-- `GetPipelineTestReport`. -/
def GetPipelineTestReport (E : Env) (c : Request) : M Outcome :=
  withConfig E fun config => GetPipelineTestReportWith E config c

/-- `GetPipelineTestReportSummary`, after the configuration is resolved. -/
def GetPipelineTestReportSummaryWith (E : Env) (config : GitLabConfig) (c : Request) :
    M Outcome := do
  let pipelineID := c.Param "id"
  if config.Token = "" then
    pure (.json 200 getExampleTestReportSummary)
  else
    let projectID := effectiveProjectID config c
    if projectID = "" then
      pure (.json 200 getExampleTestReportSummary)
    else
      let endpoint :=
        "projects/" ++ projectID ++ "/pipelines/" ++ pipelineID ++ "/test_report_summary"
      let r ← makeGitLabAPIRequest E "GET" endpoint config
      match r with
      | .error err =>
        if strings.Contains err "404" then
          pure (.json 200 (zeroSummary "No test report available for this pipeline"))
        else
          pure (.json 200 (zeroSummary ("Error fetching test report: " ++ err)))
      | .ok body =>
        match E.lib.unmarshalMap body with
        | .error err => pure (.json 200 (zeroSummary ("Error parsing test report: " ++ err)))
        | .ok testReportSummary =>
          if testReportSummary.isNone ∨ (testReportSummary.getD []).length = 0 then
            pure (.json 200 (zeroSummary "No test data available for this pipeline"))
          else
            pure (.json 200 (GoVal.ofMap testReportSummary))

/-- `GetPipelineTestReportSummary`. -/
def GetPipelineTestReportSummary (E : Env) (c : Request) : M Outcome :=
  withConfig E fun config => GetPipelineTestReportSummaryWith E config c

/-- `RetryPipeline`, after the configuration is resolved. -/
def RetryPipelineWith (E : Env) (config : GitLabConfig) (c : Request) : M Outcome := do
  let pipelineID := c.Param "id"
  if config.Token = "" then
    pure (.json 200 (.obj [
      ("message", .str "Cannot retry pipeline: GitLab token not configured"),
      ("success", .bool false)]))
  else
    let projectID := effectiveProjectID config c
    if projectID = "" then
      pure (.json 200 (.obj [
        ("message", .str "Cannot retry pipeline: No project ID configured or provided"),
        ("success", .bool false)]))
    else
      let endpoint := "projects/" ++ projectID ++ "/pipelines/" ++ pipelineID ++ "/retry"
      let url := config.URL ++ "/api/v4/" ++ endpoint
      match E.lib.NewRequest "POST" url with
      | some err =>
        pure (.json 200 (.obj [
          ("message", .str ("Failed to retry pipeline: " ++ err)),
          ("success", .bool false)]))
      | none =>
        let resp ← clientDo E { method := "POST", url := url, token := config.Token }
        match resp with
        | .transportError err =>
          pure (.json 200 (.obj [
            ("message", .str ("Failed to retry pipeline: " ++ err)),
            ("success", .bool false)]))
        | .response status body readErr =>
          if status ≠ 200 ∧ status ≠ 201 then
            pure (.json 200 (.obj [
              ("message", .str ("Failed to retry pipeline: GitLab API returned status code " ++
                toString status)),
              ("success", .bool false)]))
          else
            match readErr with
            | some _ =>
              pure (.json 200 (.obj [
                ("message", .str "Pipeline retry initiated but failed to read response"),
                ("success", .bool true)]))
            | none =>
              match E.lib.unmarshalMap body with
              | .error _ =>
                pure (.json 200 (.obj [
                  ("message", .str "Pipeline retry initiated but failed to parse response"),
                  ("success", .bool true)]))
              | .ok response =>
                pure (.json 200 (.obj [
                  ("message", .str "Pipeline retry initiated successfully"),
                  ("success", .bool true),
                  ("pipeline", GoVal.ofMap response)]))

/-- `RetryPipeline`. -/
def RetryPipeline (E : Env) (c : Request) : M Outcome :=
  withConfig E fun config => RetryPipelineWith E config c

/-- `CancelPipeline`, after the configuration is resolved. -/
def CancelPipelineWith (E : Env) (config : GitLabConfig) (c : Request) : M Outcome := do
  let pipelineID := c.Param "id"
  if config.Token = "" then
    pure (.json 400 (.obj [("error", .str "GitLab token not configured")]))
  else if config.ProjectID = "" then
    pure (.json 400 (.obj [("error", .str "GitLab project ID not configured")]))
  else
    let endpoint := "projects/" ++ config.ProjectID ++ "/pipelines/" ++ pipelineID ++ "/cancel"
    let r ← makeGitLabAPIRequest E "POST" endpoint config
    match r with
    | .error err =>
      pure (.json 500 (.obj [("error", .str ("Error canceling pipeline: " ++ err))]))
    | .ok body =>
      match E.lib.unmarshalPipeline body with
      | .error err =>
        pure (.json 500 (.obj [("error", .str ("Error parsing GitLab pipeline: " ++ err))]))
      | .ok pipeline => pure (.json 200 (.obj [("pipeline", .pipeline pipeline)]))

/-- `CancelPipeline`. -/
def CancelPipeline (E : Env) (c : Request) : M Outcome :=
  withConfig E fun config => CancelPipelineWith E config c

/-- `GetPipelineVariables`, after the configuration is resolved. -/
def GetPipelineVariablesWith (E : Env) (config : GitLabConfig) (c : Request) : M Outcome := do
  let pipelineID := c.Param "id"
  if config.Token = "" then
    pure (.json 200 (.obj [
      ("variables", getExampleVariables),
      ("note", .str "Using example data because GitLab token is not configured")]))
  else
    let projectID := effectiveProjectID config c
    if projectID = "" then
      pure (.json 200 (.obj [
        ("variables", getExampleVariables),
        ("note", .str "Using example data because no project ID is configured or provided")]))
    else
      let endpoint := "projects/" ++ projectID ++ "/pipelines/" ++ pipelineID ++ "/variables"
      let r ← makeGitLabAPIRequest E "GET" endpoint config
      match r with
      | .error err =>
        pure (.json 200 (.obj [
          ("variables", .arr []),
          ("note", .str ("No variables available: " ++ err))]))
      | .ok body =>
        match E.lib.unmarshalMaps body with
        | .error err =>
          pure (.json 200 (.obj [
            ("variables", .arr []),
            ("note", .str ("Error parsing variables: " ++ err))]))
        | .ok vars =>
          if (vars.getD []).length = 0 then
            pure (.json 200 (.obj [
              ("variables", .arr []),
              ("note", .str "No variables found for this pipeline")]))
          else
            pure (.json 200 (.obj [("variables", GoVal.ofSlice .arr vars)]))

/-- `GetPipelineVariables`. -/
def GetPipelineVariables (E : Env) (c : Request) : M Outcome :=
  withConfig E fun config => GetPipelineVariablesWith E config c

/-- `GetJobDetails` from its second resolution of the configuration on, with
the project id already chosen. Writing `job["trace"]` panics when the job
decoded to a nil map. -/
def GetJobDetailsFor (E : Env) (projectID jobID : String) : M Outcome :=
  withConfig E fun config => do
    if config.Token = "" then
      let ex ← exampleJob E
      pure (.json 200 (.obj [
        ("job", ex),
        ("note", .str "Using example data because GitLab token is not configured")]))
    else
      let endpoint := "projects/" ++ projectID ++ "/jobs/" ++ jobID
      let r ← makeGitLabAPIRequest E "GET" endpoint config
      match r with
      | .error err =>
        if strings.Contains err "404" then
          let nf ← jobNotFound E config jobID
          pure (.json 200 (.obj [
            ("job", nf),
            ("note", .str ("Job with ID " ++ jobID ++
              " not found. Please check if the job exists and you have access to it."))]))
        else
          let ex ← exampleJob E
          pure (.json 200 (.obj [
            ("job", ex),
            ("note", .str ("Error fetching job details: " ++ err))]))
      | .ok body =>
        match E.lib.unmarshalMap body with
        | .error err =>
          let ex ← exampleJob E
          pure (.json 200 (.obj [
            ("job", ex),
            ("note", .str ("Error parsing job details: " ++ err))]))
        | .ok job =>
          let traceEndpoint := "projects/" ++ projectID ++ "/jobs/" ++ jobID ++ "/trace"
          let tr ← makeGitLabAPIRequest E "GET" traceEndpoint config
          let trace :=
            match tr with
            | .ok traceBody => traceBody
            | .error _ => "Job logs not available"
          match job with
          | none => pure (.panic "assignment to entry in nil map")
          | some job =>
            let job := job.set "trace" (.str trace)
            let artifactsEndpoint := "projects/" ++ projectID ++ "/jobs/" ++ jobID ++ "/artifacts"
            let ar ← makeGitLabAPIRequest E "GET" artifactsEndpoint config
            let job :=
              match ar with
              | .ok artifactsBody =>
                match E.lib.unmarshalMaps artifactsBody with
                | .ok artifacts => job.set "artifacts" (GoVal.ofSlice .arr artifacts)
                | .error _ => job
              | .error _ => job.set "artifacts" (.arr [])
            pure (.json 200 (.obj [("job", .obj job)]))

/-- `GetJobDetails`: the project id is taken from the query first and from the
configuration only when the query has none. -/
def GetJobDetails (E : Env) (c : Request) : M Outcome :=
  let jobID := c.Param "id"
  let projectID := c.Query "project_id"
  if projectID = "" then
    withConfig E fun config => do
      let projectID := config.ProjectID
      if projectID = "" then
        let ex ← exampleJob E
        pure (.json 200 (.obj [
          ("job", ex),
          ("note", .str "Using example data because no project ID is configured or provided")]))
      else GetJobDetailsFor E projectID jobID
  else GetJobDetailsFor E projectID jobID

/-- The endpoint that `GetGitLabMergeRequests` builds from the project id and
the query parameters of the request. -/
def mergeRequestsEndpoint (projectID : String) (c : Request) : String :=
  let state := c.DefaultQuery "state" "all"
  let perPage := c.DefaultQuery "per_page" "100"
  let page := c.DefaultQuery "page" "1"
  let orderBy := c.DefaultQuery "order_by" "created_at"
  let sort := c.DefaultQuery "sort" "desc"
  "projects/" ++ projectID ++ "/merge_requests?state=" ++ state ++ "&per_page=" ++
    perPage ++ "&page=" ++ page ++ "&order_by=" ++ orderBy ++ "&sort=" ++ sort

/-- `GetGitLabMergeRequests`, after the configuration is resolved. -/
def GetGitLabMergeRequestsWith (E : Env) (config : GitLabConfig) (c : Request) :
    M Outcome := do
  if config.Token = "" then
    let ex ← getExampleMergeRequests E
    pure (.json 200 (.obj [
      ("merge_requests", .mergeRequests ex),
      ("note", .str "Using example data because GitLab token is not configured")]))
  else
    let projectID := config.ProjectID
    if projectID = "" then
      let ex ← getExampleMergeRequests E
      pure (.json 200 (.obj [
        ("merge_requests", .mergeRequests ex),
        ("note", .str "Using example data because no project ID is configured")]))
    else
      let endpoint := mergeRequestsEndpoint projectID c
      let r ← makeGitLabAPIRequest E "GET" endpoint config
      match r with
      | .error err =>
        let ex ← getExampleMergeRequests E
        pure (.json 200 (.obj [
          ("merge_requests", .mergeRequests ex),
          ("note", .str ("Error fetching merge requests: " ++ err ++
            ". Using example data instead."))]))
      | .ok body =>
        match E.lib.unmarshalMergeRequests body with
        | .error err =>
          let ex ← getExampleMergeRequests E
          pure (.json 200 (.obj [
            ("merge_requests", .mergeRequests ex),
            ("note", .str ("Error parsing merge requests: " ++ err ++
              ". Using example data instead."))]))
        | .ok mergeRequests =>
          pure (.json 200 (.obj [
            ("merge_requests", GoVal.ofSlice .mergeRequests mergeRequests),
            ("count", .int (mergeRequests.getD []).length)]))

/-- `GetGitLabMergeRequests`. -/
def GetGitLabMergeRequests (E : Env) (c : Request) : M Outcome :=
  withConfig E fun config => GetGitLabMergeRequestsWith E config c

/-! ## `server.go` -/

/-- The handler of `GET /gitlab/config` that `main` registers: the resolved
configuration with `token_set` in place of the token. -/
def gitlabConfigHandler (E : Env) (_c : Request) : M Outcome :=
  match GetGitLabConfig E.lib.config E.fs with
  | (_, some err) =>
    pure (.json 500 (.obj [("error", .str ("Error getting GitLab config: " ++ err))]))
  | (config, none) =>
    pure (.json 200 (.obj [
      ("url", .str config.URL),
      ("token_set", .bool (config.Token != "")),
      ("project_id", .str config.ProjectID)]))

/-! ## `token_auth_test.go` -/

/-- One HTTP request of `TokenAuth`, with its two headers. -/
structure AuthRequest where
  method : String
  url : String
  authorization : String
  accept : String
  deriving DecidableEq, Repr

/-- Everything `TokenAuth` depends on: the value of `ARGOCD_TEST_URL` after
`godotenv.Load`, `http.NewRequest` (its error, `none` when the request can be
built), the server behind `client.Do`, and `json.NewDecoder(resp.Body).Decode`
at the target `map[string]interface{}`, which reads the body stream (the bytes
it delivers and the error of the stream); `none` is the nil map that the JSON
text `null` decodes to. -/
structure AuthEnv where
  testUrl : String
  NewRequest : String → String → Option String
  Do : AuthRequest → UpResult
  Decode : String → Option String → Except String (Option GoMap)

/-- `TokenAuth`. -/
def TokenAuth (A : AuthEnv) (token : String) : Bool :=
  let url := A.testUrl
  let bearer := "Bearer " ++ token
  match A.NewRequest "GET" url with
  | some _ => false
  | none =>
    match A.Do { method := "GET", url := url, authorization := bearer,
                 accept := "application/json" } with
    | .transportError _ => false
    | .response status body readErr =>
      if status ≠ 200 then false
      else
        match A.Decode body readErr with
        | .ok _ => true
        | .error _ => false

/-! ## Vocabulary of the properties -/

/-- The configuration that every handler resolves at its start. -/
def resolved (E : Env) : GitLabConfig := (GetGitLabConfig E.lib.config E.fs).1

/-- The note of the handlers when no token is configured. -/
def tokenNote : String := "Using example data because GitLab token is not configured"

/-- The note of the handlers when no project id is configured or provided. -/
def projectNote : String :=
  "Using example data because no project ID is configured or provided"

/-- The note of `GetGitLabMergeRequests` when no project id is configured. -/
def projectNoteMR : String := "Using example data because no project ID is configured"

/-- The response body carries a non-empty note. -/
def Outcome.hasNote (o : Outcome) : Prop := ∃ n, o.note = some n ∧ n ≠ ""

/-- The project id that `GetJobDetails` uses: the query parameter when it is
not empty, otherwise the configured one. -/
def jobProjectID (E : Env) (c : Request) : String :=
  if c.Query "project_id" = "" then (resolved E).ProjectID else c.Query "project_id"

/-- The first upstream request of an operation, a GET of `endpoint` sent in
state `w`, fails, or it succeeds with a body that `decodes` rejects. -/
def primaryFails (E : Env) (w : World) (endpoint : String) (decodes : String → Bool) :
    Prop :=
  match (makeGitLabAPIRequest E "GET" endpoint (resolved E) w).1 with
  | .error _ => True
  | .ok body => decodes body = false

/-- Every run of `m` ends in an outcome that satisfies `P`. -/
def Always (P : Outcome → Prop) (m : M Outcome) : Prop := ∀ w, P (m w).1

/-- The nine aggregation operations. -/
def aggregationOps : List (Env → Request → M Outcome) :=
  [GetGitLabPipelines, GetGitLabPipeline, GetPipelineJobs, GetPipelineDetails,
   GetPipelineTestReport, GetPipelineTestReportSummary, GetPipelineVariables,
   GetJobDetails, GetGitLabMergeRequests]

/-- All handlers of the GitLab controller. -/
def controllerHandlers : List (Env → Request → M Outcome) :=
  aggregationOps ++ [GetGitLabProjects, RetryPipeline, CancelPipeline]

/-- The value of one field of a configuration, by the field names of
`updateConfig`. -/
def GitLabConfig.get (config : GitLabConfig) (field : String) : String :=
  if field = "url" then config.URL
  else if field = "token" then config.Token
  else if field = "project_id" then config.ProjectID
  else ""

/-- The lines of the flat store, none when it cannot be read. -/
def flatLines (fs : FileSys) : List String :=
  match fs.dotenv.read with
  | .ok content => strings.Split content "\n"
  | .error _ => []

/-- The configuration in the structured store, when the store can be read and
parses. -/
def structuredConfig (J : ConfigCodec) (fs : FileSys) : Option GitLabConfig :=
  match fs.config.read with
  | .ok jsonContent => (J.unmarshal jsonContent).toOption
  | .error _ => none

/-- The remainder of the last line that starts with `pfx`, when there is such a
line. -/
def lastWithPrefix (lines : List String) (pfx : String) : Option String :=
  ((lines.filter fun line => strings.HasPrefix line pfx).getLast?).map fun line =>
    strings.TrimPrefix line pfx

/-- The resolution order of one field as the specification words it: the
structured value when present and non-empty, otherwise the flat value when
present, otherwise the default. -/
def resolveField (structured flat : Option String) (dflt : String) : String :=
  match structured with
  | some v => if v ≠ "" then v else flat.getD dflt
  | none => flat.getD dflt

/-- A line of the flat store starts with one of the three known keys. -/
def knownLine (line : String) : Bool :=
  strings.HasPrefix line "GITLAB_URL=" || strings.HasPrefix line "GITLAB_TOKEN=" ||
    strings.HasPrefix line "GITLAB_PROJECT_ID="

/-- Scan for `specEmbedsProjectID`: some occurrence of `projects/` in the text
is followed by a number whose digits are exactly `digits`. -/
def specEmbedsAux (digits : List Char) : List Char → Bool
  | [] => false
  | c :: cs =>
    ("projects/".data.isPrefixOf (c :: cs) &&
        ((c :: cs).drop 9).takeWhile Char.isDigit == digits) ||
      specEmbedsAux digits cs

/-- The wording of the specification for the decoration of a `webURL`: the URL
already embeds the project's numeric id, that is, it has a path component
`projects/<n>` whose number `n` equals the id. -/
def specEmbedsProjectID (webURL : String) (id : Int) : Bool :=
  specEmbedsAux (toString id).data webURL.data

/-- What one project contributes to the merged pipeline list of the fan-out:
nothing when its request fails or its body does not parse, otherwise its
pipelines in upstream order, each with the project name added to `Ref` and the
`WebURL` decorated. -/
def projectContribution (E : Env) (config : GitLabConfig) (project : GitLabProject) :
    M (List GitLabPipeline) := do
  let r ← makeGitLabAPIRequest E "GET"
    ("projects/" ++ toString project.ID ++ "/pipelines?per_page=5") config
  match r with
  | .error _ => pure []
  | .ok body =>
    match E.lib.unmarshalPipelines body with
    | .error _ => pure []
    | .ok ps =>
      pure ((ps.getD []).map fun p =>
        { p with
          Ref := p.Ref ++ " (" ++ project.Name ++ ")"
          WebURL := decorateWebURL p.WebURL project.ID })

/-- `strings.Join` on character lists, for a one-character separator. -/
def joinData (c0 : Char) : List (List Char) → List Char
  | [] => []
  | [a] => a
  | a :: b :: rest => a ++ c0 :: joinData c0 (b :: rest)

/-- The lines that `updateDotenv` writes, from the lines it read. -/
def upsertLines (key value : String) (lines : List String) : List String :=
  if (replaceFirst key value lines).2 then (replaceFirst key value lines).1
  else (replaceFirst key value lines).1 ++ [key ++ "=" ++ value]

/-- The key of a line of the flat store as the specification words it: the text
before the first `=`, for a line that has one. -/
def lineKey (line : String) : Option String :=
  if '=' ∈ line.data then some (String.mk (line.data.takeWhile fun c => c != '=')) else none

/-- The URL that `makeGitLabAPIRequest` builds for an endpoint. -/
def apiURL (config : GitLabConfig) (endpoint : String) : String :=
  config.URL ++ "/api/v4/" ++ endpoint

/-- The error text of `makeGitLabAPIRequest` for a status that is neither 200
nor 201. -/
def statusError (status : Int) (body : String) : String :=
  if body ≠ "" then "GitLab API returned status code " ++ toString status ++ ": " ++ body
  else "GitLab API returned status code " ++ toString status

/-- The endpoint of `GetPipelineTestReportSummary`. -/
def summaryEndpoint (E : Env) (c : Request) : String :=
  "projects/" ++ effectiveProjectID (resolved E) c ++ "/pipelines/" ++ c.Param "id" ++
    "/test_report_summary"

/-- The URL of the request of `RetryPipeline`. -/
def retryURL (E : Env) (c : Request) : String :=
  apiURL (resolved E)
    ("projects/" ++ effectiveProjectID (resolved E) c ++ "/pipelines/" ++ c.Param "id" ++
      "/retry")

/-- The endpoint of `CancelPipeline`. -/
def cancelEndpoint (E : Env) (c : Request) : String :=
  "projects/" ++ (resolved E).ProjectID ++ "/pipelines/" ++ c.Param "id" ++ "/cancel"

/-- The response of `RetryPipeline` for a failure: HTTP 200 with `success` false. -/
def retryFailure (message : String) : Outcome :=
  .json 200 (.obj [("message", .str message), ("success", .bool false)])

/-- The eleven keys that `GetPipelineDetails` copies from the upstream map. -/
def recognizedFields : List String :=
  ["id", "status", "ref", "sha", "web_url", "created_at", "updated_at", "started_at",
    "finished_at", "duration", "coverage"]

/-- The default user block of `GetPipelineDetails`. -/
def unknownUser : GoVal :=
  .obj [("name", .str "Unknown User"), ("username", .str "unknown"), ("avatar_url", .str "")]

/-- The endpoint of `GetPipelineDetails`. -/
def pipelineDetailsEndpoint (E : Env) (c : Request) : String :=
  "projects/" ++ effectiveProjectID (resolved E) c ++ "/pipelines/" ++ c.Param "id"

/-- The request that `makeGitLabAPIRequest` sends for an endpoint. -/
def callOf (config : GitLabConfig) (method endpoint : String) : Call :=
  { method := method, url := apiURL config endpoint, token := config.Token }

/-- What `c.JSON` writes for a `GitLabJob`: one key for each field, named by
its `json` tag. A `time.Time` field is always written as a time: the struct has
no representation of an absent one. -/
def GitLabJob.toJSON (j : GitLabJob) : GoMap :=
  [("id", .int j.ID), ("name", .str j.Name), ("status", .str j.Status),
   ("stage", .str j.Stage), ("created_at", .time j.CreatedAt),
   ("started_at", .time j.StartedAt), ("finished_at", .time j.FinishedAt),
   ("duration", .float j.Duration), ("web_url", .str j.WebURL),
   ("user", .obj [("id", .int j.User.ID), ("name", .str j.User.Name),
     ("username", .str j.User.Username), ("web_url", .str j.User.WebURL),
     ("avatar_url", .str j.User.AvatarURL)])]

/-- The request of `TokenAuth` for a token. -/
def authRequest (A : AuthEnv) (token : String) : AuthRequest :=
  { method := "GET", url := A.testUrl, authorization := "Bearer " ++ token,
    accept := "application/json" }

/-- The zero `time.Time`, 0001-01-01T00:00:00Z: what `json.Unmarshal` leaves in
a `time.Time` field whose JSON value is null or missing. -/
def zeroTime : Time := -62135596800 * 1000000000

/-- One pass of the loop body of the enrichment for a pipeline in state `w`:
the pipeline afterwards and the state afterwards. -/
def enrichStep (E : Env) (config : GitLabConfig) (pipeline : GitLabPipeline) (w : World) :
    GitLabPipeline × World :=
  if detailsEndpoint E config pipeline = "" then (pipeline, w)
  else
    match makeGitLabAPIRequest E "GET" (detailsEndpoint E config pipeline) config w with
    | (.error _, w1) => (pipeline, w1)
    | (.ok body, w1) =>
      match E.lib.unmarshalPipeline body with
      | .error _ => (pipeline, w1)
      | .ok pipelineDetails => ({ pipeline with User := pipelineDetails.User }, w1)

/-- The enrichment of one pipeline in state `w` is skipped: its endpoint cannot
be derived, its request fails, or the body of the answer does not parse. -/
def enrichmentSkipped (E : Env) (config : GitLabConfig) (pipeline : GitLabPipeline)
    (w : World) : Prop :=
  detailsEndpoint E config pipeline = "" ∨
  (∃ err, (makeGitLabAPIRequest E "GET" (detailsEndpoint E config pipeline) config w).1 =
    .error err) ∨
  ∃ body err,
    (makeGitLabAPIRequest E "GET" (detailsEndpoint E config pipeline) config w).1 = .ok body ∧
    E.lib.unmarshalPipeline body = .error err

/-- The requests sent between the states `w` and `w2` are those of a handler
whose only upstream request is `method endpoint`: that one request when
`http.NewRequest` can build it, and none when it cannot. -/
def oneRequest (E : Env) (method endpoint : String) (w w2 : World) : Prop :=
  match E.lib.NewRequest method (apiURL (resolved E) endpoint) with
  | none => w2.calls = w.calls ++ [callOf (resolved E) method endpoint]
  | some _ => w2.calls = w.calls

/-- The requests sent between the states `w` and `w2` are those of a handler
whose first upstream request is `method endpoint`: they start with that
request when `http.NewRequest` can build it, and there is none when it
cannot. -/
def firstRequest (E : Env) (method endpoint : String) (w w2 : World) : Prop :=
  match E.lib.NewRequest method (apiURL (resolved E) endpoint) with
  | none => w.calls ++ [callOf (resolved E) method endpoint] <+: w2.calls
  | some _ => w2.calls = w.calls

/-! ## A test double of the environment

Stubs for the libraries and the upstream server, used to run the handlers on
concrete inputs. -/

/-- The stub encoding of one string: every character is preceded by a dot, the
end is an exclamation mark. -/
def stubEscape : List Char → List Char
  | [] => ['!']
  | c :: cs => '.' :: c :: stubEscape cs

/-- The inverse of `stubEscape`: the decoded string and the rest of the input. -/
def stubUnescape : List Char → Option (List Char × List Char)
  | [] => none
  | [_] => none
  | a :: b :: rest =>
    if a = '!' then some ([], b :: rest)
    else if a = '.' then (stubUnescape rest).map fun r => (b :: r.1, r.2)
    else none

/-- A stub for `encoding/json` at `GitLabConfig` that reads back what it
writes. -/
def stubCodec : ConfigCodec where
  marshal c :=
    .ok (String.mk (stubEscape c.URL.data ++ stubEscape c.Token.data ++
      stubEscape c.ProjectID.data ++ ['.']))
  unmarshal s :=
    match stubUnescape s.data with
    | none => .error "unexpected end of JSON input"
    | some (u, r1) =>
      match stubUnescape r1 with
      | none => .error "unexpected end of JSON input"
      | some (t, r2) =>
        match stubUnescape r2 with
        | none => .error "unexpected end of JSON input"
        | some (p, _) => .ok { URL := String.mk u, Token := String.mk t, ProjectID := String.mk p }

/-- A pipeline of the stub upstream. -/
def stubPipeline (id : Int) (ref webURL : String) : GitLabPipeline :=
  { ID := id, Status := "success", Ref := ref, SHA := "0a1b2c3d", WebURL := webURL,
    CreatedAt := 0, UpdatedAt := 0,
    User := { ID := 0, Name := "", Username := "", WebURL := "", AvatarURL := "" } }

/-- A project of the stub upstream. -/
def stubProject (id : Int) (name : String) : GitLabProject :=
  { ID := id, Name := name, NameWithNamespace := "Group / " ++ name,
    WebURL := "https://gitlab.com/group/" ++ name }

/-- The six projects of the stub upstream. -/
def stubProjects : List GitLabProject :=
  [stubProject 1 "P1", stubProject 2 "P2", stubProject 3 "P3", stubProject 4 "P4",
   stubProject 5 "P5", stubProject 6 "P6"]

/-- Stub libraries: the decoders know the bodies of the stub upstream and
reject everything else. -/
def stubLib : Lib where
  config := stubCodec
  unmarshalProjects body :=
    if body = "six projects" then .ok (some stubProjects) else .error "invalid character"
  unmarshalPipelines body :=
    if body = "pipelines of 1" then
      .ok (some [stubPipeline 11 "main" "https://gitlab.com/group/P1/-/pipelines/11",
           stubPipeline 12 "dev" "https://gitlab.com/group/P1/-/pipelines/12"])
    else if body = "pipelines of 2" then
      .ok (some [stubPipeline 21 "main" "https://gitlab.com/group/P2/-/pipelines/21"])
    else if body = "pipelines of 3" then
      .ok (some [stubPipeline 31 "main" "https://gitlab.com/group/P3/-/pipelines/31"])
    else if body = "pipelines of 4" then
      .ok (some [stubPipeline 41 "main" "https://gitlab.com/group/P4/-/pipelines/41"])
    else if body = "pipelines of 5" then
      .ok (some [stubPipeline 51 "main" "https://gitlab.com/group/P5/-/pipelines/51"])
    else if body = "pipelines of 6" then
      .ok (some [stubPipeline 61 "main" "https://gitlab.com/group/P6/-/pipelines/61"])
    else .error "invalid character"
  unmarshalPipeline _ := .error "invalid character"
  unmarshalJobs _ := .error "invalid character"
  unmarshalMergeRequests _ := .error "invalid character"
  unmarshalMap body := if body = "null" then .ok none else .error "invalid character"
  unmarshalMaps _ := .error "invalid character"
  formatRFC3339 _ := "2024-01-01T00:00:00Z"
  PathEscape s := s
  NewRequest _ _ := none

/-- The stub upstream: it serves six projects, fails for the pipelines of
project 3, answers the test report of pipeline 1 of project 7 with a page that
is not JSON and the job 9 of project 7 with `null`, and is unreachable for
everything else. -/
def stubUpstream (_history : List Call) (call : Call) : UpResult :=
  let api := "https://gitlab.com/api/v4/"
  if call.url = api ++ "projects?membership=true&per_page=5" then
    .response 200 "six projects" none
  else if call.url = api ++ "projects/1/pipelines?per_page=5" then
    .response 200 "pipelines of 1" none
  else if call.url = api ++ "projects/2/pipelines?per_page=5" then
    .response 200 "pipelines of 2" none
  else if call.url = api ++ "projects/3/pipelines?per_page=5" then
    .response 500 "" none
  else if call.url = api ++ "projects/4/pipelines?per_page=5" then
    .response 200 "pipelines of 4" none
  else if call.url = api ++ "projects/5/pipelines?per_page=5" then
    .response 200 "pipelines of 5" none
  else if call.url = api ++ "projects/6/pipelines?per_page=5" then
    .response 200 "pipelines of 6" none
  else if call.url = api ++ "projects/7/pipelines/1/test_report" then
    .response 200 "<html>" none
  else if call.url = api ++ "projects/7/jobs/9" then
    .response 200 "null" none
  else .transportError "connection refused"

/-- A file that exists with the given content. -/
def fileWith (content : String) : File :=
  { content := some content, readable := true, writable := true }

/-- A file that does not exist yet. -/
def fileAbsent : File := { content := none, readable := true, writable := true }

/-- The stub environment over given configuration files. -/
def stubEnv (fs : FileSys) : Env :=
  { lib := stubLib, upstream := stubUpstream, clock := fun n => n, fs := fs }

/-- No configuration file exists: the configuration is the default one, without
token. -/
def fsEmpty : FileSys := { dotenv := fileAbsent, config := fileAbsent }

/-- A token is configured, a project id is not. -/
def fsToken : FileSys := { dotenv := fileWith "GITLAB_TOKEN=secret", config := fileAbsent }

/-- A token and the project id 7 are configured. -/
def fsProject : FileSys :=
  { dotenv := fileWith "GITLAB_TOKEN=secret\nGITLAB_PROJECT_ID=7", config := fileAbsent }

/-- The flat store holds a token and cannot be written; no structured store
exists yet. -/
def fsStale : FileSys :=
  { dotenv := { content := some "GITLAB_TOKEN=old", readable := true, writable := false },
    config := fileAbsent }

/-- The flat store holds two lines of the token key. -/
def fsDuplicate : FileSys :=
  { dotenv := fileWith "GITLAB_TOKEN=a\nGITLAB_TOKEN=b", config := fileAbsent }

/-- A request for the pipeline or job `id`, without query parameters. -/
def requestFor (id : String) : Request := { params := [("id", id)], query := [] }

/-- The state of a handler that has just been entered. -/
def World.start : World := { calls := [], ticks := 0 }

/-- The state of `GetGitLabPipelines` in the stub environment with a token and
without a project id, after its request for the projects. -/
def stubFanOutStart : World :=
  (makeGitLabAPIRequest (stubEnv fsToken) "GET" "projects?membership=true&per_page=5"
    (resolved (stubEnv fsToken)) World.start).2

/-- The flat store holds a line that sets the URL to the empty string. -/
def fsEmptyURL : FileSys := { dotenv := fileWith "GITLAB_URL=", config := fileAbsent }

/-- A stub environment whose upstream gives the same answer to every request. -/
def envAnswering (r : UpResult) (fs : FileSys) : Env :=
  { lib := stubLib, upstream := fun _ _ => r, clock := fun n => n, fs := fs }

/-- A stub environment, with token and project 7 configured, whose upstream
answers 200 to every request and whose decoder reads every body as the JSON
object `m`. -/
def envDecoding (m : GoMap) : Env :=
  { lib := { stubLib with unmarshalMap := fun _ => .ok (some m) },
    upstream := fun _ _ => .response 200 "a pipeline object" none,
    clock := fun n => n,
    fs := fsProject }

/-- An upstream pipeline object with an unrecognized key and without a user. -/
def stubDetails : GoMap :=
  [("id", .float 5), ("status", .str "success"), ("yaml_errors", .str "none"),
    ("coverage", .str "81.5")]

/-- A request with the given query parameters and no path parameter. -/
def requestWithQuery (query : List (String × String)) : Request :=
  { params := [], query := query }

/-- A stub library whose slice decoders read the text `null` as the nil slice
and every other text as the empty slice. -/
def libEmptyLists : Lib :=
  { stubLib with
    unmarshalPipelines := fun body => if body = "null" then .ok none else .ok (some [])
    unmarshalJobs := fun body => if body = "null" then .ok none else .ok (some [])
    unmarshalMergeRequests := fun body => if body = "null" then .ok none else .ok (some [])
    unmarshalMaps := fun body => if body = "null" then .ok none else .ok (some []) }

/-- A stub environment, with token and project 7 configured, whose upstream
answers 200 with the body `[]` to every request. -/
def envEmptyLists : Env :=
  { lib := libEmptyLists,
    upstream := fun _ _ => .response 200 "[]" none,
    clock := fun n => n,
    fs := fsProject }

/-- A stub environment, with token and project 7 configured, whose upstream
answers 200 with the body `null` to every request. -/
def envNullLists : Env :=
  { lib := libEmptyLists,
    upstream := fun _ _ => .response 200 "null" none,
    clock := fun n => n,
    fs := fsProject }

/-- A job that has not started, as `json.Unmarshal` decodes it from an upstream
job whose `started_at` and `finished_at` are null. -/
def pendingJob : GitLabJob :=
  { ID := 9, Name := "deploy", Status := "created", Stage := "deploy",
    CreatedAt := 1700000000 * 1000000000, StartedAt := zeroTime, FinishedAt := zeroTime,
    Duration := 0, WebURL := "https://gitlab.com/group/project/-/jobs/9", User := johnDoe }

/-- A stub environment, with token and project 7 configured, whose upstream
answers 200 to every request and whose decoder reads every body as the job
list `js`. -/
def envDecodingJobs (js : List GitLabJob) : Env :=
  { lib := { stubLib with unmarshalJobs := fun _ => .ok (some js) },
    upstream := fun _ _ => .response 200 "a job list" none,
    clock := fun n => n,
    fs := fsProject }

/-- A stub of the environment of `TokenAuth`: the server answers every request
with the given result, and the decoder accepts the texts `null` (the nil map)
and `{}` (the empty object) read without error. -/
def authEnvAnswering (r : UpResult) : AuthEnv :=
  { testUrl := "https://argocd.test/api/v1/account",
    NewRequest := fun _ _ => none,
    Do := fun _ => r,
    Decode := fun body readErr =>
      if readErr.isSome then .error "unexpected EOF"
      else if body = "null" then .ok none
      else if body = "\x7b\x7d" then .ok (some [])
      else .error "invalid character" }

/-- A stub library that reads the details body `details of 11` as a pipeline
with the user John Doe, escapes `/` in a path as `%2F`, and is `stubLib`
otherwise. -/
def libDetails : Lib :=
  { stubLib with
    unmarshalPipeline := fun body =>
      if body = "details of 11" then
        .ok { stubPipeline 11 "other" "https://gitlab.com/other" with User := johnDoe }
      else .error "invalid character"
    PathEscape := fun s =>
      String.mk (s.data.flatMap fun ch => if ch = '/' then ['%', '2', 'F'] else [ch]) }

/-- A stub upstream that serves the details of pipeline 11 of `group/P1` and
refuses every other request. -/
def upstreamDetails (_history : List Call) (call : Call) : UpResult :=
  if call.url = "https://gitlab.com/api/v4/projects/group%2FP1/pipelines/11" then
    .response 200 "details of 11" none
  else .transportError "connection refused"

/-- A stub environment with a token and without a project id, for the
enrichment pass. -/
def envDetails : Env :=
  { lib := libDetails, upstream := upstreamDetails, clock := fun n => n, fs := fsToken }

/-- The flat store holds a token; the structured store holds a text that is
not JSON. -/
def fsBrokenJSON : FileSys :=
  { dotenv := fileWith "GITLAB_TOKEN=secret", config := fileWith "not json" }

/-- A request for the pipeline or job `id` with the query parameter
`project_id`. -/
def requestForProject (id projectID : String) : Request :=
  { params := [("id", id)], query := [("project_id", projectID)] }

/-- A stub library whose `NewRequest` refuses, as `net/http` does, a URL that
holds a control character, and is `stubLib` otherwise. -/
def libStrict : Lib :=
  { stubLib with
    NewRequest := fun _ url =>
      if url.data.any (fun ch => decide (ch.toNat < 32) || decide (ch.toNat = 127)) then
        some "net/url: invalid control character in URL"
      else none }

/-- The stub environment, with token and project 7 configured, over
`libStrict`. -/
def envStrict : Env :=
  { lib := libStrict, upstream := stubUpstream, clock := fun n => n, fs := fsProject }

/-- The stub environment, with a token and without a project id, over
`libStrict`. -/
def envStrictToken : Env :=
  { lib := libStrict, upstream := stubUpstream, clock := fun n => n, fs := fsToken }

/-! # Properties -/

/-! ## General facts -/

theorem withConfig_eq (E : Env) (k : GitLabConfig → M Outcome) :
    withConfig E k = k (resolved E) := rfl

theorem M.bind_apply {α β : Type} (m : M α) (f : α → M β) (w : World) :
    (m >>= f) w = f (m w).1 (m w).2 := rfl

theorem M.pure_apply {α : Type} (a : α) (w : World) : (pure a : M α) w = (a, w) := rfl

theorem Always.pure {P : Outcome → Prop} {o : Outcome} (h : P o) : Always P (pure o) :=
  fun _ => h

theorem Always.bind {α : Type} {P : Outcome → Prop} {m : M α} {f : α → M Outcome}
    (h : ∀ a, Always P (f a)) : Always P (m >>= f) :=
  fun w => h (m w).1 (m w).2

/-! ## The handlers without a token -/

theorem GetGitLabPipelines_noToken (E : Env) (c : Request) (w : World)
    (h : (resolved E).Token = "") :
    GetGitLabPipelines E c w =
      (.json 200 (.obj [("pipelines", .pipelines (getExamplePipelines E w).1),
        ("note", .str tokenNote)]), { w with ticks := w.ticks + 1 }) := by
  simp [GetGitLabPipelines, withConfig_eq, GetGitLabPipelinesWith, h]
  rfl

theorem GetGitLabPipeline_noToken (E : Env) (c : Request) (w : World)
    (h : (resolved E).Token = "") :
    GetGitLabPipeline E c w =
      (.json 200 (.obj [("pipeline", .pipeline (firstExamplePipeline E w).1),
        ("note", .str tokenNote)]), { w with ticks := w.ticks + 1 }) := by
  simp [GetGitLabPipeline, withConfig_eq, GetGitLabPipelineWith, h]
  rfl

theorem GetPipelineJobs_noToken (E : Env) (c : Request) (w : World)
    (h : (resolved E).Token = "") :
    GetPipelineJobs E c w =
      (.json 200 (.obj [("jobs", .jobs []), ("note", .str tokenNote)]), w) := by
  simp [GetPipelineJobs, withConfig_eq, GetPipelineJobsWith, h]
  rfl

theorem GetPipelineDetails_noToken (E : Env) (c : Request) (w : World)
    (h : (resolved E).Token = "") :
    GetPipelineDetails E c w =
      (.json 200 (.obj [("pipeline", (getExamplePipelineDetails E w).1),
        ("note", .str tokenNote)]), { w with ticks := w.ticks + 1 }) := by
  simp [GetPipelineDetails, withConfig_eq, GetPipelineDetailsWith, h]
  rfl

theorem GetPipelineTestReport_noToken (E : Env) (c : Request) (w : World)
    (h : (resolved E).Token = "") :
    GetPipelineTestReport E c w =
      (.json 400 (.obj [("error", .str "GitLab token not configured")]), w) := by
  simp [GetPipelineTestReport, withConfig_eq, GetPipelineTestReportWith, h]
  rfl

theorem GetPipelineTestReportSummary_noToken (E : Env) (c : Request) (w : World)
    (h : (resolved E).Token = "") :
    GetPipelineTestReportSummary E c w = (.json 200 getExampleTestReportSummary, w) := by
  simp [GetPipelineTestReportSummary, withConfig_eq, GetPipelineTestReportSummaryWith, h]
  rfl

theorem GetPipelineVariables_noToken (E : Env) (c : Request) (w : World)
    (h : (resolved E).Token = "") :
    GetPipelineVariables E c w =
      (.json 200 (.obj [("variables", getExampleVariables), ("note", .str tokenNote)]), w) := by
  simp [GetPipelineVariables, withConfig_eq, GetPipelineVariablesWith, h]
  rfl

theorem GetJobDetails_noProject (E : Env) (c : Request) (w : World)
    (hq : c.Query "project_id" = "") (hp : (resolved E).ProjectID = "") :
    GetJobDetails E c w =
      (.json 200 (.obj [("job", (exampleJob E w).1), ("note", .str projectNote)]),
       { w with ticks := w.ticks + 3 }) := by
  simp [GetJobDetails, withConfig_eq, hq, hp]
  rfl

theorem GetJobDetails_noToken (E : Env) (c : Request) (w : World)
    (h : (resolved E).Token = "")
    (hp : c.Query "project_id" ≠ "" ∨ (resolved E).ProjectID ≠ "") :
    GetJobDetails E c w =
      (.json 200 (.obj [("job", (exampleJob E w).1), ("note", .str tokenNote)]),
       { w with ticks := w.ticks + 3 }) := by
  unfold GetJobDetails
  by_cases hq : c.Query "project_id" = ""
  · have hp2 : (resolved E).ProjectID ≠ "" := by tauto
    simp [withConfig_eq, GetJobDetailsFor, h, hq, hp2]
    rfl
  · simp [withConfig_eq, GetJobDetailsFor, h, hq]
    rfl

theorem GetGitLabMergeRequests_noToken (E : Env) (c : Request) (w : World)
    (h : (resolved E).Token = "") :
    GetGitLabMergeRequests E c w =
      (.json 200 (.obj [("merge_requests", .mergeRequests (getExampleMergeRequests E w).1),
        ("note", .str tokenNote)]), { w with ticks := w.ticks + 1 }) := by
  simp [GetGitLabMergeRequests, withConfig_eq, GetGitLabMergeRequestsWith, h]
  rfl

theorem GetGitLabProjects_noToken (E : Env) (c : Request) (w : World)
    (h : (resolved E).Token = "") :
    GetGitLabProjects E c w =
      (.json 400 (.obj [("error", .str "GitLab token not configured")]), w) := by
  simp [GetGitLabProjects, withConfig_eq, GetGitLabProjectsWith, h]
  rfl

theorem RetryPipeline_noToken (E : Env) (c : Request) (w : World)
    (h : (resolved E).Token = "") :
    RetryPipeline E c w =
      (.json 200 (.obj [
        ("message", .str "Cannot retry pipeline: GitLab token not configured"),
        ("success", .bool false)]), w) := by
  simp [RetryPipeline, withConfig_eq, RetryPipelineWith, h]
  rfl

theorem CancelPipeline_noToken (E : Env) (c : Request) (w : World)
    (h : (resolved E).Token = "") :
    CancelPipeline E c w =
      (.json 400 (.obj [("error", .str "GitLab token not configured")]), w) := by
  simp [CancelPipeline, withConfig_eq, CancelPipelineWith, h]
  rfl

/-! ## The handlers with a token and without a project id -/

theorem GetGitLabPipeline_noProject (E : Env) (c : Request) (w : World)
    (h : (resolved E).Token ≠ "") (hp : (resolved E).ProjectID = "")
    (hq : c.Query "project_id" = "") :
    GetGitLabPipeline E c w =
      (.json 200 (.obj [("pipeline", .pipeline (firstExamplePipeline E w).1),
        ("note", .str projectNote)]), { w with ticks := w.ticks + 1 }) := by
  simp [GetGitLabPipeline, withConfig_eq, GetGitLabPipelineWith, effectiveProjectID, h, hp, hq]
  rfl

theorem GetPipelineDetails_noProject (E : Env) (c : Request) (w : World)
    (h : (resolved E).Token ≠ "") (hp : (resolved E).ProjectID = "")
    (hq : c.Query "project_id" = "") :
    GetPipelineDetails E c w =
      (.json 200 (.obj [("pipeline", (getExamplePipelineDetails E w).1),
        ("note", .str projectNote)]), { w with ticks := w.ticks + 1 }) := by
  simp [GetPipelineDetails, withConfig_eq, GetPipelineDetailsWith, effectiveProjectID, h, hp, hq]
  rfl

theorem GetPipelineJobs_noProject (E : Env) (c : Request) (w : World)
    (h : (resolved E).Token ≠ "") (hp : (resolved E).ProjectID = "")
    (hq : c.Query "project_id" = "") :
    GetPipelineJobs E c w =
      (.json 200 (.obj [("jobs", .jobs (exampleJobsNoProject E w).1),
        ("note", .str projectNote)]), { w with ticks := w.ticks + 3 }) := by
  simp [GetPipelineJobs, withConfig_eq, GetPipelineJobsWith, effectiveProjectID, h, hp, hq]
  rfl

theorem GetGitLabMergeRequests_noProject (E : Env) (c : Request) (w : World)
    (h : (resolved E).Token ≠ "") (hp : (resolved E).ProjectID = "") :
    GetGitLabMergeRequests E c w =
      (.json 200 (.obj [("merge_requests", .mergeRequests (getExampleMergeRequests E w).1),
        ("note", .str projectNoteMR)]), { w with ticks := w.ticks + 1 }) := by
  simp [GetGitLabMergeRequests, withConfig_eq, GetGitLabMergeRequestsWith, h, hp]
  rfl

/-! ## C1: responses without a token -/

/-- C1, refuted as stated: with the default configuration, which has no token,
`GetPipelineTestReport` answers HTTP 400 with an error, not HTTP 200 with a
note and example data. -/
theorem C1_counterexample :
    (resolved (stubEnv fsEmpty)).Token = "" ∧
    (GetPipelineTestReport (stubEnv fsEmpty) (requestFor "1") World.start).1 =
      .json 400 (.obj [("error", .str "GitLab token not configured")]) ∧
    (GetPipelineTestReport (stubEnv fsEmpty) (requestFor "1") World.start).1.status ≠ 200 := by
  refine ⟨rfl, rfl, ?_⟩
  show (400 : Nat) ≠ 200
  decide

/-- C1, as amended: for every configuration whose token is empty and every
request, `GetGitLabPipelines`, `GetGitLabPipeline`, `GetPipelineDetails`,
`GetPipelineVariables` and `GetGitLabMergeRequests` answer HTTP 200 with the
note `tokenNote`, which contains the word "token", and their example data;
`GetJobDetails` does so when a project id is available from the query or the
configuration, and otherwise answers HTTP 200 with the example job and the note
about the missing project id; `GetPipelineJobs` answers HTTP 200 with the note
`tokenNote`; `GetPipelineTestReportSummary` answers HTTP 200 with the `total`
and `test_suites` of the example summary; `GetPipelineTestReport` answers
HTTP 400 with the error "GitLab token not configured". -/
theorem C1_no_token_responses (E : Env) (c : Request) (w : World)
    (hToken : (resolved E).Token = "") :
    strings.Contains tokenNote "token" = true ∧
    (GetGitLabPipelines E c w).1 =
      .json 200 (.obj [("pipelines", .pipelines (getExamplePipelines E w).1),
        ("note", .str tokenNote)]) ∧
    (GetGitLabPipeline E c w).1 =
      .json 200 (.obj [("pipeline", .pipeline (firstExamplePipeline E w).1),
        ("note", .str tokenNote)]) ∧
    (GetPipelineDetails E c w).1 =
      .json 200 (.obj [("pipeline", (getExamplePipelineDetails E w).1),
        ("note", .str tokenNote)]) ∧
    (GetPipelineVariables E c w).1 =
      .json 200 (.obj [("variables", getExampleVariables), ("note", .str tokenNote)]) ∧
    (GetGitLabMergeRequests E c w).1 =
      .json 200 (.obj [("merge_requests", .mergeRequests (getExampleMergeRequests E w).1),
        ("note", .str tokenNote)]) ∧
    (c.Query "project_id" ≠ "" ∨ (resolved E).ProjectID ≠ "" →
      (GetJobDetails E c w).1 =
        .json 200 (.obj [("job", (exampleJob E w).1), ("note", .str tokenNote)])) ∧
    (c.Query "project_id" = "" ∧ (resolved E).ProjectID = "" →
      (GetJobDetails E c w).1 =
        .json 200 (.obj [("job", (exampleJob E w).1), ("note", .str projectNote)])) ∧
    ((GetPipelineJobs E c w).1.status = 200 ∧
      (GetPipelineJobs E c w).1.note = some tokenNote) ∧
    ((GetPipelineTestReportSummary E c w).1.status = 200 ∧
      (GetPipelineTestReportSummary E c w).1.field "total" =
        getExampleTestReportSummary.get "total" ∧
      (GetPipelineTestReportSummary E c w).1.field "test_suites" =
        getExampleTestReportSummary.get "test_suites") ∧
    (GetPipelineTestReport E c w).1 =
      .json 400 (.obj [("error", .str "GitLab token not configured")]) := by
  refine ⟨by decide, ?_, ?_, ?_, ?_, ?_, ?_, ?_, ?_, ?_, ?_⟩
  · rw [GetGitLabPipelines_noToken E c w hToken]
  · rw [GetGitLabPipeline_noToken E c w hToken]
  · rw [GetPipelineDetails_noToken E c w hToken]
  · rw [GetPipelineVariables_noToken E c w hToken]
  · rw [GetGitLabMergeRequests_noToken E c w hToken]
  · intro hp
    rw [GetJobDetails_noToken E c w hToken hp]
  · rintro ⟨hq, hp⟩
    rw [GetJobDetails_noProject E c w hq hp]
  · rw [GetPipelineJobs_noToken E c w hToken]
    exact ⟨rfl, rfl⟩
  · rw [GetPipelineTestReportSummary_noToken E c w hToken]
    exact ⟨rfl, rfl, rfl⟩
  · rw [GetPipelineTestReport_noToken E c w hToken]

/-- Witness of C1: the default configuration has no token, and there
`GetGitLabPipelines` answers HTTP 200 with the token note. -/
theorem C1_no_token_responses_witness :
    (resolved (stubEnv fsEmpty)).Token = "" ∧
    (GetGitLabPipelines (stubEnv fsEmpty) (requestFor "1") World.start).1.note =
      some tokenNote := by
  have h := C1_no_token_responses (stubEnv fsEmpty) (requestFor "1") World.start rfl
  refine ⟨rfl, ?_⟩
  rw [h.2.1]
  rfl

/-! ## C2: no upstream request without a token -/

/-- C2: for every configuration whose token is empty and every request, no
handler of the GitLab controller sends an upstream request (the list of
requests sent is unchanged), and its response and final state are the same
whatever the upstream server would answer. -/
theorem C2_no_token_no_upstream_call (E : Env) (c : Request) (w : World)
    (hToken : (resolved E).Token = "") :
    ∀ H ∈ controllerHandlers,
      (H E c w).2.calls = w.calls ∧
      ∀ up : List Call → Call → UpResult, H { E with upstream := up } c w = H E c w := by
  intro H hH
  simp only [controllerHandlers, aggregationOps, List.cons_append, List.nil_append,
    List.mem_cons, List.mem_singleton, List.not_mem_nil, or_false] at hH
  have hT : ∀ up : List Call → Call → UpResult,
      (resolved { E with upstream := up }).Token = "" := fun _ => hToken
  rcases hH with rfl | rfl | rfl | rfl | rfl | rfl | rfl | rfl | rfl | rfl | rfl | rfl
  · refine ⟨by rw [GetGitLabPipelines_noToken E c w hToken], fun up => ?_⟩
    rw [GetGitLabPipelines_noToken E c w hToken, GetGitLabPipelines_noToken _ c w (hT up)]
    rfl
  · refine ⟨by rw [GetGitLabPipeline_noToken E c w hToken], fun up => ?_⟩
    rw [GetGitLabPipeline_noToken E c w hToken, GetGitLabPipeline_noToken _ c w (hT up)]
    rfl
  · refine ⟨by rw [GetPipelineJobs_noToken E c w hToken], fun up => ?_⟩
    rw [GetPipelineJobs_noToken E c w hToken, GetPipelineJobs_noToken _ c w (hT up)]
  · refine ⟨by rw [GetPipelineDetails_noToken E c w hToken], fun up => ?_⟩
    rw [GetPipelineDetails_noToken E c w hToken, GetPipelineDetails_noToken _ c w (hT up)]
    rfl
  · refine ⟨by rw [GetPipelineTestReport_noToken E c w hToken], fun up => ?_⟩
    rw [GetPipelineTestReport_noToken E c w hToken,
      GetPipelineTestReport_noToken _ c w (hT up)]
  · refine ⟨by rw [GetPipelineTestReportSummary_noToken E c w hToken], fun up => ?_⟩
    rw [GetPipelineTestReportSummary_noToken E c w hToken,
      GetPipelineTestReportSummary_noToken _ c w (hT up)]
  · refine ⟨by rw [GetPipelineVariables_noToken E c w hToken], fun up => ?_⟩
    rw [GetPipelineVariables_noToken E c w hToken,
      GetPipelineVariables_noToken _ c w (hT up)]
  · by_cases hp : c.Query "project_id" ≠ "" ∨ (resolved E).ProjectID ≠ ""
    · refine ⟨by rw [GetJobDetails_noToken E c w hToken hp], fun up => ?_⟩
      rw [GetJobDetails_noToken E c w hToken hp, GetJobDetails_noToken _ c w (hT up) hp]
      rfl
    · have hq : c.Query "project_id" = "" := by
        by_contra h
        exact hp (Or.inl h)
      have hp2 : (resolved E).ProjectID = "" := by
        by_contra h
        exact hp (Or.inr h)
      refine ⟨by rw [GetJobDetails_noProject E c w hq hp2], fun up => ?_⟩
      have hp3 : (resolved { E with upstream := up }).ProjectID = "" := hp2
      rw [GetJobDetails_noProject E c w hq hp2, GetJobDetails_noProject _ c w hq hp3]
      rfl
  · refine ⟨by rw [GetGitLabMergeRequests_noToken E c w hToken], fun up => ?_⟩
    rw [GetGitLabMergeRequests_noToken E c w hToken,
      GetGitLabMergeRequests_noToken _ c w (hT up)]
    rfl
  · refine ⟨by rw [GetGitLabProjects_noToken E c w hToken], fun up => ?_⟩
    rw [GetGitLabProjects_noToken E c w hToken, GetGitLabProjects_noToken _ c w (hT up)]
  · refine ⟨by rw [RetryPipeline_noToken E c w hToken], fun up => ?_⟩
    rw [RetryPipeline_noToken E c w hToken, RetryPipeline_noToken _ c w (hT up)]
  · refine ⟨by rw [CancelPipeline_noToken E c w hToken], fun up => ?_⟩
    rw [CancelPipeline_noToken E c w hToken, CancelPipeline_noToken _ c w (hT up)]

/-- Witness of C2: with the default configuration, which has no token,
`RetryPipeline` sends no upstream request. -/
theorem C2_no_token_no_upstream_call_witness :
    (resolved (stubEnv fsEmpty)).Token = "" ∧
    (RetryPipeline (stubEnv fsEmpty) (requestFor "1") World.start).2.calls = [] :=
  ⟨rfl, (C2_no_token_no_upstream_call (stubEnv fsEmpty) (requestFor "1") World.start rfl
    RetryPipeline (by simp [controllerHandlers])).1⟩

/-! ## C3: responses with a token and without a project id -/

/-- C3: for every configuration with a non-empty token and an empty project id
and every request whose `project_id` query value is empty, `GetGitLabPipeline`,
`GetPipelineDetails`, `GetPipelineJobs`, `GetJobDetails` and
`GetGitLabMergeRequests` answer HTTP 200 with a note that mentions the project
ID and with example data, spelled out here field by field at the readings of
the clock: the first example pipeline, the example pipeline details, the one
example job `build`, the job `Example Job` and the three example merge
requests; none of them sends an upstream request. -/
theorem C3_no_project_id_responses (E : Env) (c : Request) (w : World)
    (hToken : (resolved E).Token ≠ "") (hProject : (resolved E).ProjectID = "")
    (hQuery : c.Query "project_id" = "") :
    strings.Contains projectNote "project ID" = true ∧
    strings.Contains projectNoteMR "project ID" = true ∧
    ((GetGitLabPipeline E c w).1 =
        .json 200 (.obj [
          ("pipeline", .pipeline
            { ID := 1, Status := "success", Ref := "main", SHA := "1234567890abcdef",
              WebURL := "https://gitlab.com/group/project/-/pipelines/1",
              CreatedAt := E.clock w.ticks + -Hour,
              UpdatedAt := E.clock w.ticks + -30 * Minute,
              User := { ID := 1, Name := "John Doe", Username := "johndoe",
                        WebURL := "https://gitlab.com/johndoe",
                        AvatarURL := "https://secure.gravatar.com/avatar/abcdefg" } }),
          ("note", .str "Using example data because no project ID is configured or provided")]) ∧
      (GetGitLabPipeline E c w).2.calls = w.calls) ∧
    ((GetPipelineDetails E c w).1 =
        .json 200 (.obj [
          ("pipeline", .obj [
            ("id", .int 1),
            ("status", .str "success"),
            ("ref", .str "main"),
            ("sha", .str "1234567890abcdef"),
            ("web_url", .str "https://gitlab.com/group/project/-/pipelines/1"),
            ("created_at", .str (E.lib.formatRFC3339 (E.clock w.ticks + -Hour))),
            ("updated_at", .str (E.lib.formatRFC3339 (E.clock w.ticks + -30 * Minute))),
            ("started_at", .str (E.lib.formatRFC3339 (E.clock w.ticks + -30 * Minute))),
            ("finished_at", .str (E.lib.formatRFC3339 (E.clock w.ticks + -5 * Minute))),
            ("duration", .float (((E.clock w.ticks + -5 * Minute) / 1000000000 -
              (E.clock w.ticks + -30 * Minute) / 1000000000 : Int) : ℚ)),
            ("coverage", .float (171 / 2)),
            ("user", .obj [
              ("id", .int 1),
              ("name", .str "John Doe"),
              ("username", .str "johndoe"),
              ("web_url", .str "https://gitlab.com/johndoe"),
              ("avatar_url", .str "https://secure.gravatar.com/avatar/abcdefg")])]),
          ("note", .str "Using example data because no project ID is configured or provided")]) ∧
      (GetPipelineDetails E c w).2.calls = w.calls) ∧
    ((GetPipelineJobs E c w).1 =
        .json 200 (.obj [
          ("jobs", .jobs [
            { ID := 1, Name := "build", Status := "success", Stage := "build",
              CreatedAt := E.clock w.ticks + -Hour,
              StartedAt := E.clock (w.ticks + 1) + -Hour,
              FinishedAt := E.clock (w.ticks + 2) + (-Hour + 5 * Minute),
              Duration := 300,
              WebURL := "https://gitlab.com/group/project/-/jobs/1",
              User := { ID := 1, Name := "John Doe", Username := "johndoe",
                        WebURL := "https://gitlab.com/johndoe",
                        AvatarURL := "https://secure.gravatar.com/avatar/abcdefg" } }]),
          ("note", .str "Using example data because no project ID is configured or provided")]) ∧
      (GetPipelineJobs E c w).2.calls = w.calls) ∧
    ((GetJobDetails E c w).1 =
        .json 200 (.obj [
          ("job", .obj [
            ("id", .int 0), ("name", .str "Example Job"), ("status", .str "unknown"),
            ("stage", .str "build"), ("web_url", .str "#"), ("duration", .int 0),
            ("created_at", .time (E.clock w.ticks)),
            ("started_at", .time (E.clock (w.ticks + 1))),
            ("finished_at", .time (E.clock (w.ticks + 2)))]),
          ("note", .str "Using example data because no project ID is configured or provided")]) ∧
      (GetJobDetails E c w).2.calls = w.calls) ∧
    ((GetGitLabMergeRequests E c w).1 =
        .json 200 (.obj [
          ("merge_requests", .mergeRequests [
            { ID := 1, IID := 101, Title := "Add new feature for user authentication",
              Description := "This MR adds OAuth2 authentication support", State := "merged",
              CreatedAt := E.clock w.ticks + -3 * Hour,
              UpdatedAt := E.clock w.ticks + -2 * Hour,
              MergedAt := some (E.clock w.ticks + -2 * Hour), ClosedAt := none,
              WebURL := "https://gitlab.com/group/project/-/merge_requests/101",
              SourceBranch := "feature/oauth2-auth", TargetBranch := "main",
              Author :=
                { ID := 1, Name := "Alice Developer", Username := "alice",
                  AvatarURL := "https://gitlab.com/uploads/-/system/user/avatar/1/avatar.png" },
              Assignee := some
                { ID := 2, Name := "Bob Reviewer", Username := "bob",
                  AvatarURL := "https://gitlab.com/uploads/-/system/user/avatar/2/avatar.png" },
              MergedBy := some
                { ID := 2, Name := "Bob Reviewer", Username := "bob",
                  AvatarURL := "https://gitlab.com/uploads/-/system/user/avatar/2/avatar.png" },
              WorkInProgress := false, MergeStatus := "can_be_merged", Draft := false,
              HasConflicts := false,
              TimeStats := { TimeEstimate := 7200, TotalTimeSpent := 5400,
                             HumanTimeEstimate := "2h", HumanTotalTimeSpent := "1h 30m" } },
            { ID := 2, IID := 102, Title := "Fix critical bug in payment processing",
              Description := "Resolves issue #123 with payment validation", State := "opened",
              CreatedAt := E.clock w.ticks + -1 * Hour,
              UpdatedAt := E.clock w.ticks + -30 * Minute,
              MergedAt := none, ClosedAt := none,
              WebURL := "https://gitlab.com/group/project/-/merge_requests/102",
              SourceBranch := "bugfix/payment-validation", TargetBranch := "main",
              Author :=
                { ID := 3, Name := "Charlie Coder", Username := "charlie",
                  AvatarURL := "https://gitlab.com/uploads/-/system/user/avatar/3/avatar.png" },
              Assignee := some
                { ID := 1, Name := "Alice Developer", Username := "alice",
                  AvatarURL := "https://gitlab.com/uploads/-/system/user/avatar/1/avatar.png" },
              MergedBy := none,
              WorkInProgress := false, MergeStatus := "can_be_merged", Draft := false,
              HasConflicts := false,
              TimeStats := { TimeEstimate := 3600, TotalTimeSpent := 1800,
                             HumanTimeEstimate := "1h", HumanTotalTimeSpent := "30m" } },
            { ID := 3, IID := 103, Title := "Update documentation for API endpoints",
              Description := "Comprehensive documentation update for v2 API", State := "opened",
              CreatedAt := E.clock w.ticks + -45 * Minute,
              UpdatedAt := E.clock w.ticks + -15 * Minute,
              MergedAt := none, ClosedAt := none,
              WebURL := "https://gitlab.com/group/project/-/merge_requests/103",
              SourceBranch := "docs/api-v2-update", TargetBranch := "develop",
              Author :=
                { ID := 4, Name := "Diana Writer", Username := "diana",
                  AvatarURL := "https://gitlab.com/uploads/-/system/user/avatar/4/avatar.png" },
              Assignee := none, MergedBy := none,
              WorkInProgress := true, MergeStatus := "can_be_merged", Draft := true,
              HasConflicts := false,
              TimeStats := { TimeEstimate := 5400, TotalTimeSpent := 2700,
                             HumanTimeEstimate := "1h 30m", HumanTotalTimeSpent := "45m" } }]),
          ("note", .str "Using example data because no project ID is configured")]) ∧
      (GetGitLabMergeRequests E c w).2.calls = w.calls) := by
  refine ⟨by decide, by decide, ?_, ?_, ?_, ?_, ?_⟩
  · rw [GetGitLabPipeline_noProject E c w hToken hProject hQuery]
    exact ⟨rfl, rfl⟩
  · rw [GetPipelineDetails_noProject E c w hToken hProject hQuery]
    exact ⟨rfl, rfl⟩
  · rw [GetPipelineJobs_noProject E c w hToken hProject hQuery]
    exact ⟨rfl, rfl⟩
  · rw [GetJobDetails_noProject E c w hQuery hProject]
    exact ⟨rfl, rfl⟩
  · rw [GetGitLabMergeRequests_noProject E c w hToken hProject]
    exact ⟨rfl, rfl⟩

/-- Witness of C3: with a token and no project id configured, `GetPipelineJobs`
answers a request without query parameters with the project note and the one
example job, and sends no upstream request. -/
theorem C3_no_project_id_responses_witness :
    (resolved (stubEnv fsToken)).Token ≠ "" ∧
    (resolved (stubEnv fsToken)).ProjectID = "" ∧
    (requestFor "1").Query "project_id" = "" ∧
    (GetPipelineJobs (stubEnv fsToken) (requestFor "1") World.start).1.note =
      some projectNote ∧
    ((GetPipelineJobs (stubEnv fsToken) (requestFor "1") World.start).1.field "jobs" =
      some (.jobs [
        { ID := 1, Name := "build", Status := "success", Stage := "build",
          CreatedAt := 0 + -Hour, StartedAt := 1 + -Hour,
          FinishedAt := 2 + (-Hour + 5 * Minute), Duration := 300,
          WebURL := "https://gitlab.com/group/project/-/jobs/1", User := johnDoe }])) ∧
    (GetPipelineJobs (stubEnv fsToken) (requestFor "1") World.start).2.calls = [] := by
  have h := C3_no_project_id_responses (stubEnv fsToken) (requestFor "1") World.start
    (by decide) (by decide) (by decide)
  refine ⟨by decide, by decide, by decide, ?_, ?_, h.2.2.2.2.1.2⟩
  · rw [h.2.2.2.2.1.1]
    rfl
  · rw [h.2.2.2.2.1.1]
    rfl

/-! ## Failures of the upstream request and of the parsing of its body -/

theorem append_ne_empty (a b : String) (h : a ≠ "") : a ++ b ≠ "" := by
  intro hab
  apply h
  have h1 : (a ++ b).data = [] := by rw [hab]
  rw [String.data_append] at h1
  exact String.ext (List.append_eq_nil.mp h1).1

theorem hasNote_of (status : Nat) (kvs : List (String × GoVal)) (n : String)
    (h : kvs.lookup "note" = some (.str n)) (hn : n ≠ "") :
    (Outcome.json status (.obj kvs)).hasNote := by
  refine ⟨n, ?_, hn⟩
  simp [Outcome.note, Outcome.field, GoVal.get, h]

theorem finishPipelines_status (E : Env) (config : GitLabConfig)
    (ps : List GitLabPipeline) (info : String) :
    Always (fun o => o.status = 200) (finishPipelines E config ps info) := by
  unfold finishPipelines
  repeat' first | exact Always.pure rfl | (apply Always.bind; intro _) | split

theorem GetGitLabPipelines_status (E : Env) (c : Request) (w : World) :
    (GetGitLabPipelines E c w).1.status = 200 := by
  have h : Always (fun o => o.status = 200) (GetGitLabPipelinesWith E (resolved E)) := by
    unfold GetGitLabPipelinesWith
    repeat' first
      | exact Always.pure rfl | apply finishPipelines_status
      | (apply Always.bind; intro _) | split
  exact h w

theorem GetGitLabPipeline_status (E : Env) (c : Request) (w : World) :
    (GetGitLabPipeline E c w).1.status = 200 := by
  have h : Always (fun o => o.status = 200) (GetGitLabPipelineWith E (resolved E) c) := by
    unfold GetGitLabPipelineWith
    repeat' first
      | exact Always.pure rfl | (apply Always.bind; intro _) | split | (dsimp only)
  exact h w

theorem GetPipelineJobs_status (E : Env) (c : Request) (w : World) :
    (GetPipelineJobs E c w).1.status = 200 := by
  have h : Always (fun o => o.status = 200) (GetPipelineJobsWith E (resolved E) c) := by
    unfold GetPipelineJobsWith
    repeat' first
      | exact Always.pure rfl | (apply Always.bind; intro _) | split | (dsimp only)
  exact h w

theorem GetPipelineDetails_status (E : Env) (c : Request) (w : World) :
    (GetPipelineDetails E c w).1.status = 200 := by
  have h : Always (fun o => o.status = 200) (GetPipelineDetailsWith E (resolved E) c) := by
    unfold GetPipelineDetailsWith
    repeat' first
      | exact Always.pure rfl | (apply Always.bind; intro _) | split | (dsimp only)
  exact h w

theorem GetPipelineTestReportSummary_status (E : Env) (c : Request) (w : World) :
    (GetPipelineTestReportSummary E c w).1.status = 200 := by
  have h : Always (fun o => o.status = 200)
      (GetPipelineTestReportSummaryWith E (resolved E) c) := by
    unfold GetPipelineTestReportSummaryWith
    repeat' first
      | exact Always.pure rfl | (apply Always.bind; intro _) | split | (dsimp only)
  exact h w

theorem GetPipelineVariables_status (E : Env) (c : Request) (w : World) :
    (GetPipelineVariables E c w).1.status = 200 := by
  have h : Always (fun o => o.status = 200) (GetPipelineVariablesWith E (resolved E) c) := by
    unfold GetPipelineVariablesWith
    repeat' first
      | exact Always.pure rfl | (apply Always.bind; intro _) | split | (dsimp only)
  exact h w

theorem GetGitLabMergeRequests_status (E : Env) (c : Request) (w : World) :
    (GetGitLabMergeRequests E c w).1.status = 200 := by
  have h : Always (fun o => o.status = 200)
      (GetGitLabMergeRequestsWith E (resolved E) c) := by
    unfold GetGitLabMergeRequestsWith
    repeat' first
      | exact Always.pure rfl | (apply Always.bind; intro _) | split | (dsimp only)
  exact h w

theorem GetJobDetailsFor_status (E : Env) (projectID jobID : String) (w : World)
    (hg : ∀ body,
      (makeGitLabAPIRequest E "GET" ("projects/" ++ projectID ++ "/jobs/" ++ jobID)
        (resolved E) w).1 = .ok body → E.lib.unmarshalMap body ≠ .ok none) :
    (GetJobDetailsFor E projectID jobID w).1.status = 200 := by
  by_cases hT : (resolved E).Token = ""
  · simp only [GetJobDetailsFor, withConfig_eq, M.bind_apply, M.pure_apply, hT, ↓reduceIte]
    rfl
  · simp only [GetJobDetailsFor, withConfig_eq, M.bind_apply, M.pure_apply, hT, ↓reduceIte]
    generalize (makeGitLabAPIRequest E "GET" _ (resolved E) w) = r at hg ⊢
    obtain ⟨r1, w1⟩ := r
    cases r1 with
    | error err =>
      simp only
      split <;> rfl
    | ok body =>
      simp only at hg ⊢
      cases hd : E.lib.unmarshalMap body with
      | error err => rfl
      | ok job =>
        cases job with
        | none => exact absurd hd (hg body rfl)
        | some job => rfl

theorem GetJobDetails_status (E : Env) (c : Request) (w : World)
    (hg : ∀ body,
      (makeGitLabAPIRequest E "GET" ("projects/" ++ jobProjectID E c ++ "/jobs/" ++ c.Param "id")
        (resolved E) w).1 = .ok body → E.lib.unmarshalMap body ≠ .ok none) :
    (GetJobDetails E c w).1.status = 200 := by
  unfold GetJobDetails
  unfold jobProjectID at hg
  by_cases hq : c.Query "project_id" = ""
  · simp only [hq, ↓reduceIte, withConfig_eq] at hg ⊢
    by_cases hp : (resolved E).ProjectID = ""
    · simp only [hp, ↓reduceIte, M.bind_apply, M.pure_apply]
      rfl
    · simp only [hp, ↓reduceIte]
      exact GetJobDetailsFor_status E _ _ w hg
  · simp only [hq, ↓reduceIte] at hg ⊢
    exact GetJobDetailsFor_status E _ _ w hg

theorem GetGitLabPipelines_single_fails (E : Env) (c : Request) (w : World)
    (hT : (resolved E).Token ≠ "") (hP : (resolved E).ProjectID ≠ "")
    (hf : primaryFails E w ("projects/" ++ (resolved E).ProjectID ++ "/pipelines")
      fun b => (E.lib.unmarshalPipelines b).isOk) :
    (GetGitLabPipelines E c w).1.hasNote := by
  unfold primaryFails at hf
  simp only [GetGitLabPipelines, withConfig_eq, GetGitLabPipelinesWith, M.bind_apply,
    M.pure_apply, hT, hP, ne_eq, not_false_eq_true, ↓reduceIte]
  generalize (makeGitLabAPIRequest E "GET" _ (resolved E) w) = r at hf ⊢
  obtain ⟨r1, w1⟩ := r
  cases r1 with
  | error err => exact hasNote_of _ _ _ rfl (by decide)
  | ok body =>
    simp only at hf ⊢
    cases hd : E.lib.unmarshalPipelines body with
    | error err => exact hasNote_of _ _ _ rfl (by decide)
    | ok p => simp [hd, Except.isOk, Except.toBool] at hf

theorem GetGitLabPipelines_fanout_fails (E : Env) (c : Request) (w : World)
    (hT : (resolved E).Token ≠ "") (hP : (resolved E).ProjectID = "")
    (hf : primaryFails E w "projects?membership=true&per_page=5"
      fun b => (E.lib.unmarshalProjects b).isOk) :
    (GetGitLabPipelines E c w).1.hasNote := by
  unfold primaryFails at hf
  simp only [GetGitLabPipelines, withConfig_eq, GetGitLabPipelinesWith, M.bind_apply,
    M.pure_apply, hT, hP, ne_eq, not_true_eq_false, ↓reduceIte]
  generalize (makeGitLabAPIRequest E "GET" _ (resolved E) w) = r at hf ⊢
  obtain ⟨r1, w1⟩ := r
  cases r1 with
  | error err => exact hasNote_of _ _ _ rfl (by decide)
  | ok body =>
    simp only at hf ⊢
    cases hd : E.lib.unmarshalProjects body with
    | error err => exact hasNote_of _ _ _ rfl (by decide)
    | ok p => simp [hd, Except.isOk, Except.toBool] at hf

theorem GetGitLabPipeline_fails (E : Env) (c : Request) (w : World)
    (hT : (resolved E).Token ≠ "") (hP : effectiveProjectID (resolved E) c ≠ "")
    (hf : primaryFails E w
      ("projects/" ++ effectiveProjectID (resolved E) c ++ "/pipelines/" ++ c.Param "id")
      fun b => (E.lib.unmarshalPipeline b).isOk) :
    (GetGitLabPipeline E c w).1.hasNote := by
  unfold primaryFails at hf
  simp only [GetGitLabPipeline, withConfig_eq, GetGitLabPipelineWith, M.bind_apply,
    M.pure_apply, hT, hP, ↓reduceIte]
  generalize (makeGitLabAPIRequest E "GET" _ (resolved E) w) = r at hf ⊢
  obtain ⟨r1, w1⟩ := r
  cases r1 with
  | error err => exact hasNote_of _ _ _ rfl (by decide)
  | ok body =>
    simp only at hf ⊢
    cases hd : E.lib.unmarshalPipeline body with
    | error err => exact hasNote_of _ _ _ rfl (by decide)
    | ok p => simp [hd, Except.isOk, Except.toBool] at hf

theorem GetPipelineJobs_fails (E : Env) (c : Request) (w : World)
    (hT : (resolved E).Token ≠ "") (hP : effectiveProjectID (resolved E) c ≠ "")
    (hf : primaryFails E w
      ("projects/" ++ effectiveProjectID (resolved E) c ++ "/pipelines/" ++ c.Param "id" ++
        "/jobs")
      fun b => (E.lib.unmarshalJobs b).isOk) :
    (GetPipelineJobs E c w).1.hasNote := by
  unfold primaryFails at hf
  simp only [GetPipelineJobs, withConfig_eq, GetPipelineJobsWith, M.bind_apply,
    M.pure_apply, hT, hP, ↓reduceIte]
  generalize (makeGitLabAPIRequest E "GET" _ (resolved E) w) = r at hf ⊢
  obtain ⟨r1, w1⟩ := r
  cases r1 with
  | error err => exact hasNote_of _ _ _ rfl (by decide)
  | ok body =>
    simp only at hf ⊢
    cases hd : E.lib.unmarshalJobs body with
    | error err => exact hasNote_of _ _ _ rfl (by decide)
    | ok p => simp [hd, Except.isOk, Except.toBool] at hf

theorem GetPipelineDetails_fails (E : Env) (c : Request) (w : World)
    (hT : (resolved E).Token ≠ "") (hP : effectiveProjectID (resolved E) c ≠ "")
    (hf : primaryFails E w
      ("projects/" ++ effectiveProjectID (resolved E) c ++ "/pipelines/" ++ c.Param "id")
      fun b => (E.lib.unmarshalMap b).isOk) :
    (GetPipelineDetails E c w).1.hasNote := by
  unfold primaryFails at hf
  simp only [GetPipelineDetails, withConfig_eq, GetPipelineDetailsWith, M.bind_apply,
    M.pure_apply, hT, hP, ↓reduceIte]
  generalize (makeGitLabAPIRequest E "GET" _ (resolved E) w) = r at hf ⊢
  obtain ⟨r1, w1⟩ := r
  cases r1 with
  | error err => exact hasNote_of _ _ _ rfl (by decide)
  | ok body =>
    simp only at hf ⊢
    cases hd : E.lib.unmarshalMap body with
    | error err => exact hasNote_of _ _ _ rfl (by decide)
    | ok p => simp [hd, Except.isOk, Except.toBool] at hf

theorem GetPipelineTestReportSummary_fails (E : Env) (c : Request) (w : World)
    (hT : (resolved E).Token ≠ "") (hP : effectiveProjectID (resolved E) c ≠ "")
    (hf : primaryFails E w
      ("projects/" ++ effectiveProjectID (resolved E) c ++ "/pipelines/" ++ c.Param "id" ++
        "/test_report_summary")
      fun b => (E.lib.unmarshalMap b).isOk) :
    (GetPipelineTestReportSummary E c w).1.hasNote := by
  unfold primaryFails at hf
  simp only [GetPipelineTestReportSummary, withConfig_eq, GetPipelineTestReportSummaryWith,
    M.bind_apply, M.pure_apply, hT, hP, ↓reduceIte]
  generalize (makeGitLabAPIRequest E "GET" _ (resolved E) w) = r at hf ⊢
  obtain ⟨r1, w1⟩ := r
  cases r1 with
  | error err =>
    simp only
    split
    · exact hasNote_of _ _ _ rfl (by decide)
    · exact hasNote_of _ _ _ rfl (append_ne_empty _ _ (by decide))
  | ok body =>
    simp only at hf ⊢
    cases hd : E.lib.unmarshalMap body with
    | error err => exact hasNote_of _ _ _ rfl (append_ne_empty _ _ (by decide))
    | ok p => simp [hd, Except.isOk, Except.toBool] at hf

theorem GetPipelineVariables_fails (E : Env) (c : Request) (w : World)
    (hT : (resolved E).Token ≠ "") (hP : effectiveProjectID (resolved E) c ≠ "")
    (hf : primaryFails E w
      ("projects/" ++ effectiveProjectID (resolved E) c ++ "/pipelines/" ++ c.Param "id" ++
        "/variables")
      fun b => (E.lib.unmarshalMaps b).isOk) :
    (GetPipelineVariables E c w).1.hasNote := by
  unfold primaryFails at hf
  simp only [GetPipelineVariables, withConfig_eq, GetPipelineVariablesWith,
    M.bind_apply, M.pure_apply, hT, hP, ↓reduceIte]
  generalize (makeGitLabAPIRequest E "GET" _ (resolved E) w) = r at hf ⊢
  obtain ⟨r1, w1⟩ := r
  cases r1 with
  | error err => exact hasNote_of _ _ _ rfl (append_ne_empty _ _ (by decide))
  | ok body =>
    simp only at hf ⊢
    cases hd : E.lib.unmarshalMaps body with
    | error err => exact hasNote_of _ _ _ rfl (append_ne_empty _ _ (by decide))
    | ok p => simp [hd, Except.isOk, Except.toBool] at hf

theorem GetGitLabMergeRequests_fails (E : Env) (c : Request) (w : World)
    (hT : (resolved E).Token ≠ "") (hP : (resolved E).ProjectID ≠ "")
    (hf : primaryFails E w (mergeRequestsEndpoint (resolved E).ProjectID c)
      fun b => (E.lib.unmarshalMergeRequests b).isOk) :
    (GetGitLabMergeRequests E c w).1.hasNote := by
  unfold primaryFails at hf
  simp only [GetGitLabMergeRequests, withConfig_eq, GetGitLabMergeRequestsWith,
    M.bind_apply, M.pure_apply, hT, hP, ↓reduceIte]
  generalize (makeGitLabAPIRequest E "GET" _ (resolved E) w) = r at hf ⊢
  obtain ⟨r1, w1⟩ := r
  cases r1 with
  | error err =>
    exact hasNote_of _ _ _ rfl
      (by rw [String.append_assoc]; exact append_ne_empty _ _ (by decide))
  | ok body =>
    simp only at hf ⊢
    cases hd : E.lib.unmarshalMergeRequests body with
    | error err =>
      exact hasNote_of _ _ _ rfl
        (by rw [String.append_assoc]; exact append_ne_empty _ _ (by decide))
    | ok p => simp [hd, Except.isOk, Except.toBool] at hf

theorem GetJobDetailsFor_fails (E : Env) (projectID jobID : String) (w : World)
    (hT : (resolved E).Token ≠ "")
    (hf : primaryFails E w ("projects/" ++ projectID ++ "/jobs/" ++ jobID)
      fun b => (E.lib.unmarshalMap b).isOk) :
    (GetJobDetailsFor E projectID jobID w).1.hasNote := by
  unfold primaryFails at hf
  simp only [GetJobDetailsFor, withConfig_eq, M.bind_apply, M.pure_apply, hT, ↓reduceIte]
  generalize (makeGitLabAPIRequest E "GET" _ (resolved E) w) = r at hf ⊢
  obtain ⟨r1, w1⟩ := r
  cases r1 with
  | error err =>
    simp only
    split
    · exact hasNote_of _ _ _ rfl
        (by rw [String.append_assoc]; exact append_ne_empty _ _ (by decide))
    · exact hasNote_of _ _ _ rfl (append_ne_empty _ _ (by decide))
  | ok body =>
    simp only at hf ⊢
    cases hd : E.lib.unmarshalMap body with
    | error err => exact hasNote_of _ _ _ rfl (append_ne_empty _ _ (by decide))
    | ok p => simp [hd, Except.isOk, Except.toBool] at hf

theorem GetJobDetails_fails (E : Env) (c : Request) (w : World)
    (hT : (resolved E).Token ≠ "") (hP : jobProjectID E c ≠ "")
    (hf : primaryFails E w ("projects/" ++ jobProjectID E c ++ "/jobs/" ++ c.Param "id")
      fun b => (E.lib.unmarshalMap b).isOk) :
    (GetJobDetails E c w).1.hasNote := by
  unfold GetJobDetails
  unfold jobProjectID at hf hP
  by_cases hq : c.Query "project_id" = ""
  · simp only [hq, ↓reduceIte, withConfig_eq] at hf hP ⊢
    simp only [hP, ↓reduceIte]
    exact GetJobDetailsFor_fails E _ _ w hT hf
  · simp only [hq, ↓reduceIte] at hf ⊢
    exact GetJobDetailsFor_fails E _ _ w hT hf

/-- What `GetPipelineTestReport` answers, by the answer `r` to its upstream
request. -/
theorem GetPipelineTestReport_cases (E : Env) (c : Request) (w : World)
    (hT : (resolved E).Token ≠ "") (hP : (resolved E).ProjectID ≠ "") :
    (GetPipelineTestReport E c w).1 =
      match (makeGitLabAPIRequest E "GET"
        ("projects/" ++ (resolved E).ProjectID ++ "/pipelines/" ++ c.Param "id" ++
          "/test_report") (resolved E) w).1 with
      | .error _ => .json 200 exampleTestReport
      | .ok body =>
        match E.lib.unmarshalMap body with
        | .error err =>
          .json 500 (.obj [("error",
            .str ("Error parsing GitLab pipeline test report: " ++ err))])
        | .ok testReport => .json 200 (GoVal.ofMap testReport) := by
  simp only [GetPipelineTestReport, withConfig_eq, GetPipelineTestReportWith,
    M.bind_apply, M.pure_apply, hT, hP, ↓reduceIte]
  generalize (makeGitLabAPIRequest E "GET" _ (resolved E) w) = r
  obtain ⟨r1, w1⟩ := r
  cases r1 with
  | error err => rfl
  | ok body =>
    simp only
    cases hd : E.lib.unmarshalMap body <;> rfl

theorem GetPipelineTestReport_noProject (E : Env) (c : Request) (w : World)
    (hT : (resolved E).Token ≠ "") (hP : (resolved E).ProjectID = "") :
    GetPipelineTestReport E c w =
      (.json 400 (.obj [("error", .str "GitLab project ID not configured")]), w) := by
  simp [GetPipelineTestReport, withConfig_eq, GetPipelineTestReportWith, hT, hP]
  rfl

/-- A job body that is the JSON text `null` decodes to a nil map, and
`GetJobDetails` panics when it writes the trace into it. -/
theorem GetJobDetails_nil_map_panics :
    (GetJobDetails (stubEnv fsProject) (requestFor "9") World.start).1 =
      .panic "assignment to entry in nil map" ∧
    (GetJobDetails (stubEnv fsProject) (requestFor "9") World.start).1.status = 500 :=
  ⟨rfl, rfl⟩

/-! ## C4: upstream and parse failures -/

/-- C4, refuted as stated: with token and project id configured, an upstream
answer to the test report request with status 200 and a body that does not
parse makes `GetPipelineTestReport` answer HTTP 500. -/
theorem C4_counterexample :
    stubUpstream []
        { method := "GET",
          url := "https://gitlab.com/api/v4/projects/7/pipelines/1/test_report",
          token := "secret" } = .response 200 "<html>" none ∧
    stubLib.unmarshalMap "<html>" = .error "invalid character" ∧
    (GetPipelineTestReport (stubEnv fsProject) (requestFor "1") World.start).1 =
      .json 500 (.obj [("error",
        .str "Error parsing GitLab pipeline test report: invalid character")]) ∧
    (GetPipelineTestReport (stubEnv fsProject) (requestFor "1") World.start).1.status ≠ 200 := by
  refine ⟨rfl, rfl, rfl, ?_⟩
  show (500 : Nat) ≠ 200
  decide

/-- C4, as amended: for every resolved configuration and every upstream
behaviour, `GetGitLabPipelines`, `GetGitLabPipeline`, `GetPipelineJobs`,
`GetPipelineDetails`, `GetPipelineTestReportSummary`, `GetPipelineVariables` and
`GetGitLabMergeRequests` answer HTTP 200, and so does `GetJobDetails` provided
the body of the job does not decode to a nil map; whenever the first upstream
request of one of these eight operations fails or its body does not parse, the
response carries a non-empty note. `GetPipelineTestReport` answers HTTP 400
when the token or the project id is missing, HTTP 200 with the example report
when its upstream request fails, HTTP 500 when the body does not parse and
HTTP 200 with the decoded report otherwise. -/
theorem C4_upstream_failures (E : Env) (c : Request) (w : World) :
    (∀ H ∈ [GetGitLabPipelines, GetGitLabPipeline, GetPipelineJobs, GetPipelineDetails,
        GetPipelineTestReportSummary, GetPipelineVariables, GetGitLabMergeRequests],
      (H E c w).1.status = 200) ∧
    ((∀ body,
        (makeGitLabAPIRequest E "GET"
          ("projects/" ++ jobProjectID E c ++ "/jobs/" ++ c.Param "id") (resolved E) w).1 =
          .ok body → E.lib.unmarshalMap body ≠ .ok none) →
      (GetJobDetails E c w).1.status = 200) ∧
    ((resolved E).Token ≠ "" →
      ((resolved E).ProjectID ≠ "" →
        primaryFails E w ("projects/" ++ (resolved E).ProjectID ++ "/pipelines")
          (fun b => (E.lib.unmarshalPipelines b).isOk) →
        (GetGitLabPipelines E c w).1.hasNote) ∧
      ((resolved E).ProjectID = "" →
        primaryFails E w "projects?membership=true&per_page=5"
          (fun b => (E.lib.unmarshalProjects b).isOk) →
        (GetGitLabPipelines E c w).1.hasNote) ∧
      (effectiveProjectID (resolved E) c ≠ "" →
        (primaryFails E w
            ("projects/" ++ effectiveProjectID (resolved E) c ++ "/pipelines/" ++
              c.Param "id")
            (fun b => (E.lib.unmarshalPipeline b).isOk) →
          (GetGitLabPipeline E c w).1.hasNote) ∧
        (primaryFails E w
            ("projects/" ++ effectiveProjectID (resolved E) c ++ "/pipelines/" ++
              c.Param "id" ++ "/jobs")
            (fun b => (E.lib.unmarshalJobs b).isOk) →
          (GetPipelineJobs E c w).1.hasNote) ∧
        (primaryFails E w
            ("projects/" ++ effectiveProjectID (resolved E) c ++ "/pipelines/" ++
              c.Param "id")
            (fun b => (E.lib.unmarshalMap b).isOk) →
          (GetPipelineDetails E c w).1.hasNote) ∧
        (primaryFails E w
            ("projects/" ++ effectiveProjectID (resolved E) c ++ "/pipelines/" ++
              c.Param "id" ++ "/test_report_summary")
            (fun b => (E.lib.unmarshalMap b).isOk) →
          (GetPipelineTestReportSummary E c w).1.hasNote) ∧
        (primaryFails E w
            ("projects/" ++ effectiveProjectID (resolved E) c ++ "/pipelines/" ++
              c.Param "id" ++ "/variables")
            (fun b => (E.lib.unmarshalMaps b).isOk) →
          (GetPipelineVariables E c w).1.hasNote)) ∧
      (jobProjectID E c ≠ "" →
        primaryFails E w ("projects/" ++ jobProjectID E c ++ "/jobs/" ++ c.Param "id")
          (fun b => (E.lib.unmarshalMap b).isOk) →
        (GetJobDetails E c w).1.hasNote) ∧
      ((resolved E).ProjectID ≠ "" →
        primaryFails E w (mergeRequestsEndpoint (resolved E).ProjectID c)
          (fun b => (E.lib.unmarshalMergeRequests b).isOk) →
        (GetGitLabMergeRequests E c w).1.hasNote)) ∧
    ((resolved E).Token = "" ∨ (resolved E).ProjectID = "" →
      (GetPipelineTestReport E c w).1.status = 400) ∧
    ((resolved E).Token ≠ "" → (resolved E).ProjectID ≠ "" →
      (GetPipelineTestReport E c w).1 =
        match (makeGitLabAPIRequest E "GET"
          ("projects/" ++ (resolved E).ProjectID ++ "/pipelines/" ++ c.Param "id" ++
            "/test_report") (resolved E) w).1 with
        | .error _ => .json 200 exampleTestReport
        | .ok body =>
          match E.lib.unmarshalMap body with
          | .error err =>
            .json 500 (.obj [("error",
              .str ("Error parsing GitLab pipeline test report: " ++ err))])
          | .ok testReport => .json 200 (GoVal.ofMap testReport)) := by
  refine ⟨?_, GetJobDetails_status E c w, fun hT => ⟨?_, ?_, fun hP => ⟨?_, ?_, ?_, ?_, ?_⟩,
    ?_, ?_⟩, ?_, GetPipelineTestReport_cases E c w⟩
  · intro H hH
    simp only [List.mem_cons, List.mem_singleton, List.not_mem_nil, or_false] at hH
    rcases hH with rfl | rfl | rfl | rfl | rfl | rfl | rfl
    · exact GetGitLabPipelines_status E c w
    · exact GetGitLabPipeline_status E c w
    · exact GetPipelineJobs_status E c w
    · exact GetPipelineDetails_status E c w
    · exact GetPipelineTestReportSummary_status E c w
    · exact GetPipelineVariables_status E c w
    · exact GetGitLabMergeRequests_status E c w
  · exact GetGitLabPipelines_single_fails E c w hT
  · exact GetGitLabPipelines_fanout_fails E c w hT
  · exact GetGitLabPipeline_fails E c w hT hP
  · exact GetPipelineJobs_fails E c w hT hP
  · exact GetPipelineDetails_fails E c w hT hP
  · exact GetPipelineTestReportSummary_fails E c w hT hP
  · exact GetPipelineVariables_fails E c w hT hP
  · exact GetJobDetails_fails E c w hT
  · exact GetGitLabMergeRequests_fails E c w hT
  · intro h
    by_cases hT : (resolved E).Token = ""
    · rw [GetPipelineTestReport_noToken E c w hT]
      rfl
    · rw [GetPipelineTestReport_noProject E c w hT (h.resolve_left hT)]
      rfl

/-- Witness of C4: with token and project id 7 configured and an unreachable
upstream, the request of `GetGitLabPipeline` fails and the response carries a
non-empty note. -/
theorem C4_upstream_failures_witness :
    (resolved (stubEnv fsProject)).Token ≠ "" ∧
    effectiveProjectID (resolved (stubEnv fsProject)) (requestFor "1") ≠ "" ∧
    primaryFails (stubEnv fsProject) World.start
      ("projects/" ++ effectiveProjectID (resolved (stubEnv fsProject)) (requestFor "1") ++
        "/pipelines/" ++ (requestFor "1").Param "id")
      (fun b => ((stubEnv fsProject).lib.unmarshalPipeline b).isOk) ∧
    (GetGitLabPipeline (stubEnv fsProject) (requestFor "1") World.start).1.hasNote := by
  have hT : (resolved (stubEnv fsProject)).Token ≠ "" := by decide
  have hP : effectiveProjectID (resolved (stubEnv fsProject)) (requestFor "1") ≠ "" := by
    decide
  have hf : primaryFails (stubEnv fsProject) World.start
      ("projects/" ++ effectiveProjectID (resolved (stubEnv fsProject)) (requestFor "1") ++
        "/pipelines/" ++ (requestFor "1").Param "id")
      (fun b => ((stubEnv fsProject).lib.unmarshalPipeline b).isOk) := by
    show True
    trivial
  exact ⟨hT, hP, hf,
    ((C4_upstream_failures (stubEnv fsProject) (requestFor "1") World.start).2.2.1 hT).2.2.1
      hP |>.1 hf⟩

/-! ## C5 and C6: the decoration of `webURL` in the fan-out -/

/-- C5, on the code: the decoration is not idempotent. For project 1, a
pipeline URL without `projects/1` gets the suffix `?project_id=1`; the
decorated URL still does not contain `projects/1`, so decorating it again adds
the suffix a second time. -/
theorem C5_decoration_applied_twice :
    decorateWebURL "https://gitlab.com/group/project/-/pipelines/7" 1 =
      "https://gitlab.com/group/project/-/pipelines/7?project_id=1" ∧
    decorateWebURL (decorateWebURL "https://gitlab.com/group/project/-/pipelines/7" 1) 1 =
      "https://gitlab.com/group/project/-/pipelines/7?project_id=1?project_id=1" ∧
    decorateWebURL (decorateWebURL "https://gitlab.com/group/project/-/pipelines/7" 1) 1 ≠
      decorateWebURL "https://gitlab.com/group/project/-/pipelines/7" 1 := by
  decide

/-- C6, on the code: a URL that embeds project 12 and not project 1 is left
without the suffix for project 1, because the text `projects/12` contains
`projects/1`. -/
theorem C6_other_project_id_not_decorated :
    specEmbedsProjectID "https://gitlab.com/api/v4/projects/12/pipelines/3" 1 = false ∧
    specEmbedsProjectID "https://gitlab.com/api/v4/projects/12/pipelines/3" 12 = true ∧
    strings.Contains "https://gitlab.com/api/v4/projects/12/pipelines/3" "projects/1" = true ∧
    decorateWebURL "https://gitlab.com/api/v4/projects/12/pipelines/3" 1 =
      "https://gitlab.com/api/v4/projects/12/pipelines/3" := by
  decide

/-! ## C7: order of the fan-out -/

theorem mapM_cons_apply {α β : Type} (f : α → M β) (a : α) (l : List α) (w : World) :
    (List.mapM f (a :: l)) w =
      ((f a w).1 :: (List.mapM f l (f a w).2).1, (List.mapM f l (f a w).2).2) := by
  rw [List.mapM_cons]
  rfl

theorem mapM_nil_apply {α β : Type} (f : α → M β) (w : World) :
    (List.mapM f ([] : List α)) w = ([], w) := by
  rw [List.mapM_nil]
  rfl

/-- The loop over the projects, started at index `i` with `pipelines` and
`names` collected so far, appends the contributions of the next `5 - i`
projects in order. -/
theorem fanOutLoop_eq (E : Env) (config : GitLabConfig) (projects : List GitLabProject) :
    ∀ (i : Nat) (pipelines : List GitLabPipeline) (names : List String) (w : World),
      fanOutLoop E config i projects pipelines names w =
        ((pipelines ++
            ((projects.take (5 - i)).mapM (projectContribution E config) w).1.flatten,
          names ++ (projects.take (5 - i)).map fun p => p.Name),
         ((projects.take (5 - i)).mapM (projectContribution E config) w).2) := by
  induction projects with
  | nil =>
    intro i pipelines names w
    simp only [fanOutLoop, List.take_nil, mapM_nil_apply, M.pure_apply, List.flatten_nil,
      List.append_nil, List.map_nil]
  | cons project rest ih =>
    intro i pipelines names w
    by_cases hi : i ≥ 5
    · have h0 : 5 - i = 0 := by omega
      simp only [fanOutLoop, hi, h0, ↓reduceIte, List.take_zero, mapM_nil_apply, M.pure_apply,
        List.flatten_nil, List.append_nil, List.map_nil]
    · have h1 : 5 - i = (5 - (i + 1)) + 1 := by omega
      rw [h1, List.take_succ_cons, mapM_cons_apply]
      simp only [fanOutLoop, hi, ↓reduceIte, M.bind_apply, projectContribution,
        projectPipelinesEndpoint]
      generalize (makeGitLabAPIRequest E "GET" _ config w) = r
      obtain ⟨r1, w1⟩ := r
      cases r1 with
      | error err =>
        simp only [ih, M.pure_apply, List.flatten_cons, List.nil_append, List.map_cons,
          List.append_assoc, List.singleton_append]
      | ok body =>
        simp only
        cases hd : E.lib.unmarshalPipelines body with
        | error err =>
          simp only [ih, M.pure_apply, List.flatten_cons, List.nil_append, List.map_cons,
            List.append_assoc, List.singleton_append]
        | ok ps =>
          simp only [ih, M.pure_apply, List.flatten_cons, List.map_cons,
            List.append_assoc, List.singleton_append]
          rfl

theorem finishPipelines_field (E : Env) (config : GitLabConfig)
    (ps : List GitLabPipeline) (info : String) (w : World) :
    (finishPipelines E config ps info w).1.field "pipelines" =
      some (.pipelines (if ps.length = 0 then [] else (enrichLoop E config ps w).1)) := by
  by_cases h : ps.length = 0
  · simp only [finishPipelines, h, ↓reduceIte, M.pure_apply]
    rfl
  · simp only [finishPipelines, h, ↓reduceIte, M.bind_apply, M.pure_apply]
    rfl

/-- C7: in fan-out mode (token set, no default project id), when the request
for the projects succeeds and its body decodes to a non-empty list, the
pipeline list that the loop over the projects builds (the list before
enrichment) is the concatenation, in project order over the first five
projects only, of the contribution of each project: its pipelines in upstream
order with `Ref` rewritten to `<ref> (<project name>)`, or nothing when its
request or the parsing of its body fails. The response status is 200 and the
`pipelines` of the response are the enrichment of that list. -/
theorem C7_fan_out_order (E : Env) (c : Request) (w : World) (projectsBody : String)
    (projects : List GitLabProject)
    (hToken : (resolved E).Token ≠ "") (hProject : (resolved E).ProjectID = "")
    (hCall : (makeGitLabAPIRequest E "GET" "projects?membership=true&per_page=5"
      (resolved E) w).1 = .ok projectsBody)
    (hDecode : E.lib.unmarshalProjects projectsBody = .ok (some projects))
    (hSome : projects ≠ []) :
    let w1 := (makeGitLabAPIRequest E "GET" "projects?membership=true&per_page=5"
      (resolved E) w).2
    let contributions := (projects.take 5).mapM (projectContribution E (resolved E)) w1
    let merged := contributions.1.flatten
    (fanOutLoop E (resolved E) 0 projects [] [] w1).1.1 = merged ∧
    (GetGitLabPipelines E c w).1.status = 200 ∧
    (GetGitLabPipelines E c w).1.field "pipelines" =
      some (.pipelines
        (if merged.length = 0 then []
         else (enrichLoop E (resolved E) merged contributions.2).1)) := by
  intro w1 contributions merged
  have hloop := fanOutLoop_eq E (resolved E) projects 0 [] [] w1
  refine ⟨?_, GetGitLabPipelines_status E c w, ?_⟩
  · rw [hloop]
    rfl
  · have hlen : projects.length ≠ 0 := by
      intro h
      exact hSome (List.length_eq_zero.mp h)
    have hw : makeGitLabAPIRequest E "GET" "projects?membership=true&per_page=5"
        (resolved E) w = (.ok projectsBody, w1) := Prod.ext hCall rfl
    simp only [GetGitLabPipelines, withConfig_eq, GetGitLabPipelinesWith, M.bind_apply,
      M.pure_apply, hToken, hProject, ne_eq, not_true_eq_false, ↓reduceIte, hw, hDecode,
      Option.getD_some, hlen, hloop, finishPipelines_field]
    rfl

/-- Witness of C7: the stub upstream serves the projects P1 to P6 and fails for
the pipelines of P3; the merged list holds the pipelines of P1, P2, P4 and P5
in that order, nothing of P3 and nothing of P6, and the response status is
200. -/
theorem C7_fan_out_order_witness :
    (resolved (stubEnv fsToken)).Token ≠ "" ∧
    (resolved (stubEnv fsToken)).ProjectID = "" ∧
    (makeGitLabAPIRequest (stubEnv fsToken) "GET" "projects?membership=true&per_page=5"
      (resolved (stubEnv fsToken)) World.start).1 = .ok "six projects" ∧
    (stubEnv fsToken).lib.unmarshalProjects "six projects" = .ok (some stubProjects) ∧
    ((fanOutLoop (stubEnv fsToken) (resolved (stubEnv fsToken)) 0 stubProjects [] []
        stubFanOutStart).1.1.map fun p => (p.ID, p.Ref)) =
      [(11, "main (P1)"), (12, "dev (P1)"), (21, "main (P2)"), (41, "main (P4)"),
       (51, "main (P5)")] ∧
    (GetGitLabPipelines (stubEnv fsToken) (requestFor "1") World.start).1.status = 200 := by
  have h := C7_fan_out_order (stubEnv fsToken) (requestFor "1") World.start "six projects"
    stubProjects (by decide) (by decide) rfl rfl (by decide)
  refine ⟨by decide, by decide, rfl, rfl, ?_, h.2.1⟩
  have h1 := h.1
  simp only at h1
  show List.map (fun p => (p.ID, p.Ref))
    (fanOutLoop (stubEnv fsToken) (resolved (stubEnv fsToken)) 0 stubProjects [] []
      (makeGitLabAPIRequest (stubEnv fsToken) "GET" "projects?membership=true&per_page=5"
        (resolved (stubEnv fsToken)) World.start).2).1.1 = _
  rw [h1]
  rfl

/-! ## Facts about `strings.Split` and `strings.Join` at a one-character separator -/

theorem splitAux_nil (sep : List Char) (cur : List Char) :
    strings.splitAux sep [] 0 cur = [cur.reverse] := by
  simp [strings.splitAux]

theorem splitAux_cons_sep (c0 : Char) (cs cur : List Char) :
    strings.splitAux [c0] (c0 :: cs) 0 cur = cur.reverse :: strings.splitAux [c0] cs 0 [] := by
  simp [strings.splitAux, List.isPrefixOf]

theorem splitAux_cons_other (c0 c : Char) (cs cur : List Char) (h : c ≠ c0) :
    strings.splitAux [c0] (c :: cs) 0 cur = strings.splitAux [c0] cs 0 (c :: cur) := by
  have h2 : ¬ c0 = c := fun e => h e.symm
  simp [strings.splitAux, List.isPrefixOf, h2]

theorem splitAux_append (c0 : Char) (a : List Char) (h : c0 ∉ a) :
    ∀ rest cur, strings.splitAux [c0] (a ++ rest) 0 cur =
      strings.splitAux [c0] rest 0 (a.reverse ++ cur) := by
  induction a with
  | nil => intro rest cur; rfl
  | cons x xs ih =>
    intro rest cur
    have hx : x ≠ c0 := fun e => h (by simp [e])
    have hxs : c0 ∉ xs := fun e => h (by simp [e])
    rw [List.cons_append, splitAux_cons_other c0 x _ _ hx, ih hxs]
    simp

theorem splitAux_join (c0 : Char) :
    ∀ (rest : List (List Char)) (a cur : List Char), (∀ l ∈ a :: rest, c0 ∉ l) →
      strings.splitAux [c0] (joinData c0 (a :: rest)) 0 cur = (cur.reverse ++ a) :: rest := by
  intro rest
  induction rest with
  | nil =>
    intro a cur h
    have ha : c0 ∉ a := h a (by simp)
    have := splitAux_append c0 a ha [] cur
    simp only [List.append_nil] at this
    simp [joinData, this, splitAux_nil]
  | cons b rest ih =>
    intro a cur h
    have ha : c0 ∉ a := h a (by simp)
    have hb : ∀ l ∈ b :: rest, c0 ∉ l := fun l hl => h l (List.mem_cons_of_mem _ hl)
    simp only [joinData]
    rw [splitAux_append c0 a ha, splitAux_cons_sep, ih b [] hb]
    simp

theorem splitAux_pieces (c0 : Char) :
    ∀ (s cur : List Char), c0 ∉ cur → ∀ x ∈ strings.splitAux [c0] s 0 cur, c0 ∉ x := by
  intro s
  induction s with
  | nil =>
    intro cur hcur x hx
    simp [splitAux_nil] at hx
    subst hx
    simpa using hcur
  | cons c cs ih =>
    intro cur hcur x hx
    by_cases hc : c = c0
    · subst hc
      rw [splitAux_cons_sep] at hx
      rcases List.mem_cons.mp hx with h | h
      · subst h
        simpa using hcur
      · exact ih [] (by simp) x h
    · rw [splitAux_cons_other c0 c _ _ hc] at hx
      refine ih (c :: cur) ?_ x hx
      intro h
      rcases List.mem_cons.mp h with h | h
      · exact hc h.symm
      · exact hcur h

theorem splitAux_ne_nil (sep : List Char) :
    ∀ (s : List Char) (k : Nat) (cur : List Char), strings.splitAux sep s k cur ≠ [] := by
  intro s
  induction s with
  | nil => intro k cur; simp [strings.splitAux]
  | cons c cs ih =>
    intro k cur
    cases k with
    | zero =>
      simp only [strings.splitAux]
      split
      · simp
      · exact ih _ _
    | succ k =>
      simp only [strings.splitAux]
      exact ih _ _

theorem Join_data (lines : List String) :
    (strings.Join lines "\n").data = joinData '\n' (lines.map String.data) := by
  induction lines with
  | nil => rfl
  | cons a rest ih =>
    cases rest with
    | nil => rfl
    | cons b rest =>
      simp only [strings.Join, String.data_append, List.map_cons, joinData] at ih ⊢
      rw [ih]
      simp

theorem Split_newline (s : String) :
    strings.Split s "\n" = (strings.splitAux ['\n'] s.data 0 []).map String.mk := by
  simp [strings.Split]

theorem Split_Join (lines : List String) (hne : lines ≠ [])
    (h : ∀ l ∈ lines, '\n' ∉ l.data) :
    strings.Split (strings.Join lines "\n") "\n" = lines := by
  rw [Split_newline, Join_data]
  cases lines with
  | nil => exact absurd rfl hne
  | cons a rest =>
    rw [List.map_cons, splitAux_join '\n' _ _ []]
    · have hid : String.mk ∘ String.data = id := rfl
      simp [hid]
    · intro l hl
      rw [← List.map_cons, List.mem_map] at hl
      obtain ⟨x, hx, rfl⟩ := hl
      exact h x hx

theorem Split_no_newline (s : String) : ∀ l ∈ strings.Split s "\n", '\n' ∉ l.data := by
  intro l hl
  rw [Split_newline, List.mem_map] at hl
  obtain ⟨x, hx, rfl⟩ := hl
  exact splitAux_pieces '\n' s.data [] (by simp) x hx

theorem Split_ne_nil (s : String) : strings.Split s "\n" ≠ [] := by
  rw [Split_newline]
  intro h
  exact splitAux_ne_nil _ _ _ _ (List.map_eq_nil_iff.mp h)

/-! ## Facts about `getConfigFromFile` -/

theorem HasPrefix_iff (s p : String) : strings.HasPrefix s p = true ↔ p.data <+: s.data := by
  simp [strings.HasPrefix, List.isPrefixOf_iff_prefix]

/-- Two of the three key prefixes cannot both start one line. -/
theorem HasPrefix_excl (s p q : String) (hp : strings.HasPrefix s p = true)
    (hpq : ¬ p.data <+: q.data) (hqp : ¬ q.data <+: p.data) :
    strings.HasPrefix s q = false := by
  by_contra h
  have hq : strings.HasPrefix s q = true := by simpa using h
  rcases List.prefix_or_prefix_of_prefix ((HasPrefix_iff _ _).mp hp) ((HasPrefix_iff _ _).mp hq)
    with h1 | h1
  · exact hpq h1
  · exact hqp h1

theorem lastWithPrefix_nil (p : String) : lastWithPrefix [] p = none := rfl

theorem lastWithPrefix_cons (l : String) (ls : List String) (p : String) :
    lastWithPrefix (l :: ls) p =
      if strings.HasPrefix l p then some ((lastWithPrefix ls p).getD (strings.TrimPrefix l p))
      else lastWithPrefix ls p := by
  unfold lastWithPrefix
  by_cases h : strings.HasPrefix l p = true
  · simp only [h, List.filter_cons_of_pos, ↓reduceIte, List.getLast?_cons, Option.map_some']
    cases (List.filter (fun line => strings.HasPrefix line p) ls).getLast? <;> rfl
  · simp [h]

theorem scan_URL (lines : List String) : ∀ c : GitLabConfig,
    (lines.foldl scanLine c).URL = (lastWithPrefix lines "GITLAB_URL=").getD c.URL := by
  induction lines with
  | nil => intro c; rfl
  | cons l ls ih =>
    intro c
    rw [List.foldl_cons, ih, lastWithPrefix_cons]
    by_cases h : strings.HasPrefix l "GITLAB_URL=" = true
    · simp [scanLine, h]
    · rw [if_neg h]
      simp only [scanLine]
      split_ifs <;> rfl

theorem scan_Token (lines : List String) : ∀ c : GitLabConfig,
    (lines.foldl scanLine c).Token = (lastWithPrefix lines "GITLAB_TOKEN=").getD c.Token := by
  induction lines with
  | nil => intro c; rfl
  | cons l ls ih =>
    intro c
    rw [List.foldl_cons, ih, lastWithPrefix_cons]
    by_cases h : strings.HasPrefix l "GITLAB_TOKEN=" = true
    · have h1 := HasPrefix_excl l _ "GITLAB_URL=" h (by decide) (by decide)
      simp [scanLine, h, h1]
    · rw [if_neg h]
      simp only [scanLine]
      split_ifs <;> rfl

theorem scan_ProjectID (lines : List String) : ∀ c : GitLabConfig,
    (lines.foldl scanLine c).ProjectID =
      (lastWithPrefix lines "GITLAB_PROJECT_ID=").getD c.ProjectID := by
  induction lines with
  | nil => intro c; rfl
  | cons l ls ih =>
    intro c
    rw [List.foldl_cons, ih, lastWithPrefix_cons]
    by_cases h : strings.HasPrefix l "GITLAB_PROJECT_ID=" = true
    · have h1 := HasPrefix_excl l _ "GITLAB_URL=" h (by decide) (by decide)
      have h2 := HasPrefix_excl l _ "GITLAB_TOKEN=" h (by decide) (by decide)
      simp [scanLine, h, h1, h2]
    · rw [if_neg h]
      simp only [scanLine]
      split_ifs <;> rfl

theorem overlayJSON_URL (c j : GitLabConfig) :
    (overlayJSON c j).URL = if j.URL ≠ "" then j.URL else c.URL := by
  unfold overlayJSON
  split_ifs <;> rfl

theorem overlayJSON_Token (c j : GitLabConfig) :
    (overlayJSON c j).Token = if j.Token ≠ "" then j.Token else c.Token := by
  unfold overlayJSON
  split_ifs <;> rfl

theorem overlayJSON_ProjectID (c j : GitLabConfig) :
    (overlayJSON c j).ProjectID = if j.ProjectID ≠ "" then j.ProjectID else c.ProjectID := by
  unfold overlayJSON
  split_ifs <;> rfl

/-- The configuration that `getConfigFromFile` returns, as the overlay of the
structured store on the scan of the flat store. -/
theorem getConfigFromFile_eq (J : ConfigCodec) (fs : FileSys) :
    (getConfigFromFile J fs).1 =
      match structuredConfig J fs with
      | some j => overlayJSON ((flatLines fs).foldl scanLine defaultConfig) j
      | none => (flatLines fs).foldl scanLine defaultConfig := by
  unfold getConfigFromFile structuredConfig flatLines scanDotenv
  cases fs.dotenv.read <;> cases fs.config.read <;> simp only [List.foldl_nil] <;>
    first
      | rfl
      | (cases J.unmarshal _ <;> rfl)

theorem getConfigFromFile_URL (J : ConfigCodec) (fs : FileSys) :
    (getConfigFromFile J fs).1.URL =
      resolveField ((structuredConfig J fs).map fun j => j.URL)
        (lastWithPrefix (flatLines fs) "GITLAB_URL=") "https://gitlab.com" := by
  rw [getConfigFromFile_eq]
  cases structuredConfig J fs with
  | none => simp [resolveField, scan_URL, defaultConfig]
  | some j => simp [resolveField, overlayJSON_URL, scan_URL, defaultConfig]

theorem getConfigFromFile_Token (J : ConfigCodec) (fs : FileSys) :
    (getConfigFromFile J fs).1.Token =
      resolveField ((structuredConfig J fs).map fun j => j.Token)
        (lastWithPrefix (flatLines fs) "GITLAB_TOKEN=") "" := by
  rw [getConfigFromFile_eq]
  cases structuredConfig J fs with
  | none => simp [resolveField, scan_Token, defaultConfig]
  | some j => simp [resolveField, overlayJSON_Token, scan_Token, defaultConfig]

theorem getConfigFromFile_ProjectID (J : ConfigCodec) (fs : FileSys) :
    (getConfigFromFile J fs).1.ProjectID =
      resolveField ((structuredConfig J fs).map fun j => j.ProjectID)
        (lastWithPrefix (flatLines fs) "GITLAB_PROJECT_ID=") "" := by
  rw [getConfigFromFile_eq]
  cases structuredConfig J fs with
  | none => simp [resolveField, scan_ProjectID, defaultConfig]
  | some j => simp [resolveField, overlayJSON_ProjectID, scan_ProjectID, defaultConfig]

theorem lastWithPrefix_filter_known (lines : List String) (p : String)
    (hp : ∀ l, strings.HasPrefix l p = true → knownLine l = true) :
    lastWithPrefix (lines.filter knownLine) p = lastWithPrefix lines p := by
  unfold lastWithPrefix
  rw [List.filter_filter]
  congr 2
  apply List.filter_congr
  intro l _
  by_cases h : strings.HasPrefix l p = true
  · simp [h, hp l h]
  · simp [h]

/-! ## Facts about `updateDotenv` -/

theorem splitNAux_zero (sep : List Char) :
    ∀ s cur : List Char, strings.splitNAux sep 0 s 0 cur = [cur.reverse ++ s] := by
  intro s
  induction s with
  | nil => intro cur; simp [strings.splitNAux]
  | cons c cs ih => intro cur; simp [strings.splitNAux, ih]

theorem takeWhile_ne_cons (c : Char) (cs : List Char) (hc : c ≠ '=') :
    List.takeWhile (fun c => c != '=') (c :: cs) =
      c :: List.takeWhile (fun c => c != '=') cs :=
  List.takeWhile_cons_of_pos (by simpa using hc)

theorem dropWhile_ne_cons (c : Char) (cs : List Char) (hc : c ≠ '=') :
    List.dropWhile (fun c => c != '=') (c :: cs) = List.dropWhile (fun c => c != '=') cs :=
  List.dropWhile_cons_of_pos (by simpa using hc)

/-- `strings.SplitN(line, "=", 2)` on character lists: the text before the first
`=` and the text after it, or the whole text when it has no `=`. -/
theorem splitNAux_eq :
    ∀ l cur : List Char, strings.splitNAux ['='] 1 l 0 cur =
      if '=' ∈ l then
        [cur.reverse ++ l.takeWhile (fun c => c != '='), (l.dropWhile fun c => c != '=').tail]
      else [cur.reverse ++ l] := by
  intro l
  induction l with
  | nil => intro cur; simp [strings.splitNAux]
  | cons c cs ih =>
    intro cur
    by_cases hc : c = '='
    · subst hc
      simp [strings.splitNAux, List.isPrefixOf, splitNAux_zero]
    · have hc2 : ¬ '=' = c := fun e => hc e.symm
      simp only [strings.splitNAux, List.isPrefixOf, beq_iff_eq, hc2, Bool.and_true,
        Bool.false_eq_true, ↓reduceIte, ih, List.mem_cons, false_or,
        takeWhile_ne_cons c cs hc, dropWhile_ne_cons c cs hc]
      split_ifs <;> simp

theorem prefix_eq_iff (k : List Char) (hk : '=' ∉ k) :
    ∀ l : List Char,
      (k ++ ['=']) <+: l ↔ '=' ∈ l ∧ l.takeWhile (fun c => c != '=') = k := by
  induction k with
  | nil =>
    intro l
    cases l with
    | nil => simp
    | cons c cs =>
      by_cases hc : c = '='
      · subst hc
        simp [List.takeWhile]
      · have hc2 : ¬ '=' = c := fun e => hc e.symm
        simp [takeWhile_ne_cons c cs hc, hc2, List.prefix_cons_inj]
  | cons x k ih =>
    intro l
    have hx : x ≠ '=' := fun e => hk (by simp [e])
    have hk2 : '=' ∉ k := fun e => hk (by simp [e])
    cases l with
    | nil => simp
    | cons c cs =>
      by_cases hc : c = '='
      · subst hc
        have : ¬ x = '=' := hx
        simp [List.takeWhile, List.cons_prefix_cons, this]
      · have hc2 : ¬ '=' = c := fun e => hc e.symm
        simp only [List.cons_append, List.cons_prefix_cons, ih hk2 cs, List.mem_cons, hc2,
          false_or, takeWhile_ne_cons c cs hc, List.cons.injEq]
        constructor
        · rintro ⟨rfl, h1, h2⟩
          exact ⟨h1, rfl, h2⟩
        · rintro ⟨h1, rfl, h2⟩
          exact ⟨rfl, h1, h2⟩

theorem SplitN_eq_two (line : String) :
    strings.SplitN line "=" 2 = (strings.splitNAux ['='] 1 line.data 0 []).map String.mk := by
  simp [strings.SplitN]

/-- The test of `updateDotenv` for the line of a key is the prefix test of
`getConfigFromFile`, for a key without `=`. -/
theorem matchKey_iff (line key : String) (hk : '=' ∉ key.data) :
    ((strings.SplitN line "=" 2).length = 2 ∧
        (strings.SplitN line "=" 2).head? = some key) ↔
      strings.HasPrefix line (key ++ "=") = true := by
  rw [SplitN_eq_two, splitNAux_eq, HasPrefix_iff, String.data_append]
  have he : ("=" : String).data = ['='] := rfl
  rw [he, prefix_eq_iff key.data hk]
  by_cases hm : '=' ∈ line.data
  · simp only [hm, ↓reduceIte, List.map_cons, List.map_nil, List.length_cons, List.length_nil,
      List.head?_cons, Option.some.injEq, List.reverse_nil, List.nil_append, true_and]
    constructor
    · intro h
      rw [← h]
    · intro h
      exact String.ext h
  · simp [hm]

theorem replaceFirst_cons (key value line : String) (rest : List String)
    (hk : '=' ∉ key.data) :
    replaceFirst key value (line :: rest) =
      if strings.HasPrefix line (key ++ "=") = true then ((key ++ "=" ++ value) :: rest, true)
      else (line :: (replaceFirst key value rest).1, (replaceFirst key value rest).2) := by
  simp only [replaceFirst, matchKey_iff line key hk]

theorem upsertLines_cons (key value line : String) (rest : List String)
    (hk : '=' ∉ key.data) :
    upsertLines key value (line :: rest) =
      if strings.HasPrefix line (key ++ "=") = true then (key ++ "=" ++ value) :: rest
      else line :: upsertLines key value rest := by
  unfold upsertLines
  rw [replaceFirst_cons key value line rest hk]
  by_cases h : strings.HasPrefix line (key ++ "=") = true
  · simp [h]
  · simp only [h, Bool.false_eq_true, ↓reduceIte]
    split_ifs <;> simp

theorem HasPrefix_append (p v : String) : strings.HasPrefix (p ++ v) p = true := by
  rw [HasPrefix_iff, String.data_append]
  exact List.prefix_append _ _

theorem TrimPrefix_append (p v : String) : strings.TrimPrefix (p ++ v) p = v := by
  unfold strings.TrimPrefix
  rw [if_pos (HasPrefix_append p v)]
  apply String.ext
  simp [String.data_append]

/-- When at most one line starts with the key prefix, the lines that
`updateDotenv` writes have exactly one such line, the new one. -/
theorem upsertLines_filter (key value : String) (hk : '=' ∉ key.data) :
    ∀ lines : List String,
      (lines.filter fun l => strings.HasPrefix l (key ++ "=")).length ≤ 1 →
      (upsertLines key value lines).filter (fun l => strings.HasPrefix l (key ++ "=")) =
        [key ++ "=" ++ value] := by
  intro lines
  induction lines with
  | nil =>
    intro _
    simp [upsertLines, replaceFirst, HasPrefix_append]
  | cons l ls ih =>
    intro h
    rw [upsertLines_cons key value l ls hk]
    by_cases hp : strings.HasPrefix l (key ++ "=") = true
    · rw [if_pos hp]
      simp only [List.filter_cons, hp, ↓reduceIte, List.length_cons] at h
      have h0 : ls.filter (fun l => strings.HasPrefix l (key ++ "=")) = [] := by
        apply List.eq_nil_of_length_eq_zero
        omega
      simp only [List.filter_cons, HasPrefix_append, ↓reduceIte, h0]
    · rw [if_neg hp]
      simp only [List.filter_cons, hp, Bool.false_eq_true, ↓reduceIte] at h ⊢
      exact ih h

theorem upsertLines_mem (key value : String) (hk : '=' ∉ key.data) :
    ∀ (lines : List String) (x : String), x ∈ upsertLines key value lines →
      x ∈ lines ∨ x = key ++ "=" ++ value := by
  intro lines
  induction lines with
  | nil =>
    intro x hx
    simp [upsertLines, replaceFirst] at hx
    exact Or.inr hx
  | cons l ls ih =>
    intro x hx
    rw [upsertLines_cons key value l ls hk] at hx
    by_cases hp : strings.HasPrefix l (key ++ "=") = true
    · rw [if_pos hp] at hx
      rcases List.mem_cons.mp hx with h | h
      · exact Or.inr h
      · exact Or.inl (List.mem_cons_of_mem _ h)
    · rw [if_neg hp] at hx
      rcases List.mem_cons.mp hx with h | h
      · exact Or.inl (h ▸ List.mem_cons_self _ _)
      · rcases ih x h with h | h
        · exact Or.inl (List.mem_cons_of_mem _ h)
        · exact Or.inr h

theorem upsertLines_ne_nil (key value : String) (lines : List String) :
    upsertLines key value lines ≠ [] := by
  unfold upsertLines
  cases lines with
  | nil => simp [replaceFirst]
  | cons l ls =>
    simp only [replaceFirst]
    split_ifs <;> simp

theorem upsertDotenv_eq (key value content : String) :
    upsertDotenv key value content =
      strings.Join (upsertLines key value (strings.Split content "\n")) "\n" := rfl

theorem envKey_cases (field key : String) (h : envKey field = some key) :
    (field = "url" ∧ key = "GITLAB_URL") ∨ (field = "token" ∧ key = "GITLAB_TOKEN") ∨
      (field = "project_id" ∧ key = "GITLAB_PROJECT_ID") := by
  unfold envKey at h
  split_ifs at h with h1 h2 h3 <;> simp_all

theorem envKey_clean (field key : String) (h : envKey field = some key) :
    '=' ∉ key.data ∧ '\n' ∉ key.data := by
  rcases envKey_cases field key h with ⟨_, rfl⟩ | ⟨_, rfl⟩ | ⟨_, rfl⟩ <;> decide

/-- What a successful `updateDotenv` leaves in the flat store. -/
theorem updateDotenv_ok (f : File) (field value : String)
    (h : (updateDotenv f field value).1 = none) :
    ∃ key, envKey field = some key ∧
      (updateDotenv f field value).2.read =
        .ok (upsertDotenv key value (f.read.toOption.getD "")) := by
  unfold updateDotenv at h ⊢
  cases hk : envKey field with
  | none => simp [hk] at h
  | some key =>
    refine ⟨key, rfl, ?_⟩
    simp only [hk] at h ⊢
    obtain ⟨content, readable, writable⟩ := f
    cases content with
    | none =>
      cases writable <;> cases readable <;>
        simp [File.create, File.read, File.write, Except.toOption] at h ⊢
    | some c =>
      cases writable <;> cases readable <;>
        simp [File.create, File.read, File.write, Except.toOption] at h ⊢

/-- What a successful `updateConfig` leaves in the two stores. -/
theorem updateConfig_ok (J : ConfigCodec) (fs fs2 : FileSys) (field value : String)
    (h : updateConfig J fs field value = (none, fs2)) :
    ∃ s, J.marshal (setField (getConfigFromFile J fs).1 field value) = .ok s ∧
      fs2.dotenv = (updateDotenv fs.dotenv field value).2 ∧
      fs2.config = { fs.config with content := some s } := by
  have hg : getConfigFromFile J fs = ((getConfigFromFile J fs).1, none) := rfl
  unfold updateConfig at h
  rw [hg] at h
  simp only at h
  cases hm : J.marshal (setField (getConfigFromFile J fs).1 field value) with
  | error e => simp [hm] at h
  | ok s =>
    refine ⟨s, rfl, ?_⟩
    simp only [hm, File.write] at h
    split_ifs at h with hw
    · simp only [Prod.mk.injEq, true_and] at h
      subst h
      exact ⟨rfl, rfl⟩
    · simp at h

theorem flatLines_after (fs fs2 : FileSys) (field value : String)
    (hd : fs2.dotenv = (updateDotenv fs.dotenv field value).2)
    (h : (updateDotenv fs.dotenv field value).1 = none) (hv : '\n' ∉ value.data) :
    ∃ key, envKey field = some key ∧
      flatLines fs2 =
        upsertLines key value (strings.Split (fs.dotenv.read.toOption.getD "") "\n") := by
  obtain ⟨key, hk, hr⟩ := updateDotenv_ok fs.dotenv field value h
  refine ⟨key, hk, ?_⟩
  unfold flatLines
  rw [hd, hr, upsertDotenv_eq]
  simp only
  apply Split_Join _ (upsertLines_ne_nil _ _ _)
  intro l hl
  rcases upsertLines_mem key value (envKey_clean field key hk).1 _ l hl with h1 | h1
  · exact Split_no_newline _ l h1
  · subst h1
    simp only [String.data_append, List.mem_append, not_or]
    exact ⟨⟨(envKey_clean field key hk).2, by decide⟩, hv⟩

theorem filter_flatLines (fs : FileSys) (key : String)
    (h : ((flatLines fs).filter fun l => strings.HasPrefix l (key ++ "=")).length ≤ 1) :
    ((strings.Split (fs.dotenv.read.toOption.getD "") "\n").filter fun l =>
      strings.HasPrefix l (key ++ "=")).length ≤ 1 := by
  unfold flatLines at h
  cases hr : fs.dotenv.read with
  | ok c => simpa [hr, Except.toOption] using h
  | error e =>
    have h0 : strings.HasPrefix "" (key ++ "=") = false := by
      by_contra hc
      have := (HasPrefix_iff _ _).mp (by simpa using hc)
      simp [String.data_append] at this
    have h1 : strings.Split "" "\n" = [""] := by decide
    simp [Except.toOption, h1, List.filter_cons, h0]

/-- After a successful `updateDotenv` with a value without line break, on a flat
store with at most one line of the key, the flat-store reader finds the value. -/
theorem flat_value_after (fs fs2 : FileSys) (field value key : String)
    (hd : fs2.dotenv = (updateDotenv fs.dotenv field value).2)
    (h : (updateDotenv fs.dotenv field value).1 = none) (hv : '\n' ∉ value.data)
    (hk : envKey field = some key)
    (hone : ((flatLines fs).filter fun l => strings.HasPrefix l (key ++ "=")).length ≤ 1) :
    lastWithPrefix (flatLines fs2) (key ++ "=") = some value := by
  obtain ⟨key2, hk2, hl⟩ := flatLines_after fs fs2 field value hd h hv
  have e : key2 = key := Option.some.inj (hk2.symm.trans hk)
  subst e
  unfold lastWithPrefix
  rw [hl, upsertLines_filter key2 value (envKey_clean field key2 hk).1 _ (filter_flatLines fs key2 hone)]
  simp [TrimPrefix_append]

theorem structuredConfig_after (J : ConfigCodec) (fs fs2 : FileSys) (field value : String)
    (hUpdate : updateConfig J fs field value = (none, fs2))
    (hRoundTrip : ∀ c s, J.marshal c = .ok s → J.unmarshal s = .ok c)
    (hReadable : fs.config.readable = true) :
    structuredConfig J fs2 = some (setField (getConfigFromFile J fs).1 field value) := by
  obtain ⟨s, hm, _, hc⟩ := updateConfig_ok J fs fs2 field value hUpdate
  unfold structuredConfig
  rw [hc]
  simp [File.read, hReadable, hRoundTrip _ _ hm, Except.toOption]

theorem resolveField_some (v : String) (flat : Option String) (d : String)
    (h : v ≠ "" ∨ flat = some v) : resolveField (some v) flat d = v := by
  unfold resolveField
  by_cases hv : v = ""
  · rcases h with h | h
    · exact absurd hv h
    · simp [hv, h]
  · simp [hv]

theorem stubUnescape_escape (v : List Char) :
    ∀ rest : List Char, rest ≠ [] → stubUnescape (stubEscape v ++ rest) = some (v, rest) := by
  induction v with
  | nil =>
    intro rest hr
    cases rest with
    | nil => exact absurd rfl hr
    | cons b r => simp [stubEscape, stubUnescape]
  | cons c cs ih =>
    intro rest hr
    simp [stubEscape, stubUnescape, ih rest hr]

theorem stubCodec_roundTrip (c : GitLabConfig) (s : String) (h : stubCodec.marshal c = .ok s) :
    stubCodec.unmarshal s = .ok c := by
  simp only [stubCodec, Except.ok.injEq] at h
  subst h
  simp only [stubCodec, List.append_assoc]
  rw [stubUnescape_escape c.URL.data _ (by simp)]
  simp only
  rw [stubUnescape_escape c.Token.data _ (by simp)]
  simp only
  rw [stubUnescape_escape c.ProjectID.data _ (by simp)]

/-! ## C8: update, then resolve -/

/-- C8, refuted as stated: on a flat store that holds `GITLAB_TOKEN=old` and
cannot be written, `updateConfig("token", "")` returns no error, and the
following `getConfigFromFile` returns the token `old`, not the empty string:
the failed update of the flat store is not fatal and an empty token in the
structured store never overrides. The same happens on a writable flat store
with two token lines, where the first line is replaced and the last is read. -/
theorem C8_counterexample :
    (updateConfig stubCodec fsStale "token" "").1 = none ∧
    (getConfigFromFile stubCodec (updateConfig stubCodec fsStale "token" "").2).1.get "token" =
      "old" ∧
    (getConfigFromFile stubCodec (updateConfig stubCodec fsStale "token" "").2).1.get "token" ≠
      "" ∧
    (updateConfig stubCodec fsDuplicate "token" "").1 = none ∧
    (getConfigFromFile stubCodec (updateConfig stubCodec fsDuplicate "token" "").2).1.get
      "token" = "b" := by
  decide

/-- C8, as amended: when `updateConfig(f, v)` returns no error for a field `f`
of `url`, `token`, `project_id`, the JSON library reads back what it writes and
the structured store is readable, a following `getConfigFromFile` returns a
configuration whose field `f` equals `v`, provided `v` is not empty, or `v` is
empty and the update of the flat store succeeded on a flat store with at most
one line that starts with the key prefix of the field. -/
theorem C8_update_then_resolve (J : ConfigCodec) (fs fs2 : FileSys) (field value : String)
    (hField : field = "url" ∨ field = "token" ∨ field = "project_id")
    (hUpdate : updateConfig J fs field value = (none, fs2))
    (hRoundTrip : ∀ c s, J.marshal c = .ok s → J.unmarshal s = .ok c)
    (hReadable : fs.config.readable = true)
    (hValue : value ≠ "" ∨
      ((updateDotenv fs.dotenv field value).1 = none ∧
        ∀ key, envKey field = some key →
          ((flatLines fs).filter fun l => strings.HasPrefix l (key ++ "=")).length ≤ 1)) :
    (getConfigFromFile J fs2).1.get field = value := by
  have hs := structuredConfig_after J fs fs2 field value hUpdate hRoundTrip hReadable
  obtain ⟨s, _, hd, _⟩ := updateConfig_ok J fs fs2 field value hUpdate
  have hflat : ∀ key, envKey field = some key →
      value ≠ "" ∨ lastWithPrefix (flatLines fs2) (key ++ "=") = some value := by
    intro key hk
    by_cases hv : value = ""
    · rcases hValue with h | ⟨h1, h2⟩
      · exact absurd hv h
      · refine Or.inr (flat_value_after fs fs2 field value key hd h1 ?_ hk (h2 key hk))
        rw [hv]
        decide
    · exact Or.inl hv
  rcases hField with rfl | rfl | rfl
  · have h := hflat "GITLAB_URL" rfl
    show (getConfigFromFile J fs2).1.URL = value
    rw [getConfigFromFile_URL, hs]
    exact resolveField_some _ _ _ h
  · have h := hflat "GITLAB_TOKEN" rfl
    show (getConfigFromFile J fs2).1.Token = value
    rw [getConfigFromFile_Token, hs]
    exact resolveField_some _ _ _ h
  · have h := hflat "GITLAB_PROJECT_ID" rfl
    show (getConfigFromFile J fs2).1.ProjectID = value
    rw [getConfigFromFile_ProjectID, hs]
    exact resolveField_some _ _ _ h

/-- Witness of C8: on empty stores, with the stub codec, `updateConfig("token",
"abc")` succeeds and the following `getConfigFromFile` returns the token
`abc`. -/
theorem C8_update_then_resolve_witness :
    updateConfig stubCodec fsEmpty "token" "abc" =
      (none, (updateConfig stubCodec fsEmpty "token" "abc").2) ∧
    (getConfigFromFile stubCodec (updateConfig stubCodec fsEmpty "token" "abc").2).1.get
      "token" = "abc" :=
  ⟨rfl, C8_update_then_resolve stubCodec fsEmpty _ "token" "abc" (by decide) rfl
    stubCodec_roundTrip rfl (Or.inl (by decide))⟩

/-! ## C9: agreement of the two stores after an update -/

/-- C9, on the code: on a flat store with the lines `GITLAB_TOKEN=a` and
`GITLAB_TOKEN=b`, `updateConfig("token", "c")` writes both stores; it replaces
the first line, the flat-store reader takes the last one, so the reader obtains
`b` where the structured store holds `c`. On empty stores, `updateConfig("token",
"a\nb")` writes a value with a line break; the reader obtains `a` where the
structured store holds the whole value. -/
theorem C9_flat_store_disagrees :
    (updateConfig stubCodec fsDuplicate "token" "c").1 = none ∧
    (updateConfig stubCodec fsDuplicate "token" "c").2.dotenv.content =
      some "GITLAB_TOKEN=c\nGITLAB_TOKEN=b" ∧
    (scanDotenv defaultConfig "GITLAB_TOKEN=c\nGITLAB_TOKEN=b").Token = "b" ∧
    (structuredConfig stubCodec (updateConfig stubCodec fsDuplicate "token" "c").2).map
      (fun j => j.Token) = some "c" ∧
    (updateConfig stubCodec fsEmpty "token" "a\nb").1 = none ∧
    (updateConfig stubCodec fsEmpty "token" "a\nb").2.dotenv.content =
      some "\nGITLAB_TOKEN=a\nb" ∧
    (scanDotenv defaultConfig "\nGITLAB_TOKEN=a\nb").Token = "a" ∧
    (structuredConfig stubCodec (updateConfig stubCodec fsEmpty "token" "a\nb").2).map
      (fun j => j.Token) = some "a\nb" := by
  decide

/-! ## C10: resolution order of `getConfigFromFile` -/

/-- C10: for every state of the flat store and of the structured store,
`getConfigFromFile` returns for each of URL, Token and ProjectID the value of
the structured store when that store can be read, parses and has the field
non-empty; otherwise the remainder of the last line of the flat store that
starts with the key prefix of the field, when the flat store can be read and
has such a line; otherwise the default. Lines that start with none of the three
key prefixes do not affect the result: two flat stores with the same lines of
known keys, beside the same structured store, resolve alike. -/
theorem C10_resolution_order (J : ConfigCodec) (fs : FileSys) :
    (getConfigFromFile J fs).1.URL =
      resolveField ((structuredConfig J fs).map fun j => j.URL)
        (lastWithPrefix (flatLines fs) "GITLAB_URL=") "https://gitlab.com" ∧
    (getConfigFromFile J fs).1.Token =
      resolveField ((structuredConfig J fs).map fun j => j.Token)
        (lastWithPrefix (flatLines fs) "GITLAB_TOKEN=") "" ∧
    (getConfigFromFile J fs).1.ProjectID =
      resolveField ((structuredConfig J fs).map fun j => j.ProjectID)
        (lastWithPrefix (flatLines fs) "GITLAB_PROJECT_ID=") "" ∧
    ∀ fs2 : FileSys, fs2.config = fs.config →
      (flatLines fs2).filter knownLine = (flatLines fs).filter knownLine →
      getConfigFromFile J fs2 = getConfigFromFile J fs := by
  refine ⟨getConfigFromFile_URL J fs, getConfigFromFile_Token J fs,
    getConfigFromFile_ProjectID J fs, ?_⟩
  intro fs2 hc hl
  have hs : structuredConfig J fs2 = structuredConfig J fs := by
    unfold structuredConfig
    rw [hc]
  have h1 : ∀ p, (∀ l, strings.HasPrefix l p = true → knownLine l = true) →
      lastWithPrefix (flatLines fs2) p = lastWithPrefix (flatLines fs) p := by
    intro p hp
    rw [← lastWithPrefix_filter_known _ p hp, ← lastWithPrefix_filter_known (flatLines fs) p hp,
      hl]
  have hURL := h1 "GITLAB_URL=" (by intro l h; simp [knownLine, h])
  have hToken := h1 "GITLAB_TOKEN=" (by intro l h; simp [knownLine, h])
  have hProject := h1 "GITLAB_PROJECT_ID=" (by intro l h; simp [knownLine, h])
  have e : (getConfigFromFile J fs2).1 = (getConfigFromFile J fs).1 := by
    have a := getConfigFromFile_URL J fs2
    have b := getConfigFromFile_Token J fs2
    have d := getConfigFromFile_ProjectID J fs2
    rw [hs, hURL] at a
    rw [hs, hToken] at b
    rw [hs, hProject] at d
    rw [← getConfigFromFile_URL J fs] at a
    rw [← getConfigFromFile_Token J fs] at b
    rw [← getConfigFromFile_ProjectID J fs] at d
    cases h2 : (getConfigFromFile J fs2).1
    cases h3 : (getConfigFromFile J fs).1
    simp only [h2, h3] at a b d
    simp [a, b, d]
  exact Prod.ext e rfl

/-! ## C11: the URL of the resolved configuration -/

/-- C11, on the code: the URL of the resolved configuration can be empty. A
flat store with the line `GITLAB_URL=` resolves to the empty URL, because the
scan of the flat store assigns the text after the key without the emptiness
test that the overlay of the structured store makes; `updateConfig("url", "")`
on empty stores writes exactly that line and returns no error, after which
`getConfigFromFile` returns the empty URL. -/
theorem C11_empty_url :
    (getConfigFromFile stubCodec fsEmptyURL).1.URL = "" ∧
    (updateConfig stubCodec fsEmpty "url" "").1 = none ∧
    (updateConfig stubCodec fsEmpty "url" "").2.dotenv.content = some "\nGITLAB_URL=" ∧
    (getConfigFromFile stubCodec (updateConfig stubCodec fsEmpty "url" "").2).1.URL = "" := by
  decide

/-! ## C12: the update of the flat store -/

/-- The key of a line is `key` exactly when the line starts with `key=`. -/
theorem lineKey_iff (line key : String) (hk : '=' ∉ key.data) :
    lineKey line = some key ↔ strings.HasPrefix line (key ++ "=") = true := by
  rw [HasPrefix_iff, String.data_append]
  have he : ("=" : String).data = ['='] := rfl
  rw [he, prefix_eq_iff key.data hk]
  unfold lineKey
  by_cases hm : '=' ∈ line.data
  · simp only [hm, ↓reduceIte, Option.some.injEq, true_and]
    constructor
    · intro h
      rw [← h]
    · intro h
      exact String.ext h
  · simp [hm]

/-- The update of no lines is the one new line. -/
theorem upsertLines_nil (key value : String) :
    upsertLines key value [] = [key ++ "=" ++ value] := by
  simp [upsertLines, replaceFirst]

/-- The update appends the new line when no line has the key. -/
theorem upsertLines_append (key value : String) (hk : '=' ∉ key.data) :
    ∀ lines : List String, (∀ x ∈ lines, lineKey x ≠ some key) →
      upsertLines key value lines = lines ++ [key ++ "=" ++ value] := by
  intro lines
  induction lines with
  | nil => intro _; exact upsertLines_nil key value
  | cons l ls ih =>
    intro h
    have hl : ¬ strings.HasPrefix l (key ++ "=") = true := fun e =>
      h l (List.mem_cons_self _ _) ((lineKey_iff l key hk).mpr e)
    rw [upsertLines_cons key value l ls hk, if_neg hl,
      ih fun x hx => h x (List.mem_cons_of_mem _ hx)]
    rfl

/-- The update replaces the first line that has the key and nothing else. -/
theorem upsertLines_replace (key value : String) (hk : '=' ∉ key.data) :
    ∀ (pre : List String) (line : String) (post : List String),
      (∀ x ∈ pre, lineKey x ≠ some key) → lineKey line = some key →
      upsertLines key value (pre ++ line :: post) = pre ++ (key ++ "=" ++ value) :: post := by
  intro pre
  induction pre with
  | nil =>
    intro line post _ hl
    rw [List.nil_append, upsertLines_cons key value line post hk,
      if_pos ((lineKey_iff line key hk).mp hl)]
    rfl
  | cons l ls ih =>
    intro line post h hline
    have hl : ¬ strings.HasPrefix l (key ++ "=") = true := fun e =>
      h l (List.mem_cons_self _ _) ((lineKey_iff l key hk).mpr e)
    rw [List.cons_append, upsertLines_cons key value l _ hk, if_neg hl,
      ih line post (fun x hx => h x (List.mem_cons_of_mem _ hx)) hline]
    rfl

/-- `updateDotenv` on a flat store that can be read and written. -/
theorem updateDotenv_eq (dotenv : File) (field value key content : String)
    (hKey : envKey field = some key) (hRead : dotenv.read = .ok content)
    (hWritable : dotenv.writable = true) :
    updateDotenv dotenv field value =
      (none, { dotenv with content := some (upsertDotenv key value content) }) := by
  obtain ⟨c0, readable, writable⟩ := dotenv
  simp only at hWritable
  subst hWritable
  cases c0 with
  | none => simp [File.read] at hRead
  | some c =>
    cases readable with
    | false => simp [File.read] at hRead
    | true =>
      simp only [File.read, ↓reduceIte, Except.ok.injEq] at hRead
      subst hRead
      simp [updateDotenv, hKey, File.read, File.write]

/-- C12, refuted as stated: for the value `c` followed by a newline and `d`,
the update of the token in a flat store with the two lines `GITLAB_TOKEN=a` and
`GITLAB_TOKEN=b` returns no error and leaves a store of three lines: the first
line is `GITLAB_TOKEN=c`, not the key with the whole value, and the line
`GITLAB_TOKEN=b` has moved from the second position to the third. -/
theorem C12_counterexample :
    envKey "token" = some "GITLAB_TOKEN" ∧
    strings.Split "GITLAB_TOKEN=a\nGITLAB_TOKEN=b" "\n" =
      ["GITLAB_TOKEN=a", "GITLAB_TOKEN=b"] ∧
    updateDotenv fsDuplicate.dotenv "token" "c\nd" =
      (none, { fsDuplicate.dotenv with content := some "GITLAB_TOKEN=c\nd\nGITLAB_TOKEN=b" }) ∧
    strings.Split "GITLAB_TOKEN=c\nd\nGITLAB_TOKEN=b" "\n" =
      ["GITLAB_TOKEN=c", "d", "GITLAB_TOKEN=b"] ∧
    strings.Split "GITLAB_TOKEN=c\nd\nGITLAB_TOKEN=b" "\n" ≠
      ["GITLAB_TOKEN=c\nd", "GITLAB_TOKEN=b"] := by
  decide

/-- C12, as amended: for every flat store that can be read and written, every
known field (with key `key`) and every value without a newline, `updateDotenv`
returns no error and writes a content whose lines are: if the lines of the old
content are `pre ++ line :: post` with `line` the first line whose key (the
text before its first `=`) is `key`, the lines `pre ++ (key=value) :: post`,
every other line unchanged and in place; and if no line has that key, the old
lines followed by the one line `key=value`. -/
theorem C12_upsert_frame (dotenv : File) (field value key content : String)
    (hKey : envKey field = some key) (hRead : dotenv.read = .ok content)
    (hWritable : dotenv.writable = true) (hValue : '\n' ∉ value.data) :
    ∃ written : String,
      updateDotenv dotenv field value = (none, { dotenv with content := some written }) ∧
      (∀ pre line post, strings.Split content "\n" = pre ++ line :: post →
        (∀ x ∈ pre, lineKey x ≠ some key) → lineKey line = some key →
        strings.Split written "\n" = pre ++ (key ++ "=" ++ value) :: post) ∧
      ((∀ x ∈ strings.Split content "\n", lineKey x ≠ some key) →
        strings.Split written "\n" = strings.Split content "\n" ++ [key ++ "=" ++ value]) := by
  have hk := (envKey_clean field key hKey).1
  have hkn := (envKey_clean field key hKey).2
  have hnew : '\n' ∉ (key ++ "=" ++ value).data := by
    simp only [String.data_append, List.mem_append, not_or]
    exact ⟨⟨hkn, by decide⟩, hValue⟩
  have hsplit : strings.Split (upsertDotenv key value content) "\n" =
      upsertLines key value (strings.Split content "\n") := by
    rw [upsertDotenv_eq]
    refine Split_Join _ (upsertLines_ne_nil key value _) ?_
    intro l hl
    rcases upsertLines_mem key value hk _ l hl with h | h
    · exact Split_no_newline content l h
    · rw [h]
      exact hnew
  refine ⟨upsertDotenv key value content, ?_, ?_, ?_⟩
  · exact updateDotenv_eq dotenv field value key content hKey hRead hWritable
  · intro pre line post hs hpre hline
    rw [hsplit, hs]
    exact upsertLines_replace key value hk pre line post hpre hline
  · intro hnone
    rw [hsplit]
    exact upsertLines_append key value hk _ hnone

/-- C12 at a store with two `GITLAB_TOKEN` lines: only the first is replaced,
the second stays in its place. -/
theorem C12_upsert_frame_witness :
    envKey "token" = some "GITLAB_TOKEN" ∧
    fsDuplicate.dotenv.read = .ok "GITLAB_TOKEN=a\nGITLAB_TOKEN=b" ∧
    strings.Split "GITLAB_TOKEN=a\nGITLAB_TOKEN=b" "\n" =
      [] ++ "GITLAB_TOKEN=a" :: ["GITLAB_TOKEN=b"] ∧
    lineKey "GITLAB_TOKEN=a" = some "GITLAB_TOKEN" ∧
    ∃ written : String,
      (updateDotenv fsDuplicate.dotenv "token" "c").2.content = some written ∧
      strings.Split written "\n" = [] ++ "GITLAB_TOKEN=c" :: ["GITLAB_TOKEN=b"] := by
  obtain ⟨written, h1, h2, _⟩ := C12_upsert_frame fsDuplicate.dotenv "token" "c" "GITLAB_TOKEN"
    "GITLAB_TOKEN=a\nGITLAB_TOKEN=b" (by decide) rfl (by decide) (by decide)
  have hw := h2 [] "GITLAB_TOKEN=a" ["GITLAB_TOKEN=b"] (by decide) (by simp) (by decide)
  refine ⟨by decide, rfl, by decide, by decide, written, ?_, hw⟩
  rw [h1]

/-! ## C13: the errors of `updateConfig` -/

/-- The result of `updateConfig` by cases on the serialisation and the write. -/
theorem updateConfig_eq (J : ConfigCodec) (fs : FileSys) (field value : String) :
    updateConfig J fs field value =
      match J.marshal (setField (getConfigFromFile J fs).1 field value) with
      | .error err => (some err, { fs with dotenv := (updateDotenv fs.dotenv field value).2 })
      | .ok jsonData =>
        match fs.config.write jsonData with
        | .error err =>
          (some err, { fs with dotenv := (updateDotenv fs.dotenv field value).2 })
        | .ok config =>
          (none, { dotenv := (updateDotenv fs.dotenv field value).2, config := config }) :=
  rfl

/-- C13: `updateConfig` returns an error if and only if serialising the updated
configuration fails or writing the structured store fails; whenever both
succeed it returns no error and the structured store holds the serialised
updated configuration, whatever `updateDotenv` returned; the flat store is left
as `updateDotenv` left it. -/
theorem C13_update_error_iff (J : ConfigCodec) (fs : FileSys) (field value : String) :
    ((updateConfig J fs field value).1 ≠ none ↔
      (∃ e, J.marshal (setField (getConfigFromFile J fs).1 field value) = .error e) ∨
      ∃ s e, J.marshal (setField (getConfigFromFile J fs).1 field value) = .ok s ∧
        fs.config.write s = .error e) ∧
    (∀ s written, J.marshal (setField (getConfigFromFile J fs).1 field value) = .ok s →
      fs.config.write s = .ok written →
      (updateConfig J fs field value).1 = none ∧
      (updateConfig J fs field value).2.config = written ∧
      written.content = some s) ∧
    (updateConfig J fs field value).2.dotenv = (updateDotenv fs.dotenv field value).2 := by
  rw [updateConfig_eq]
  cases hm : J.marshal (setField (getConfigFromFile J fs).1 field value) with
  | error e => simp
  | ok s =>
    cases hw : fs.config.write s with
    | error e =>
      refine ⟨?_, ?_, ?_⟩
      · simp [hw]
      · intro s2 w2 hs hw2
        cases hs
        rw [hw] at hw2
        cases hw2
      · simp [hw]
    | ok written =>
      refine ⟨?_, ?_, ?_⟩
      · simp [hw]
      · intro s2 w2 hs hw2
        cases hs
        rw [hw] at hw2
        cases hw2
        refine ⟨by simp [hw], by simp [hw], ?_⟩
        unfold File.write at hw
        split_ifs at hw
        cases hw
        rfl
      · simp [hw]

/-- C13 at a flat store that cannot be written: `updateDotenv` fails,
`updateConfig` succeeds and the structured store holds the new token. -/
theorem C13_update_error_iff_witness :
    (updateDotenv fsStale.dotenv "token" "x").1 ≠ none ∧
    (updateConfig stubCodec fsStale "token" "x").1 = none ∧
    (structuredConfig stubCodec (updateConfig stubCodec fsStale "token" "x").2).map
      (fun j => j.Token) = some "x" := by
  have h := (C13_update_error_iff stubCodec fsStale "token" "x").2.1 _ _ rfl rfl
  refine ⟨by decide, h.1, by decide⟩

/-! ## C14: the outcomes of `makeGitLabAPIRequest` -/

/-- `makeGitLabAPIRequest` when the request can be built: the request is sent
and the result is read off the answer. -/
theorem makeGitLabAPIRequest_sent (E : Env) (method endpoint : String) (config : GitLabConfig)
    (w : World) (hBuild : E.lib.NewRequest method (apiURL config endpoint) = none) :
    makeGitLabAPIRequest E method endpoint config w =
      ((match E.upstream w.calls
          { method := method, url := apiURL config endpoint, token := config.Token } with
        | .transportError err => .error err
        | .response status body readErr =>
          if status ≠ 200 ∧ status ≠ 201 then .error (statusError status body)
          else
            match readErr with
            | some err => .error err
            | none => .ok body),
       { w with calls := w.calls ++
          [{ method := method, url := apiURL config endpoint, token := config.Token }] }) := by
  unfold apiURL at hBuild
  simp only [makeGitLabAPIRequest, hBuild, M.bind_apply, clientDo, apiURL]
  cases E.upstream w.calls
      { method := method, url := config.URL ++ "/api/v4/" ++ endpoint, token := config.Token } with
  | transportError err => rfl
  | response status body readErr =>
    simp only [statusError]
    by_cases hs : status ≠ 200 ∧ status ≠ 201
    · by_cases hb : body ≠ ""
      · simp only [hs, hb, and_self, ↓reduceIte, not_false_eq_true, ne_eq]
        rfl
      · simp only [hs, hb, and_self, ↓reduceIte, not_false_eq_true, ne_eq]
        rfl
    · simp only [hs, ↓reduceIte]
      cases readErr <;> rfl

theorem containsAux_mid (sub : List Char) :
    ∀ pre post : List Char, strings.containsAux sub (pre ++ sub ++ post) = true := by
  intro pre
  induction pre with
  | nil =>
    intro post
    have hp : sub.isPrefixOf (sub ++ post) = true :=
      List.isPrefixOf_iff_prefix.mpr (List.prefix_append _ _)
    rw [List.nil_append]
    cases h : sub ++ post with
    | nil =>
      rw [h] at hp
      simpa [strings.containsAux] using hp
    | cons c cs =>
      rw [h] at hp
      simp [strings.containsAux, hp]
  | cons x pre ih =>
    intro post
    simp only [List.cons_append, strings.containsAux, Bool.or_eq_true]
    right
    simpa using ih post

/-- A text contains each of its parts. -/
theorem Contains_mid (a sub b : String) : strings.Contains (a ++ sub ++ b) sub = true := by
  unfold strings.Contains
  simp only [String.data_append]
  exact containsAux_mid _ _ _

theorem Contains_suffix (a sub : String) : strings.Contains (a ++ sub) sub = true := by
  have h := Contains_mid a sub ""
  simpa using h

theorem statusError_contains (status : Int) (body : String) :
    strings.Contains (statusError status body) (toString status) = true ∧
    (body ≠ "" → strings.Contains (statusError status body) body = true) := by
  unfold statusError
  by_cases hb : body ≠ ""
  · simp only [hb, ne_eq, not_false_eq_true, ↓reduceIte, forall_const]
    refine ⟨?_, Contains_suffix _ _⟩
    rw [String.append_assoc]
    exact Contains_mid _ _ _
  · simp only [hb, ↓reduceIte, false_implies, and_true]
    exact Contains_suffix _ _

/-- C14: when the request can be built, `makeGitLabAPIRequest` returns for an
upstream response with status `s` and body `b`, read without error, the body
`b` and no error if and only if `s` is 200 or 201; for every other status it
returns an error whose text contains the decimal `s` and, when `b` is not
empty, the text of `b`; a transport failure is returned as the error of the
transport, in which no status code is put. -/
theorem C14_request_outcome (E : Env) (method endpoint : String) (config : GitLabConfig)
    (w : World) (hBuild : E.lib.NewRequest method (apiURL config endpoint) = none) :
    (∀ s b, E.upstream w.calls
        { method := method, url := apiURL config endpoint, token := config.Token } =
        .response s b none →
      ((makeGitLabAPIRequest E method endpoint config w).1 = .ok b ↔ s = 200 ∨ s = 201)) ∧
    (∀ s b readErr, E.upstream w.calls
        { method := method, url := apiURL config endpoint, token := config.Token } =
        .response s b readErr → ¬ (s = 200 ∨ s = 201) →
      ∃ err, (makeGitLabAPIRequest E method endpoint config w).1 = .error err ∧
        strings.Contains err (toString s) = true ∧
        (b ≠ "" → strings.Contains err b = true)) ∧
    (∀ msg, E.upstream w.calls
        { method := method, url := apiURL config endpoint, token := config.Token } =
        .transportError msg →
      (makeGitLabAPIRequest E method endpoint config w).1 = .error msg) := by
  rw [makeGitLabAPIRequest_sent E method endpoint config w hBuild]
  refine ⟨?_, ?_, ?_⟩
  · intro s b h
    simp only [h]
    by_cases hs : s = 200 ∨ s = 201
    · have : ¬ (s ≠ 200 ∧ s ≠ 201) := by tauto
      simp [this, hs]
    · have : s ≠ 200 ∧ s ≠ 201 := by tauto
      simp [this, hs]
  · intro s b readErr h hs
    have : s ≠ 200 ∧ s ≠ 201 := by tauto
    refine ⟨statusError s b, ?_, statusError_contains s b⟩
    simp only [h]
    rw [if_pos this]
  · intro msg h
    simp only [h]

/-- C14 at the stub upstream, whose answer for project 3 has status 500. -/
theorem C14_request_outcome_witness :
    stubLib.NewRequest "GET"
      (apiURL (resolved (stubEnv fsToken)) "projects/3/pipelines?per_page=5") = none ∧
    stubUpstream []
      { method := "GET",
        url := apiURL (resolved (stubEnv fsToken)) "projects/3/pipelines?per_page=5",
        token := "secret" } = .response 500 "" none ∧
    (makeGitLabAPIRequest (stubEnv fsToken) "GET" "projects/3/pipelines?per_page=5"
        (resolved (stubEnv fsToken)) World.start).1 ≠ .ok "" := by
  have h := (C14_request_outcome (stubEnv fsToken) "GET" "projects/3/pipelines?per_page=5"
    (resolved (stubEnv fsToken)) World.start rfl).1 500 "" rfl
  refine ⟨rfl, rfl, ?_⟩
  intro hok
  have := h.mp hok
  revert this
  decide

/-! ## C15 and C16: the not-found responses -/

/-- The error text for status 404 contains "404". -/
theorem statusError_404 (body : String) :
    strings.Contains (statusError 404 body) "404" = true :=
  (statusError_contains 404 body).1

/-- C15: for every configuration with a token and an available project id, when
the upstream answers the `test_report_summary` request with status 404,
`GetPipelineTestReportSummary` answers HTTP 200 with a total whose time, count,
success, failed, skipped and error are 0, an empty `test_suites` and the note
"No test report available for this pipeline"; this is not the example summary. -/
theorem C15_summary_not_found (E : Env) (c : Request) (w : World) (b : String)
    (readErr : Option String)
    (hToken : (resolved E).Token ≠ "") (hProject : effectiveProjectID (resolved E) c ≠ "")
    (hBuild : E.lib.NewRequest "GET" (apiURL (resolved E) (summaryEndpoint E c)) = none)
    (h404 : E.upstream w.calls
      { method := "GET", url := apiURL (resolved E) (summaryEndpoint E c),
        token := (resolved E).Token } = .response 404 b readErr) :
    (GetPipelineTestReportSummary E c w).1 =
      .json 200 (.obj [
        ("total", .obj [
          ("time", .int 0), ("count", .int 0), ("success", .int 0),
          ("failed", .int 0), ("skipped", .int 0), ("error", .int 0)]),
        ("test_suites", .arr []),
        ("note", .str "No test report available for this pipeline")]) ∧
    (GetPipelineTestReportSummary E c w).1 ≠ .json 200 getExampleTestReportSummary := by
  have hr := makeGitLabAPIRequest_sent E "GET" (summaryEndpoint E c) (resolved E) w hBuild
  rw [h404] at hr
  have hs : ((404 : Int) ≠ 200 ∧ (404 : Int) ≠ 201) := by decide
  simp only [if_pos hs] at hr
  have h1 : (GetPipelineTestReportSummary E c w).1 =
      .json 200 (zeroSummary "No test report available for this pipeline") := by
    unfold summaryEndpoint at hr
    simp only [GetPipelineTestReportSummary, withConfig_eq, GetPipelineTestReportSummaryWith,
      M.bind_apply, M.pure_apply, hToken, hProject, ↓reduceIte, hr]
    simp only [statusError_404, ↓reduceIte]
    rfl
  refine ⟨h1, ?_⟩
  rw [h1]
  intro h
  have h2 := congrArg (fun o => (Outcome.note o).isSome) h
  revert h2
  decide

/-- C15 at an upstream that answers 404 with an empty body. -/
theorem C15_summary_not_found_witness :
    (resolved (envAnswering (.response 404 "" none) fsProject)).Token ≠ "" ∧
    effectiveProjectID (resolved (envAnswering (.response 404 "" none) fsProject))
      (requestFor "1") ≠ "" ∧
    (GetPipelineTestReportSummary (envAnswering (.response 404 "" none) fsProject)
      (requestFor "1") World.start).1.note =
      some "No test report available for this pipeline" := by
  have h := (C15_summary_not_found (envAnswering (.response 404 "" none) fsProject)
    (requestFor "1") World.start "" none (by decide) (by decide) rfl rfl).1
  refine ⟨by decide, by decide, ?_⟩
  rw [h]
  rfl

/-- C16, on the code: the not-found responses are chosen by the presence of the
text "404" in the error, not by the status. An upstream answer with status 500
whose body contains "404", and a transport error whose message contains "404"
(here inside a port number), both make `GetPipelineTestReportSummary` answer
with the note "No test report available for this pipeline" and `GetJobDetails`
with the job named "Job Not Found". -/
theorem C16_not_found_by_text :
    (GetPipelineTestReportSummary
        (envAnswering (.response 500 "error 404: upstream unavailable" none) fsProject)
        (requestFor "1") World.start).1 =
      .json 200 (zeroSummary "No test report available for this pipeline") ∧
    ((GetJobDetails
        (envAnswering (.response 500 "error 404: upstream unavailable" none) fsProject)
        (requestFor "1") World.start).1.field "job").bind (fun j => j.get "name") =
      some (.str "Job Not Found") ∧
    (GetPipelineTestReportSummary
        (envAnswering (.transportError "dial tcp 10.0.0.1:4040: connect: connection refused")
          fsProject)
        (requestFor "1") World.start).1 =
      .json 200 (zeroSummary "No test report available for this pipeline") ∧
    ((GetJobDetails
        (envAnswering (.transportError "dial tcp 10.0.0.1:4040: connect: connection refused")
          fsProject)
        (requestFor "1") World.start).1.field "job").bind (fun j => j.get "name") =
      some (.str "Job Not Found") :=
  ⟨rfl, rfl, rfl, rfl⟩

/-! ## C17 and C18: `RetryPipeline` and `CancelPipeline` -/

/-- `CancelPipeline` without a configured project id. -/
theorem CancelPipeline_noProject (E : Env) (c : Request) (w : World)
    (h : (resolved E).Token ≠ "") (hp : (resolved E).ProjectID = "") :
    CancelPipeline E c w =
      (.json 400 (.obj [("error", .str "GitLab project ID not configured")]), w) := by
  simp [CancelPipeline, withConfig_eq, CancelPipelineWith, h, hp]
  rfl

/-- `RetryPipeline` without an available project id. -/
theorem RetryPipeline_noProject (E : Env) (c : Request) (w : World)
    (h : (resolved E).Token ≠ "") (hp : effectiveProjectID (resolved E) c = "") :
    RetryPipeline E c w =
      (retryFailure "Cannot retry pipeline: No project ID configured or provided", w) := by
  simp [RetryPipeline, withConfig_eq, RetryPipelineWith, h, hp]
  rfl

/-- C17, refuted as stated: with the default configuration, which has no token,
`RetryPipeline` answers HTTP 200, which is not a 4xx status. -/
theorem C17_counterexample :
    (resolved (stubEnv fsEmpty)).Token = "" ∧
    (RetryPipeline (stubEnv fsEmpty) (requestFor "1") World.start).1.status = 200 ∧
    ¬ (400 ≤ (RetryPipeline (stubEnv fsEmpty) (requestFor "1") World.start).1.status ∧
      (RetryPipeline (stubEnv fsEmpty) (requestFor "1") World.start).1.status < 500) := by
  decide

/-- C17, as amended: for every request, `CancelPipeline` answers HTTP 400 and
sends no upstream request when the token is empty or the configured project id
is empty; `RetryPipeline` answers HTTP 200 with `success` false and a message,
and sends no upstream request (the state is unchanged), when the token is empty
or when neither the query nor the configuration gives a project id. -/
theorem C17_missing_config (E : Env) (c : Request) (w : World) :
    ((resolved E).Token = "" ∨ (resolved E).ProjectID = "" →
      (CancelPipeline E c w).1.status = 400 ∧ (CancelPipeline E c w).2.calls = w.calls) ∧
    ((resolved E).Token = "" →
      RetryPipeline E c w =
        (retryFailure "Cannot retry pipeline: GitLab token not configured", w)) ∧
    ((resolved E).Token ≠ "" → effectiveProjectID (resolved E) c = "" →
      RetryPipeline E c w =
        (retryFailure "Cannot retry pipeline: No project ID configured or provided", w)) := by
  refine ⟨?_, RetryPipeline_noToken E c w, RetryPipeline_noProject E c w⟩
  intro h
  by_cases hT : (resolved E).Token = ""
  · rw [CancelPipeline_noToken E c w hT]
    exact ⟨rfl, rfl⟩
  · rw [CancelPipeline_noProject E c w hT (h.resolve_left hT)]
    exact ⟨rfl, rfl⟩

/-- C18, refuted as stated: with token and project id configured and an upstream
that cannot be reached, `CancelPipeline` answers HTTP 500 with an `error` key,
not HTTP 200 with `success` false. -/
theorem C18_counterexample :
    (resolved (stubEnv fsProject)).Token ≠ "" ∧
    (resolved (stubEnv fsProject)).ProjectID ≠ "" ∧
    stubUpstream []
      { method := "POST", url := "https://gitlab.com/api/v4/projects/7/pipelines/1/cancel",
        token := "secret" } = .transportError "connection refused" ∧
    (CancelPipeline (stubEnv fsProject) (requestFor "1") World.start).1 =
      .json 500 (.obj [("error", .str "Error canceling pipeline: connection refused")]) ∧
    (CancelPipeline (stubEnv fsProject) (requestFor "1") World.start).1.status ≠ 200 := by
  refine ⟨by decide, by decide, rfl, rfl, ?_⟩
  show (500 : Nat) ≠ 200
  decide

/-- C18, as amended: with a token configured. `RetryPipeline`, when a project id
is available: a request that cannot be built, a transport error and a status
other than 200 and 201 each give HTTP 200 with `success` false and a message
that starts with "Failed to retry pipeline: "; a status 200 or 201 whose body
is read and decodes gives HTTP 200 with `success` true, a message and the
decoded pipeline. `CancelPipeline`, when a project id is configured: a failed
upstream request gives HTTP 500 with the error "Error canceling pipeline: "
followed by the cause, a body that does not decode gives HTTP 500, and a body
that decodes gives HTTP 200 with the key `pipeline` only. -/
theorem C18_mutation_outcomes (E : Env) (c : Request) (w : World)
    (hToken : (resolved E).Token ≠ "") :
    (effectiveProjectID (resolved E) c ≠ "" →
      (∀ err, E.lib.NewRequest "POST" (retryURL E c) = some err →
        (RetryPipeline E c w).1 = retryFailure ("Failed to retry pipeline: " ++ err)) ∧
      (E.lib.NewRequest "POST" (retryURL E c) = none →
        (∀ msg, E.upstream w.calls
            { method := "POST", url := retryURL E c, token := (resolved E).Token } =
            .transportError msg →
          (RetryPipeline E c w).1 = retryFailure ("Failed to retry pipeline: " ++ msg)) ∧
        (∀ s b readErr, E.upstream w.calls
            { method := "POST", url := retryURL E c, token := (resolved E).Token } =
            .response s b readErr → s ≠ 200 → s ≠ 201 →
          (RetryPipeline E c w).1 =
            retryFailure ("Failed to retry pipeline: GitLab API returned status code " ++
              toString s)) ∧
        (∀ s b response, E.upstream w.calls
            { method := "POST", url := retryURL E c, token := (resolved E).Token } =
            .response s b none → s = 200 ∨ s = 201 → E.lib.unmarshalMap b = .ok response →
          (RetryPipeline E c w).1 =
            .json 200 (.obj [
              ("message", .str "Pipeline retry initiated successfully"),
              ("success", .bool true),
              ("pipeline", GoVal.ofMap response)])))) ∧
    ((resolved E).ProjectID ≠ "" →
      (∀ err, (makeGitLabAPIRequest E "POST" (cancelEndpoint E c) (resolved E) w).1 =
          .error err →
        (CancelPipeline E c w).1 =
          .json 500 (.obj [("error", .str ("Error canceling pipeline: " ++ err))])) ∧
      (∀ body err, (makeGitLabAPIRequest E "POST" (cancelEndpoint E c) (resolved E) w).1 =
          .ok body → E.lib.unmarshalPipeline body = .error err →
        (CancelPipeline E c w).1 =
          .json 500 (.obj [("error", .str ("Error parsing GitLab pipeline: " ++ err))])) ∧
      (∀ body pipeline, (makeGitLabAPIRequest E "POST" (cancelEndpoint E c) (resolved E) w).1 =
          .ok body → E.lib.unmarshalPipeline body = .ok pipeline →
        (CancelPipeline E c w).1 = .json 200 (.obj [("pipeline", .pipeline pipeline)]))) := by
  refine ⟨fun hP => ⟨?_, fun hBuild => ⟨?_, ?_, ?_⟩⟩, fun hP => ⟨?_, ?_, ?_⟩⟩
  · intro err hB
    unfold retryURL apiURL at hB
    simp only [RetryPipeline, withConfig_eq, RetryPipelineWith, M.bind_apply, M.pure_apply,
      hToken, hP, ↓reduceIte, hB]
    rfl
  · intro msg hU
    unfold retryURL apiURL at hBuild hU
    simp only [RetryPipeline, withConfig_eq, RetryPipelineWith, M.bind_apply, M.pure_apply,
      hToken, hP, ↓reduceIte, hBuild, clientDo, hU]
    rfl
  · intro s b readErr hU h200 h201
    unfold retryURL apiURL at hBuild hU
    simp only [RetryPipeline, withConfig_eq, RetryPipelineWith, M.bind_apply, M.pure_apply,
      hToken, hP, ↓reduceIte, hBuild, clientDo, hU, ne_eq, h200, h201, not_false_eq_true,
      and_self]
    rfl
  · intro s b response hU hs hD
    unfold retryURL apiURL at hBuild hU
    have hn : ¬ (s ≠ 200 ∧ s ≠ 201) := by tauto
    simp only [RetryPipeline, withConfig_eq, RetryPipelineWith, M.bind_apply, M.pure_apply,
      hToken, hP, ↓reduceIte, hBuild, clientDo, hU, hn, hD]
  · intro err hC
    unfold cancelEndpoint at hC
    simp only [CancelPipeline, withConfig_eq, CancelPipelineWith, M.bind_apply, M.pure_apply,
      hToken, hP, ↓reduceIte, hC]
  · intro body err hC hD
    unfold cancelEndpoint at hC
    simp only [CancelPipeline, withConfig_eq, CancelPipelineWith, M.bind_apply, M.pure_apply,
      hToken, hP, ↓reduceIte, hC, hD]
  · intro body pipeline hC hD
    unfold cancelEndpoint at hC
    simp only [CancelPipeline, withConfig_eq, CancelPipelineWith, M.bind_apply, M.pure_apply,
      hToken, hP, ↓reduceIte, hC, hD]

/-- C18 at the stub upstream, which refuses the retry request. -/
theorem C18_mutation_outcomes_witness :
    (resolved (stubEnv fsProject)).Token ≠ "" ∧
    effectiveProjectID (resolved (stubEnv fsProject)) (requestFor "1") ≠ "" ∧
    (RetryPipeline (stubEnv fsProject) (requestFor "1") World.start).1 =
      retryFailure "Failed to retry pipeline: connection refused" := by
  have h := ((C18_mutation_outcomes (stubEnv fsProject) (requestFor "1") World.start
    (by decide)).1 (by decide)).2 rfl
  exact ⟨by decide, by decide, h.1 "connection refused" rfl⟩

/-! ## C19 and C20: the payload of `GetPipelineDetails` -/

/-- The response of `GetPipelineDetails` for a map that is not nil: the eleven
copied keys, then `user`. -/
theorem pipelineDetailsResponse_some (m : GoMap) :
    pipelineDetailsResponse (some m) =
      .obj (recognizedFields.map (fun k => (k, (m.lookup k).getD .null)) ++
        [("user", match m.lookup "user" with
          | some (.obj user) => .obj user
          | _ => unknownUser)]) := by
  unfold pipelineDetailsResponse mapGet
  simp only [Option.getD_some]
  cases h : m.lookup "user" with
  | none => rfl
  | some v => cases v <;> rfl

/-- `GetPipelineDetails` when the upstream body decodes to a map. -/
theorem GetPipelineDetails_decoded (E : Env) (c : Request) (w : World) (body : String)
    (pipelineMap : Option GoMap)
    (hToken : (resolved E).Token ≠ "") (hProject : effectiveProjectID (resolved E) c ≠ "")
    (hBody : (makeGitLabAPIRequest E "GET" (pipelineDetailsEndpoint E c) (resolved E) w).1 =
      .ok body)
    (hMap : E.lib.unmarshalMap body = .ok pipelineMap) :
    (GetPipelineDetails E c w).1 =
      .json 200 (.obj [("pipeline", pipelineDetailsResponse pipelineMap)]) := by
  unfold pipelineDetailsEndpoint at hBody
  simp only [GetPipelineDetails, withConfig_eq, GetPipelineDetailsWith, M.bind_apply,
    M.pure_apply, hToken, hProject, ↓reduceIte, hBody, hMap]

/-- C19: for every upstream pipeline-details body that decodes to a JSON object
`m`, `GetPipelineDetails` answers HTTP 200 with a `pipeline` payload whose keys
are exactly the eleven recognized fields followed by `user`; each recognized
field carries the value of `m` for that key (`null` when `m` has none), so no
other key of `m` appears; and `user` is the user of `m` when that is a JSON
object and otherwise the default block `unknownUser`. -/
theorem C19_details_projection (E : Env) (c : Request) (w : World) (body : String) (m : GoMap)
    (hToken : (resolved E).Token ≠ "") (hProject : effectiveProjectID (resolved E) c ≠ "")
    (hBody : (makeGitLabAPIRequest E "GET" (pipelineDetailsEndpoint E c) (resolved E) w).1 =
      .ok body)
    (hMap : E.lib.unmarshalMap body = .ok (some m)) :
    ∃ payload : GoMap,
      (GetPipelineDetails E c w).1 = .json 200 (.obj [("pipeline", .obj payload)]) ∧
      payload.map Prod.fst = recognizedFields ++ ["user"] ∧
      (∀ k ∈ recognizedFields, payload.lookup k = some ((m.lookup k).getD .null)) ∧
      payload.lookup "user" =
        some (match m.lookup "user" with
          | some (.obj user) => .obj user
          | _ => unknownUser) := by
  refine ⟨(recognizedFields.map (fun k => (k, (m.lookup k).getD .null)) ++
    [("user", match m.lookup "user" with
      | some (.obj user) => .obj user
      | _ => unknownUser)]), ?_, ?_, ?_, ?_⟩
  · rw [GetPipelineDetails_decoded E c w body (some m) hToken hProject hBody hMap,
      pipelineDetailsResponse_some]
  · rfl
  · intro k hk
    simp only [recognizedFields, List.mem_cons, List.mem_singleton, List.not_mem_nil,
      or_false] at hk
    rcases hk with h | h | h | h | h | h | h | h | h | h | h <;> subst h <;> rfl
  · rfl

/-- C19 at an upstream object with an unrecognized key and without a user. -/
theorem C19_details_projection_witness :
    (resolved (envDecoding stubDetails)).Token ≠ "" ∧
    effectiveProjectID (resolved (envDecoding stubDetails)) (requestFor "1") ≠ "" ∧
    ∃ payload : GoMap,
      (GetPipelineDetails (envDecoding stubDetails) (requestFor "1") World.start).1 =
        .json 200 (.obj [("pipeline", .obj payload)]) ∧
      payload.map Prod.fst = recognizedFields ++ ["user"] ∧
      (∀ k ∈ recognizedFields, payload.lookup k = some ((stubDetails.lookup k).getD .null)) ∧
      payload.lookup "user" =
        some (match stubDetails.lookup "user" with
          | some (.obj user) => .obj user
          | _ => unknownUser) :=
  ⟨by decide, by decide,
    C19_details_projection (envDecoding stubDetails) (requestFor "1") World.start
      "a pipeline object" stubDetails (by decide) (by decide) rfl rfl⟩

/-- C20, refuted as stated: for an upstream object without any field, every
recognized field of the payload, `coverage` included, is `null`, which is
neither the number 0 nor the empty string; only `user` gets a default. -/
theorem C20_counterexample :
    (makeGitLabAPIRequest (envDecoding []) "GET"
      (pipelineDetailsEndpoint (envDecoding []) (requestFor "1"))
      (resolved (envDecoding [])) World.start).1 = .ok "a pipeline object" ∧
    (envDecoding []).lib.unmarshalMap "a pipeline object" = .ok (some []) ∧
    (GetPipelineDetails (envDecoding []) (requestFor "1") World.start).1 =
      .json 200 (.obj [("pipeline", .obj [
        ("id", .null), ("status", .null), ("ref", .null), ("sha", .null), ("web_url", .null),
        ("created_at", .null), ("updated_at", .null), ("started_at", .null),
        ("finished_at", .null), ("duration", .null), ("coverage", .null),
        ("user", unknownUser)])]) ∧
    GoVal.null ≠ GoVal.float 0 ∧ GoVal.null ≠ GoVal.int 0 ∧ GoVal.null ≠ GoVal.str "" :=
  ⟨rfl, rfl, rfl, nofun, nofun, nofun⟩

/-- C20, as amended: for every upstream pipeline-details body that decodes to a
JSON object `m`, each recognized field that `m` omits is `null` in the payload
of `GetPipelineDetails`, and an omitted `user` is the default block
`unknownUser`. -/
theorem C20_omitted_fields_null (E : Env) (c : Request) (w : World) (body : String) (m : GoMap)
    (hToken : (resolved E).Token ≠ "") (hProject : effectiveProjectID (resolved E) c ≠ "")
    (hBody : (makeGitLabAPIRequest E "GET" (pipelineDetailsEndpoint E c) (resolved E) w).1 =
      .ok body)
    (hMap : E.lib.unmarshalMap body = .ok (some m)) :
    ∃ payload : GoMap,
      (GetPipelineDetails E c w).1 = .json 200 (.obj [("pipeline", .obj payload)]) ∧
      (∀ k ∈ recognizedFields, m.lookup k = none → payload.lookup k = some .null) ∧
      (m.lookup "user" = none → payload.lookup "user" = some unknownUser) := by
  refine ⟨(recognizedFields.map (fun k => (k, (m.lookup k).getD .null)) ++
    [("user", match m.lookup "user" with
      | some (.obj user) => .obj user
      | _ => unknownUser)]), ?_, ?_, ?_⟩
  · rw [GetPipelineDetails_decoded E c w body (some m) hToken hProject hBody hMap,
      pipelineDetailsResponse_some]
  · intro k hk hm
    simp only [recognizedFields, List.mem_cons, List.mem_singleton, List.not_mem_nil,
      or_false] at hk
    rcases hk with h | h | h | h | h | h | h | h | h | h | h <;> subst h <;>
      (show some ((m.lookup _).getD .null) = _; rw [hm]; rfl)
  · intro hm
    show some _ = _
    rw [hm]

/-- C20 at an upstream object without `duration` and without a user. -/
theorem C20_omitted_fields_null_witness :
    (resolved (envDecoding stubDetails)).Token ≠ "" ∧
    stubDetails.lookup "duration" = none ∧
    ∃ payload : GoMap,
      (GetPipelineDetails (envDecoding stubDetails) (requestFor "1") World.start).1 =
        .json 200 (.obj [("pipeline", .obj payload)]) ∧
      (∀ k ∈ recognizedFields, stubDetails.lookup k = none → payload.lookup k = some .null) ∧
      (stubDetails.lookup "user" = none → payload.lookup "user" = some unknownUser) :=
  ⟨by decide, rfl,
    C20_omitted_fields_null (envDecoding stubDetails) (requestFor "1") World.start
      "a pipeline object" stubDetails (by decide) (by decide) rfl rfl⟩

/-! ## The requests that the handlers send -/

/-- The state after `makeGitLabAPIRequest` when the request can be built: one
request more has been sent. -/
theorem makeGitLabAPIRequest_world (E : Env) (method endpoint : String)
    (config : GitLabConfig) (w : World)
    (hBuild : E.lib.NewRequest method (apiURL config endpoint) = none) :
    (makeGitLabAPIRequest E method endpoint config w).2 =
      { w with calls := w.calls ++ [callOf config method endpoint] } := by
  rw [makeGitLabAPIRequest_sent E method endpoint config w hBuild]
  rfl

/-- With a project id configured, it is the effective project id. -/
theorem effectiveProjectID_configured (config : GitLabConfig) (c : Request)
    (h : config.ProjectID ≠ "") : effectiveProjectID config c = config.ProjectID := by
  simp [effectiveProjectID, h]

/-! ## C21: the endpoint of the merge requests -/

/-- `makeGitLabAPIRequest` when the request cannot be built: the error of
`http.NewRequest` is returned and nothing is sent. -/
theorem makeGitLabAPIRequest_unbuilt (E : Env) (method endpoint : String)
    (config : GitLabConfig) (w : World) (err : String)
    (hBuild : E.lib.NewRequest method (apiURL config endpoint) = some err) :
    makeGitLabAPIRequest E method endpoint config w = (.error err, w) := by
  unfold apiURL at hBuild
  simp only [makeGitLabAPIRequest, hBuild]
  rfl

/-- The requests that `GetGitLabMergeRequests` sends when token and project id
are configured and the request can be built: the one request for its
endpoint. -/
theorem GetGitLabMergeRequests_calls (E : Env) (c : Request) (w : World)
    (hToken : (resolved E).Token ≠ "") (hProject : (resolved E).ProjectID ≠ "")
    (hBuild : E.lib.NewRequest "GET"
      (apiURL (resolved E) (mergeRequestsEndpoint (resolved E).ProjectID c)) = none) :
    (GetGitLabMergeRequests E c w).2.calls =
      w.calls ++ [callOf (resolved E) "GET" (mergeRequestsEndpoint (resolved E).ProjectID c)] := by
  have hw := makeGitLabAPIRequest_world E "GET" _ (resolved E) w hBuild
  simp only [GetGitLabMergeRequests, withConfig_eq, GetGitLabMergeRequestsWith, M.bind_apply,
    M.pure_apply, hToken, hProject, ↓reduceIte]
  generalize (makeGitLabAPIRequest E "GET" _ (resolved E) w) = r at hw ⊢
  obtain ⟨r1, w1⟩ := r
  simp only at hw
  subst hw
  cases r1 with
  | error err => rfl
  | ok body =>
    dsimp only
    cases E.lib.unmarshalMergeRequests body <;> rfl

/-- C21, refuted as stated: with token and project 7 configured and a request
builder that refuses control characters, as `http.NewRequest` does, the query
value `state` = `a`, newline, `b` is inserted unmodified into the URL, the
request cannot be built, and `GetGitLabMergeRequests` calls no upstream
endpoint at all; it answers with example data and the error in the note. -/
theorem C21_counterexample :
    (resolved envStrict).Token ≠ "" ∧ (resolved envStrict).ProjectID = "7" ∧
    envStrict.lib.NewRequest "GET"
      ("https://gitlab.com/api/v4/projects/7/merge_requests?state=a\nb" ++
        "&per_page=100&page=1&order_by=created_at&sort=desc") =
      some "net/url: invalid control character in URL" ∧
    (GetGitLabMergeRequests envStrict (requestWithQuery [("state", "a\nb")])
      World.start).2.calls = [] ∧
    (GetGitLabMergeRequests envStrict (requestWithQuery [("state", "a\nb")])
      World.start).1.note =
      some ("Error fetching merge requests: net/url: invalid control character in URL" ++
        ". Using example data instead.") := by
  refine ⟨by decide, by decide, by decide, rfl, rfl⟩

/-- C21, as amended: for every configuration with a token and the project id
`P`, and every request, `GetGitLabMergeRequests` builds the URL
`<URL>/api/v4/projects/P/merge_requests?state=..&per_page=..&page=..&order_by=..&sort=..`
in which each value is the value of the query parameter of that name,
unmodified, or the default `all`, `100`, `1`, `created_at`, `desc` when the
parameter is absent. When `http.NewRequest` accepts that URL, exactly one
upstream request is sent, a GET of it; when it refuses the URL, no request is
sent and the answer is HTTP 200 with the example merge requests and the error
in the note. -/
theorem C21_merge_request_endpoint (E : Env) (c : Request) (w : World) (url : String)
    (hToken : (resolved E).Token ≠ "") (hProject : (resolved E).ProjectID ≠ "")
    (hURL : url = (resolved E).URL ++ "/api/v4/" ++
      ("projects/" ++ (resolved E).ProjectID ++ "/merge_requests?state=" ++
        (c.query.lookup "state").getD "all" ++ "&per_page=" ++
        (c.query.lookup "per_page").getD "100" ++ "&page=" ++
        (c.query.lookup "page").getD "1" ++ "&order_by=" ++
        (c.query.lookup "order_by").getD "created_at" ++ "&sort=" ++
        (c.query.lookup "sort").getD "desc")) :
    (E.lib.NewRequest "GET" url = none →
      (GetGitLabMergeRequests E c w).2.calls =
        w.calls ++ [{ method := "GET", url := url, token := (resolved E).Token }]) ∧
    (∀ err, E.lib.NewRequest "GET" url = some err →
      (GetGitLabMergeRequests E c w).2.calls = w.calls ∧
      (GetGitLabMergeRequests E c w).1 =
        .json 200 (.obj [
          ("merge_requests", .mergeRequests (getExampleMergeRequests E w).1),
          ("note", .str ("Error fetching merge requests: " ++ err ++
            ". Using example data instead."))])) := by
  subst hURL
  refine ⟨fun hBuild => ?_, fun err hBuild => ?_⟩
  · exact GetGitLabMergeRequests_calls E c w hToken hProject hBuild
  · have hr := makeGitLabAPIRequest_unbuilt E "GET"
      (mergeRequestsEndpoint (resolved E).ProjectID c) (resolved E) w err hBuild
    simp only [GetGitLabMergeRequests, withConfig_eq, GetGitLabMergeRequestsWith, M.bind_apply,
      M.pure_apply, hToken, hProject, ↓reduceIte, hr]
    exact ⟨rfl, trivial⟩

/-- C21 at the query `state=opened&sort=asc`: both values reach the upstream
URL, the other three parameters take their defaults. -/
theorem C21_merge_request_endpoint_witness :
    (resolved (stubEnv fsProject)).Token ≠ "" ∧
    (resolved (stubEnv fsProject)).ProjectID = "7" ∧
    (stubEnv fsProject).lib.NewRequest "GET"
      ("https://gitlab.com/api/v4/projects/7/merge_requests?state=opened" ++
        "&per_page=100&page=1&order_by=created_at&sort=asc") = none ∧
    (GetGitLabMergeRequests (stubEnv fsProject)
        (requestWithQuery [("state", "opened"), ("sort", "asc")]) World.start).2.calls =
      [{ method := "GET",
         url := "https://gitlab.com/api/v4/projects/7/merge_requests?state=opened" ++
           "&per_page=100&page=1&order_by=created_at&sort=asc",
         token := "secret" }] := by
  have h := (C21_merge_request_endpoint (stubEnv fsProject)
    (requestWithQuery [("state", "opened"), ("sort", "asc")]) World.start
    ("https://gitlab.com/api/v4/projects/7/merge_requests?state=opened" ++
        "&per_page=100&page=1&order_by=created_at&sort=asc")
    (by decide) (by decide) (by decide)).1 rfl
  exact ⟨by decide, by decide, rfl, h⟩

/-! ## C22: the configuration endpoint -/

/-- C22: the handler of `GET /gitlab/config` answers, for every environment,
HTTP 200 with exactly the keys `url`, `token_set` and `project_id`;
`token_set` is true if and only if the resolved token is not empty; and two
environments whose resolved configurations agree on URL and project id and
both have a non-empty token get the same response, whatever the two tokens
are. -/
theorem C22_config_hides_token :
    (∀ (E : Env) (c : Request) (w : World),
      gitlabConfigHandler E c w =
        (.json 200 (.obj [
          ("url", .str (resolved E).URL),
          ("token_set", .bool ((resolved E).Token != "")),
          ("project_id", .str (resolved E).ProjectID)]), w)) ∧
    (∀ (E : Env) (c : Request) (w : World),
      (gitlabConfigHandler E c w).1.field "token_set" = some (.bool true) ↔
        (resolved E).Token ≠ "") ∧
    (∀ (E1 E2 : Env) (c1 c2 : Request) (w1 w2 : World),
      (resolved E1).URL = (resolved E2).URL →
      (resolved E1).ProjectID = (resolved E2).ProjectID →
      (resolved E1).Token ≠ "" → (resolved E2).Token ≠ "" →
      (gitlabConfigHandler E1 c1 w1).1 = (gitlabConfigHandler E2 c2 w2).1) := by
  have h1 : ∀ (E : Env) (c : Request) (w : World),
      gitlabConfigHandler E c w =
        (.json 200 (.obj [
          ("url", .str (resolved E).URL),
          ("token_set", .bool ((resolved E).Token != "")),
          ("project_id", .str (resolved E).ProjectID)]), w) := fun _ _ _ => rfl
  refine ⟨h1, ?_, ?_⟩
  · intro E c w
    rw [h1]
    show some (GoVal.bool ((resolved E).Token != "")) = some (.bool true) ↔ _
    simp
  · intro E1 E2 c1 c2 w1 w2 hU hP hT1 hT2
    rw [h1, h1, hU, hP]
    have e1 : ((resolved E1).Token != "") = true := by simpa using hT1
    have e2 : ((resolved E2).Token != "") = true := by simpa using hT2
    simp only [e1, e2]

/-! ## C23: empty collections -/

/-- C23, refuted as stated: with token and project id configured, an upstream
body `[]` that decodes to the empty job list makes `GetPipelineJobs` answer with
the key `jobs` only, without a note; `GetGitLabMergeRequests` answers the empty
list without a note as well. For the body `null`, which decodes to the nil
slice, the two answer `null` in place of a collection. -/
theorem C23_counterexample :
    (resolved envEmptyLists).Token ≠ "" ∧ (resolved envEmptyLists).ProjectID ≠ "" ∧
    (makeGitLabAPIRequest envEmptyLists "GET" "projects/7/pipelines/1/jobs"
      (resolved envEmptyLists) World.start).1 = .ok "[]" ∧
    envEmptyLists.lib.unmarshalJobs "[]" = .ok (some []) ∧
    (GetPipelineJobs envEmptyLists (requestFor "1") World.start).1 =
      .json 200 (.obj [("jobs", .jobs [])]) ∧
    (GetPipelineJobs envEmptyLists (requestFor "1") World.start).1.note = none ∧
    (GetGitLabMergeRequests envEmptyLists (requestFor "1") World.start).1 =
      .json 200 (.obj [("merge_requests", .mergeRequests []), ("count", .int 0)]) ∧
    (GetGitLabMergeRequests envEmptyLists (requestFor "1") World.start).1.note = none ∧
    envNullLists.lib.unmarshalJobs "null" = .ok none ∧
    (GetPipelineJobs envNullLists (requestFor "1") World.start).1 =
      .json 200 (.obj [("jobs", .null)]) ∧
    (GetGitLabMergeRequests envNullLists (requestFor "1") World.start).1 =
      .json 200 (.obj [("merge_requests", .null), ("count", .int 0)]) := by
  refine ⟨by decide, by decide, rfl, rfl, rfl, rfl, rfl, rfl, rfl, rfl, rfl⟩

/-- C23, as amended: with a token and a default project id configured, when the
upstream request succeeds and its body decodes to a slice without elements
(the empty slice of the body `[]`, or the nil slice of the body `null`):
`GetGitLabPipelines` answers HTTP 200 with an empty `pipelines` and the note
"No pipelines found in any of your GitLab projects"; `GetPipelineVariables`
answers HTTP 200 with an empty `variables` and the note "No variables found
for this pipeline"; `GetPipelineJobs` answers HTTP 200 with the key `jobs`
only, holding the empty list for the empty slice and `null` for the nil slice;
`GetGitLabMergeRequests` answers HTTP 200 with `merge_requests`, the empty list
or `null` likewise, and `count` 0. None of the four uses example data. -/
theorem C23_empty_collections (E : Env) (c : Request) (w : World)
    (hToken : (resolved E).Token ≠ "") (hProject : (resolved E).ProjectID ≠ "") :
    (∀ body pipelines, (makeGitLabAPIRequest E "GET" ("projects/" ++ (resolved E).ProjectID ++
          "/pipelines") (resolved E) w).1 = .ok body →
        E.lib.unmarshalPipelines body = .ok pipelines → pipelines = some [] ∨ pipelines = none →
      (GetGitLabPipelines E c w).1 =
        .json 200 (.obj [
          ("pipelines", .pipelines []),
          ("note", .str "No pipelines found in any of your GitLab projects")])) ∧
    (∀ body vars, (makeGitLabAPIRequest E "GET" ("projects/" ++ (resolved E).ProjectID ++
          "/pipelines/" ++ c.Param "id" ++ "/variables") (resolved E) w).1 = .ok body →
        E.lib.unmarshalMaps body = .ok vars → vars = some [] ∨ vars = none →
      (GetPipelineVariables E c w).1 =
        .json 200 (.obj [
          ("variables", .arr []),
          ("note", .str "No variables found for this pipeline")])) ∧
    (∀ body, (makeGitLabAPIRequest E "GET" ("projects/" ++ (resolved E).ProjectID ++
          "/pipelines/" ++ c.Param "id" ++ "/jobs") (resolved E) w).1 = .ok body →
      (E.lib.unmarshalJobs body = .ok (some []) →
        (GetPipelineJobs E c w).1 = .json 200 (.obj [("jobs", .jobs [])])) ∧
      (E.lib.unmarshalJobs body = .ok none →
        (GetPipelineJobs E c w).1 = .json 200 (.obj [("jobs", .null)]))) ∧
    (∀ body, (makeGitLabAPIRequest E "GET"
          (mergeRequestsEndpoint (resolved E).ProjectID c) (resolved E) w).1 = .ok body →
      (E.lib.unmarshalMergeRequests body = .ok (some []) →
        (GetGitLabMergeRequests E c w).1 =
          .json 200 (.obj [("merge_requests", .mergeRequests []), ("count", .int 0)])) ∧
      (E.lib.unmarshalMergeRequests body = .ok none →
        (GetGitLabMergeRequests E c w).1 =
          .json 200 (.obj [("merge_requests", .null), ("count", .int 0)]))) := by
  have hE := effectiveProjectID_configured (resolved E) c hProject
  refine ⟨?_, ?_, ?_, ?_⟩
  · intro body pipelines hB hD hEmpty
    have hlen : pipelines.getD [] = [] := by
      rcases hEmpty with h | h <;> rw [h] <;> rfl
    simp only [GetGitLabPipelines, withConfig_eq, GetGitLabPipelinesWith, M.bind_apply,
      M.pure_apply, hToken, hProject, ↓reduceIte, ne_eq, not_false_eq_true]
    generalize (makeGitLabAPIRequest E "GET" _ (resolved E) w) = r at hB ⊢
    obtain ⟨r1, w1⟩ := r
    simp only at hB
    subst hB
    simp only [hD, M.bind_apply, hlen]
    rfl
  · intro body vars hB hD hEmpty
    have hlen : vars.getD [] = [] := by
      rcases hEmpty with h | h <;> rw [h] <;> rfl
    simp only [GetPipelineVariables, withConfig_eq, GetPipelineVariablesWith, M.bind_apply,
      M.pure_apply, hToken, hE, hProject, ↓reduceIte, hB, hD, hlen]
    rfl
  · intro body hB
    refine ⟨fun hD => ?_, fun hD => ?_⟩ <;>
    · simp only [GetPipelineJobs, withConfig_eq, GetPipelineJobsWith, M.bind_apply,
        M.pure_apply, hToken, hE, hProject, ↓reduceIte, hB, hD]
      rfl
  · intro body hB
    refine ⟨fun hD => ?_, fun hD => ?_⟩ <;>
    · simp only [GetGitLabMergeRequests, withConfig_eq, GetGitLabMergeRequestsWith,
        M.bind_apply, M.pure_apply, hToken, hProject, ↓reduceIte, hB, hD]
      rfl

/-- C23 at an upstream whose pipeline list is empty and at one whose job list
is `null`. -/
theorem C23_empty_collections_witness :
    (resolved envEmptyLists).Token ≠ "" ∧ (resolved envEmptyLists).ProjectID ≠ "" ∧
    (GetGitLabPipelines envEmptyLists (requestFor "1") World.start).1.note =
      some "No pipelines found in any of your GitLab projects" ∧
    (GetGitLabPipelines envEmptyLists (requestFor "1") World.start).1.field "pipelines" =
      some (.pipelines []) ∧
    (GetPipelineJobs envNullLists (requestFor "1") World.start).1.field "jobs" =
      some .null := by
  have h := (C23_empty_collections envEmptyLists (requestFor "1") World.start
    (by decide) (by decide)).1 "[]" (some []) rfl rfl (Or.inl rfl)
  have h2 := ((C23_empty_collections envNullLists (requestFor "1") World.start
    (by decide) (by decide)).2.2.1 "null" rfl).2 rfl
  refine ⟨by decide, by decide, ?_, ?_, ?_⟩
  · rw [h]
    rfl
  · rw [h]
    rfl
  · rw [h2]
    rfl

/-! ## C24: the timestamps of a job -/

/-- C24, on the code: `StartedAt` and `FinishedAt` of `GitLabJob` are `time.Time`
values, not pointers, so every emitted job carries a time under `started_at`
and `finished_at`, never `null`. For a job that upstream reports with both
timestamps null, which decodes to the zero time, `GetPipelineJobs` emits the
job with the zero time 0001-01-01T00:00:00Z in both fields. -/
theorem C24_job_timestamps_not_nullable :
    (∀ j : GitLabJob,
      j.toJSON.lookup "started_at" = some (.time j.StartedAt) ∧
      j.toJSON.lookup "finished_at" = some (.time j.FinishedAt)) ∧
    (GetPipelineJobs (envDecodingJobs [pendingJob]) (requestFor "1") World.start).1 =
      .json 200 (.obj [("jobs", .jobs [pendingJob])]) ∧
    pendingJob.toJSON.lookup "started_at" = some (.time zeroTime) ∧
    pendingJob.toJSON.lookup "finished_at" = some (.time zeroTime) ∧
    pendingJob.toJSON.lookup "started_at" ≠ some .null ∧
    pendingJob.toJSON.lookup "finished_at" ≠ some .null :=
  ⟨fun _ => ⟨rfl, rfl⟩, rfl, rfl, rfl, nofun, nofun⟩

/-! ## C25: `TokenAuth` -/

/-- C25, refuted as stated: a server that answers 200 with the body `null`
makes `TokenAuth` return true, although the body is not a JSON object: the
decoder leaves the map nil and returns no error. -/
theorem C25_counterexample :
    TokenAuth (authEnvAnswering (.response 200 "null" none)) "any token" = true ∧
    (authEnvAnswering (.response 200 "null" none)).Decode "null" none = .ok none :=
  ⟨rfl, rfl⟩

/-- The result of `TokenAuth` by cases on its three calls. -/
theorem TokenAuth_eq (A : AuthEnv) (token : String) :
    TokenAuth A token =
      match A.NewRequest "GET" A.testUrl with
      | some _ => false
      | none =>
        match A.Do (authRequest A token) with
        | .transportError _ => false
        | .response status body readErr =>
          if status ≠ 200 then false
          else
            match A.Decode body readErr with
            | .ok _ => true
            | .error _ => false :=
  rfl

/-- C25, as amended: for every token, `TokenAuth` returns true if and only if the
request can be built, the server answers it with status 200 and the decoder
returns no error on the body (a JSON object, or `null`); it returns false for
every answer with another status, for every transport failure, and when the
request cannot be built. -/
theorem C25_token_auth (A : AuthEnv) (token : String) :
    (TokenAuth A token = true ↔
      A.NewRequest "GET" A.testUrl = none ∧
      ∃ body readErr m, A.Do (authRequest A token) = .response 200 body readErr ∧
        A.Decode body readErr = .ok m) ∧
    (∀ status body readErr, A.Do (authRequest A token) = .response status body readErr →
      status ≠ 200 → TokenAuth A token = false) ∧
    (∀ err, A.Do (authRequest A token) = .transportError err → TokenAuth A token = false) ∧
    (∀ err, A.NewRequest "GET" A.testUrl = some err → TokenAuth A token = false) := by
  rw [TokenAuth_eq]
  generalize A.NewRequest "GET" A.testUrl = n
  generalize A.Do (authRequest A token) = d
  cases n with
  | some e => simp
  | none =>
    cases d with
    | transportError err => simp
    | response status body readErr =>
      by_cases hs : status = 200
      · subst hs
        cases hM : A.Decode body readErr with
        | error e => simp [hM]
        | ok m =>
          simp [hM]
          exact ⟨body, readErr, ⟨rfl, rfl⟩, m, hM⟩
      · simp [hs]

/-! ## C26 and C27: the enrichment pass of `GetGitLabPipelines` -/

/-- The enrichment loop does one step for the first pipeline and goes on with
the rest in the state after that step. -/
theorem enrichLoop_cons (E : Env) (config : GitLabConfig) (p : GitLabPipeline)
    (rest : List GitLabPipeline) (w : World) :
    enrichLoop E config (p :: rest) w =
      ((enrichStep E config p w).1 :: (enrichLoop E config rest (enrichStep E config p w).2).1,
       (enrichLoop E config rest (enrichStep E config p w).2).2) := by
  unfold enrichStep
  by_cases h : detailsEndpoint E config p = ""
  · simp only [enrichLoop, h, ↓reduceIte, M.bind_apply, M.pure_apply]
  · simp only [enrichLoop, h, ↓reduceIte, M.bind_apply, M.pure_apply]
    generalize (makeGitLabAPIRequest E "GET" _ config w) = r
    obtain ⟨r1, w1⟩ := r
    cases r1 with
    | error err => rfl
    | ok body =>
      simp only
      cases E.lib.unmarshalPipeline body <;> rfl

/-- The enrichment of no pipeline. -/
theorem enrichLoop_nil (E : Env) (config : GitLabConfig) (w : World) :
    enrichLoop E config [] w = ([], w) := rfl

/-- The enrichment loop over an appended list is the loop over the first part
followed by the loop over the second part in the state it left. -/
theorem enrichLoop_append (E : Env) (config : GitLabConfig) (pre : List GitLabPipeline) :
    ∀ (l : List GitLabPipeline) (w : World),
      enrichLoop E config (pre ++ l) w =
        ((enrichLoop E config pre w).1 ++ (enrichLoop E config l (enrichLoop E config pre w).2).1,
         (enrichLoop E config l (enrichLoop E config pre w).2).2) := by
  induction pre with
  | nil => intro l w; rfl
  | cons p ps ih =>
    intro l w
    rw [List.cons_append, enrichLoop_cons, enrichLoop_cons, ih]
    rfl

/-- One step changes no field other than `User`. -/
theorem enrichStep_frame (E : Env) (config : GitLabConfig) (p : GitLabPipeline) (w : World) :
    (enrichStep E config p w).1 = { p with User := (enrichStep E config p w).1.User } := by
  unfold enrichStep
  split
  · rfl
  · split
    · rfl
    · split <;> rfl

/-- A skipped step returns the pipeline as it was. -/
theorem enrichStep_skipped (E : Env) (config : GitLabConfig) (p : GitLabPipeline) (w : World)
    (h : enrichmentSkipped E config p w) : (enrichStep E config p w).1 = p := by
  unfold enrichStep
  by_cases h0 : detailsEndpoint E config p = ""
  · simp only [h0, ↓reduceIte]
  · simp only [h0, ↓reduceIte]
    rcases h with h | ⟨err, h⟩ | ⟨body, err, h, hd⟩
    · exact absurd h h0
    · generalize (makeGitLabAPIRequest E "GET" _ config w) = r at h ⊢
      obtain ⟨r1, w1⟩ := r
      simp only at h
      subst h
      rfl
    · generalize (makeGitLabAPIRequest E "GET" _ config w) = r at h ⊢
      obtain ⟨r1, w1⟩ := r
      simp only at h
      subst h
      simp only [hd]

/-- The enrichment changes no field other than `User`, position by position. -/
theorem enrichLoop_frame (E : Env) (config : GitLabConfig) :
    ∀ (ps : List GitLabPipeline) (w : World),
      List.Forall₂ (fun p q => q = { p with User := q.User }) ps (enrichLoop E config ps w).1 := by
  intro ps
  induction ps with
  | nil => intro w; exact List.Forall₂.nil
  | cons p rest ih =>
    intro w
    rw [enrichLoop_cons]
    exact List.Forall₂.cons (enrichStep_frame E config p w) (ih _)

/-- The last two elements of a list that ends with them. -/
theorem drop_last_two {α : Type} (pre : List α) (a b : α) :
    (pre ++ [a, b]).drop ((pre ++ [a, b]).length - 2) = [a, b] := by
  simp

/-- C26: with a default project id `P` the details endpoint of a pipeline with
id `n` is `projects/P/pipelines/n`, whatever its `WebURL`. Without one: when
`WebURL` splits on the marker of the pipeline path into exactly two parts and
the first part
splits on `/` into segments that end with `s1`, `s2`, the endpoint is
`projects/` ++ `PathEscape(s1/s2)` ++ `/pipelines/n`; when `WebURL` does not
split into exactly two parts, or the first part has fewer than two segments,
the endpoint is empty. In the enrichment loop a pipeline with an empty
endpoint is passed on unchanged without any request, and for a pipeline with
an endpoint the state moves on by exactly the request for that endpoint. -/
theorem C26_details_endpoint (E : Env) (config : GitLabConfig) (pipeline : GitLabPipeline) :
    (config.ProjectID ≠ "" →
      detailsEndpoint E config pipeline =
        "projects/" ++ config.ProjectID ++ "/pipelines/" ++ toString pipeline.ID) ∧
    (config.ProjectID = "" → ∀ first second pre s1 s2,
      strings.Split pipeline.WebURL "/-/pipelines/" = [first, second] →
      strings.Split first "/" = pre ++ [s1, s2] →
      detailsEndpoint E config pipeline =
        "projects/" ++ E.lib.PathEscape (s1 ++ "/" ++ s2) ++ "/pipelines/" ++
          toString pipeline.ID) ∧
    (config.ProjectID = "" →
      (strings.Split pipeline.WebURL "/-/pipelines/").length ≠ 2 ∨
        (strings.Split ((strings.Split pipeline.WebURL "/-/pipelines/").headD "") "/").length
          < 2 →
      detailsEndpoint E config pipeline = "") ∧
    (∀ rest w,
      (detailsEndpoint E config pipeline = "" →
        enrichLoop E config (pipeline :: rest) w =
          (pipeline :: (enrichLoop E config rest w).1, (enrichLoop E config rest w).2)) ∧
      (detailsEndpoint E config pipeline ≠ "" →
        (enrichLoop E config (pipeline :: rest) w).2 =
          (enrichLoop E config rest
            (makeGitLabAPIRequest E "GET" (detailsEndpoint E config pipeline) config w).2).2)) := by
  refine ⟨?_, ?_, ?_, ?_⟩
  · intro h
    simp only [detailsEndpoint, h, ne_eq, not_false_eq_true, ↓reduceIte]
  · intro h first second pre s1 s2 h1 h2
    have hl : (pre ++ [s1, s2]).length ≥ 2 := by simp
    simp only [detailsEndpoint, h, ne_eq, not_true_eq_false, ↓reduceIte, h1, List.length_cons,
      List.length_nil, List.headD_cons, h2, hl, drop_last_two]
    rfl
  · intro h hs
    rcases hs with hs | hs
    · simp only [detailsEndpoint, h, ne_eq, not_true_eq_false, ↓reduceIte, hs]
    · have hn : ¬ (strings.Split ((strings.Split pipeline.WebURL "/-/pipelines/").headD "")
          "/").length ≥ 2 := by omega
      simp only [detailsEndpoint, h, ne_eq, not_true_eq_false, ↓reduceIte, hn, ite_self]
  · intro rest w
    refine ⟨fun h => ?_, fun h => ?_⟩
    · rw [enrichLoop_cons]
      simp only [enrichStep, h, ↓reduceIte]
    · rw [enrichLoop_cons]
      have : (enrichStep E config pipeline w).2 =
          (makeGitLabAPIRequest E "GET" (detailsEndpoint E config pipeline) config w).2 := by
        simp only [enrichStep, h, ↓reduceIte]
        generalize (makeGitLabAPIRequest E "GET" _ config w) = r
        obtain ⟨r1, w1⟩ := r
        cases r1 with
        | error err => rfl
        | ok body =>
          simp only
          cases E.lib.unmarshalPipeline body <;> rfl
      rw [this]

/-- C27: the enrichment pass returns a list of the same length in which the
pipeline at each position equals the input pipeline at that position except
possibly for `User`; a pipeline whose enrichment is skipped in the state in
which the loop reaches it (no endpoint, failed request, or body that does not
parse) is returned exactly as it was; and for a non-empty list the response is
HTTP 200 with the whole enriched list. -/
theorem C27_enrichment_frame (E : Env) (config : GitLabConfig) (ps : List GitLabPipeline)
    (w : World) :
    (enrichLoop E config ps w).1.length = ps.length ∧
    List.Forall₂ (fun p q => q = { p with User := q.User }) ps (enrichLoop E config ps w).1 ∧
    (∀ pre p rest, ps = pre ++ p :: rest →
      enrichmentSkipped E config p (enrichLoop E config pre w).2 →
      (enrichLoop E config ps w).1[pre.length]? = some p) ∧
    (ps ≠ [] → ∀ info,
      (finishPipelines E config ps info w).1 =
        .json 200 (.obj [
          ("pipelines", .pipelines (enrichLoop E config ps w).1),
          ("info", .str info)])) := by
  have hf := enrichLoop_frame E config ps w
  refine ⟨hf.length_eq.symm, hf, ?_, ?_⟩
  · intro pre p rest hps hskip
    subst hps
    have hlen : (enrichLoop E config pre w).1.length = pre.length :=
      (enrichLoop_frame E config pre w).length_eq.symm
    rw [enrichLoop_append, enrichLoop_cons, enrichStep_skipped E config p _ hskip]
    simp only
    rw [← hlen, List.getElem?_append_right (le_refl _)]
    simp
  · intro hne info
    have h0 : ¬ ps.length = 0 := by
      intro h
      exact hne (List.length_eq_zero.mp h)
    simp only [finishPipelines, h0, ↓reduceIte, M.bind_apply, M.pure_apply]

/-- C26 at pipeline 11 of `group/P1` on `gitlab.com`, whose endpoint is
`projects/group%2FP1/pipelines/11`, and at a URL without the marker. -/
theorem C26_details_endpoint_witness :
    (resolved envDetails).ProjectID = "" ∧
    strings.Split "https://gitlab.com/group/P1/-/pipelines/11" "/-/pipelines/" =
      ["https://gitlab.com/group/P1", "11"] ∧
    strings.Split "https://gitlab.com/group/P1" "/" =
      ["https:", "", "gitlab.com"] ++ ["group", "P1"] ∧
    detailsEndpoint envDetails (resolved envDetails)
        (stubPipeline 11 "main" "https://gitlab.com/group/P1/-/pipelines/11") =
      "projects/group%2FP1/pipelines/11" ∧
    detailsEndpoint envDetails (resolved envDetails)
        (stubPipeline 12 "main" "https://gitlab.com/group/P1/pipelines/12") = "" := by
  have h := C26_details_endpoint envDetails (resolved envDetails)
    (stubPipeline 11 "main" "https://gitlab.com/group/P1/-/pipelines/11")
  have h2 := h.2.1 (by decide) "https://gitlab.com/group/P1" "11" ["https:", "", "gitlab.com"]
    "group" "P1" (by decide) (by decide)
  have h3 := (C26_details_endpoint envDetails (resolved envDetails)
    (stubPipeline 12 "main" "https://gitlab.com/group/P1/pipelines/12")).2.2.1 (by decide)
    (Or.inl (by decide))
  refine ⟨by decide, by decide, by decide, ?_, h3⟩
  rw [h2]
  decide

/-- C27 at two pipelines: the first gets its user, the request for the second
is refused and it is returned unchanged at position 1. -/
theorem C27_enrichment_frame_witness :
    enrichmentSkipped envDetails (resolved envDetails)
      (stubPipeline 21 "main" "https://gitlab.com/group/P2/-/pipelines/21")
      (enrichLoop envDetails (resolved envDetails)
        [stubPipeline 11 "main" "https://gitlab.com/group/P1/-/pipelines/11"] World.start).2 ∧
    (enrichLoop envDetails (resolved envDetails)
      [stubPipeline 11 "main" "https://gitlab.com/group/P1/-/pipelines/11",
       stubPipeline 21 "main" "https://gitlab.com/group/P2/-/pipelines/21"] World.start).1 =
      [{ stubPipeline 11 "main" "https://gitlab.com/group/P1/-/pipelines/11" with
          User := johnDoe },
       stubPipeline 21 "main" "https://gitlab.com/group/P2/-/pipelines/21"] ∧
    (enrichLoop envDetails (resolved envDetails)
      [stubPipeline 11 "main" "https://gitlab.com/group/P1/-/pipelines/11",
       stubPipeline 21 "main" "https://gitlab.com/group/P2/-/pipelines/21"]
      World.start).1[1]? =
      some (stubPipeline 21 "main" "https://gitlab.com/group/P2/-/pipelines/21") := by
  have hs : enrichmentSkipped envDetails (resolved envDetails)
      (stubPipeline 21 "main" "https://gitlab.com/group/P2/-/pipelines/21")
      (enrichLoop envDetails (resolved envDetails)
        [stubPipeline 11 "main" "https://gitlab.com/group/P1/-/pipelines/11"] World.start).2 :=
    Or.inr (Or.inl ⟨"connection refused", rfl⟩)
  exact ⟨hs, by decide,
    (C27_enrichment_frame envDetails (resolved envDetails)
      [stubPipeline 11 "main" "https://gitlab.com/group/P1/-/pipelines/11",
       stubPipeline 21 "main" "https://gitlab.com/group/P2/-/pipelines/21"] World.start).2.2.1
      [stubPipeline 11 "main" "https://gitlab.com/group/P1/-/pipelines/11"]
      (stubPipeline 21 "main" "https://gitlab.com/group/P2/-/pipelines/21") [] rfl hs⟩

/-! ## C28: the effective project id -/

/-- The project id of the handlers that prefer the configured one. -/
theorem effectiveProjectID_eq (config : GitLabConfig) (c : Request) :
    effectiveProjectID config c =
      if config.ProjectID ≠ "" then config.ProjectID else c.Query "project_id" := by
  unfold effectiveProjectID
  by_cases h : config.ProjectID = "" <;> simp [h]

/-- `makeGitLabAPIRequest` only adds to the requests sent. -/
theorem makeGitLabAPIRequest_prefix (E : Env) (method endpoint : String)
    (config : GitLabConfig) (w : World) :
    w.calls <+: (makeGitLabAPIRequest E method endpoint config w).2.calls := by
  cases hN : E.lib.NewRequest method (apiURL config endpoint) with
  | none =>
    rw [makeGitLabAPIRequest_world E method endpoint config w hN]
    exact List.prefix_append _ _
  | some err =>
    rw [makeGitLabAPIRequest_unbuilt E method endpoint config w err hN]

/-- The one request of `GetGitLabPipeline`. -/
theorem GetGitLabPipeline_request (E : Env) (c : Request) (w : World)
    (hToken : (resolved E).Token ≠ "") (hProject : effectiveProjectID (resolved E) c ≠ "") :
    oneRequest E "GET"
      ("projects/" ++ effectiveProjectID (resolved E) c ++ "/pipelines/" ++ c.Param "id")
      w (GetGitLabPipeline E c w).2 := by
  unfold oneRequest
  split
  · next hN =>
    have hw := makeGitLabAPIRequest_world E "GET"
      ("projects/" ++ effectiveProjectID (resolved E) c ++ "/pipelines/" ++ c.Param "id")
      (resolved E) w hN
    simp only [GetGitLabPipeline, withConfig_eq, GetGitLabPipelineWith, M.bind_apply,
      M.pure_apply, hToken, hProject, ↓reduceIte]
    generalize (makeGitLabAPIRequest E "GET" _ (resolved E) w) = r at hw ⊢
    obtain ⟨r1, w1⟩ := r
    simp only at hw
    subst hw
    cases r1 with
    | error err =>
      rfl
    | ok body =>
      simp only
      cases E.lib.unmarshalPipeline body <;> rfl
  · next err hN =>
    have hr := makeGitLabAPIRequest_unbuilt E "GET"
      ("projects/" ++ effectiveProjectID (resolved E) c ++ "/pipelines/" ++ c.Param "id")
      (resolved E) w err hN
    simp only [GetGitLabPipeline, withConfig_eq, GetGitLabPipelineWith, M.bind_apply,
      M.pure_apply, hToken, hProject, ↓reduceIte, hr]
    rfl

/-- The one request of `GetPipelineJobs`. -/
theorem GetPipelineJobs_request (E : Env) (c : Request) (w : World)
    (hToken : (resolved E).Token ≠ "") (hProject : effectiveProjectID (resolved E) c ≠ "") :
    oneRequest E "GET"
      ("projects/" ++ effectiveProjectID (resolved E) c ++ "/pipelines/" ++ c.Param "id" ++
        "/jobs")
      w (GetPipelineJobs E c w).2 := by
  unfold oneRequest
  split
  · next hN =>
    have hw := makeGitLabAPIRequest_world E "GET"
      ("projects/" ++ effectiveProjectID (resolved E) c ++ "/pipelines/" ++ c.Param "id" ++
        "/jobs")
      (resolved E) w hN
    simp only [GetPipelineJobs, withConfig_eq, GetPipelineJobsWith, M.bind_apply,
      M.pure_apply, hToken, hProject, ↓reduceIte]
    generalize (makeGitLabAPIRequest E "GET" _ (resolved E) w) = r at hw ⊢
    obtain ⟨r1, w1⟩ := r
    simp only at hw
    subst hw
    cases r1 with
    | error err =>
      rfl
    | ok body =>
      simp only
      cases E.lib.unmarshalJobs body <;> rfl
  · next err hN =>
    have hr := makeGitLabAPIRequest_unbuilt E "GET"
      ("projects/" ++ effectiveProjectID (resolved E) c ++ "/pipelines/" ++ c.Param "id" ++
        "/jobs")
      (resolved E) w err hN
    simp only [GetPipelineJobs, withConfig_eq, GetPipelineJobsWith, M.bind_apply,
      M.pure_apply, hToken, hProject, ↓reduceIte, hr]
    rfl

/-- The one request of `GetPipelineDetails`. -/
theorem GetPipelineDetails_request (E : Env) (c : Request) (w : World)
    (hToken : (resolved E).Token ≠ "") (hProject : effectiveProjectID (resolved E) c ≠ "") :
    oneRequest E "GET"
      ("projects/" ++ effectiveProjectID (resolved E) c ++ "/pipelines/" ++ c.Param "id")
      w (GetPipelineDetails E c w).2 := by
  unfold oneRequest
  split
  · next hN =>
    have hw := makeGitLabAPIRequest_world E "GET"
      ("projects/" ++ effectiveProjectID (resolved E) c ++ "/pipelines/" ++ c.Param "id")
      (resolved E) w hN
    simp only [GetPipelineDetails, withConfig_eq, GetPipelineDetailsWith, M.bind_apply,
      M.pure_apply, hToken, hProject, ↓reduceIte]
    generalize (makeGitLabAPIRequest E "GET" _ (resolved E) w) = r at hw ⊢
    obtain ⟨r1, w1⟩ := r
    simp only at hw
    subst hw
    cases r1 with
    | error err =>
      rfl
    | ok body =>
      simp only
      cases E.lib.unmarshalMap body <;> rfl
  · next err hN =>
    have hr := makeGitLabAPIRequest_unbuilt E "GET"
      ("projects/" ++ effectiveProjectID (resolved E) c ++ "/pipelines/" ++ c.Param "id")
      (resolved E) w err hN
    simp only [GetPipelineDetails, withConfig_eq, GetPipelineDetailsWith, M.bind_apply,
      M.pure_apply, hToken, hProject, ↓reduceIte, hr]
    rfl

/-- The one request of `GetPipelineTestReportSummary`. -/
theorem GetPipelineTestReportSummary_request (E : Env) (c : Request) (w : World)
    (hToken : (resolved E).Token ≠ "") (hProject : effectiveProjectID (resolved E) c ≠ "") :
    oneRequest E "GET"
      ("projects/" ++ effectiveProjectID (resolved E) c ++ "/pipelines/" ++ c.Param "id" ++
        "/test_report_summary")
      w (GetPipelineTestReportSummary E c w).2 := by
  unfold oneRequest
  split
  · next hN =>
    have hw := makeGitLabAPIRequest_world E "GET"
      ("projects/" ++ effectiveProjectID (resolved E) c ++ "/pipelines/" ++ c.Param "id" ++
        "/test_report_summary")
      (resolved E) w hN
    simp only [GetPipelineTestReportSummary, withConfig_eq, GetPipelineTestReportSummaryWith, M.bind_apply,
      M.pure_apply, hToken, hProject, ↓reduceIte]
    generalize (makeGitLabAPIRequest E "GET" _ (resolved E) w) = r at hw ⊢
    obtain ⟨r1, w1⟩ := r
    simp only at hw
    subst hw
    cases r1 with
    | error err =>
      simp only
      split_ifs <;> rfl
    | ok body =>
      simp only
      cases E.lib.unmarshalMap body with
      | error e => rfl
      | ok m =>
        simp only
        split_ifs <;> rfl
  · next err hN =>
    have hr := makeGitLabAPIRequest_unbuilt E "GET"
      ("projects/" ++ effectiveProjectID (resolved E) c ++ "/pipelines/" ++ c.Param "id" ++
        "/test_report_summary")
      (resolved E) w err hN
    simp only [GetPipelineTestReportSummary, withConfig_eq, GetPipelineTestReportSummaryWith, M.bind_apply,
      M.pure_apply, hToken, hProject, ↓reduceIte, hr]
    split_ifs <;> rfl

/-- The one request of `GetPipelineVariables`. -/
theorem GetPipelineVariables_request (E : Env) (c : Request) (w : World)
    (hToken : (resolved E).Token ≠ "") (hProject : effectiveProjectID (resolved E) c ≠ "") :
    oneRequest E "GET"
      ("projects/" ++ effectiveProjectID (resolved E) c ++ "/pipelines/" ++ c.Param "id" ++
        "/variables")
      w (GetPipelineVariables E c w).2 := by
  unfold oneRequest
  split
  · next hN =>
    have hw := makeGitLabAPIRequest_world E "GET"
      ("projects/" ++ effectiveProjectID (resolved E) c ++ "/pipelines/" ++ c.Param "id" ++
        "/variables")
      (resolved E) w hN
    simp only [GetPipelineVariables, withConfig_eq, GetPipelineVariablesWith, M.bind_apply,
      M.pure_apply, hToken, hProject, ↓reduceIte]
    generalize (makeGitLabAPIRequest E "GET" _ (resolved E) w) = r at hw ⊢
    obtain ⟨r1, w1⟩ := r
    simp only at hw
    subst hw
    cases r1 with
    | error err =>
      rfl
    | ok body =>
      simp only
      cases E.lib.unmarshalMaps body with
      | error e => rfl
      | ok vars =>
        simp only
        split_ifs <;> rfl
  · next err hN =>
    have hr := makeGitLabAPIRequest_unbuilt E "GET"
      ("projects/" ++ effectiveProjectID (resolved E) c ++ "/pipelines/" ++ c.Param "id" ++
        "/variables")
      (resolved E) w err hN
    simp only [GetPipelineVariables, withConfig_eq, GetPipelineVariablesWith, M.bind_apply,
      M.pure_apply, hToken, hProject, ↓reduceIte, hr]

/-- The one request of `RetryPipeline`. -/
theorem RetryPipeline_request (E : Env) (c : Request) (w : World)
    (hToken : (resolved E).Token ≠ "") (hProject : effectiveProjectID (resolved E) c ≠ "") :
    oneRequest E "POST"
      ("projects/" ++ effectiveProjectID (resolved E) c ++ "/pipelines/" ++ c.Param "id" ++
        "/retry")
      w (RetryPipeline E c w).2 := by
  unfold oneRequest
  split
  · next hN =>
    unfold apiURL at hN
    simp only [RetryPipeline, withConfig_eq, RetryPipelineWith, M.bind_apply,
      M.pure_apply, hToken, hProject, ↓reduceIte, hN, clientDo]
    generalize (E.upstream w.calls _) = u
    cases u with
    | transportError err => rfl
    | response status body readErr =>
      simp only
      split_ifs
      · rfl
      · cases readErr with
        | some e => rfl
        | none =>
          simp only
          cases E.lib.unmarshalMap body <;> rfl
  · next err hN =>
    unfold apiURL at hN
    simp only [RetryPipeline, withConfig_eq, RetryPipelineWith, M.bind_apply,
      M.pure_apply, hToken, hProject, ↓reduceIte, hN]

/-- The requests of `GetJobDetailsFor` start with the request for the job. -/
theorem GetJobDetailsFor_request (E : Env) (projectID jobID : String) (w : World)
    (hToken : (resolved E).Token ≠ "") :
    firstRequest E "GET" ("projects/" ++ projectID ++ "/jobs/" ++ jobID) w
      (GetJobDetailsFor E projectID jobID w).2 := by
  unfold firstRequest
  split
  · next hN =>
    have hw := makeGitLabAPIRequest_world E "GET" ("projects/" ++ projectID ++ "/jobs/" ++ jobID)
      (resolved E) w hN
    simp only [GetJobDetailsFor, withConfig_eq, M.bind_apply, M.pure_apply, hToken, ↓reduceIte]
    generalize (makeGitLabAPIRequest E "GET" _ (resolved E) w) = r at hw ⊢
    obtain ⟨r1, w1⟩ := r
    simp only at hw
    have h1 : w.calls ++
        [callOf (resolved E) "GET" ("projects/" ++ projectID ++ "/jobs/" ++ jobID)] <+:
        w1.calls := by
      rw [hw]
    clear hw
    cases r1 with
    | error err =>
      simp only
      split_ifs <;> exact h1
    | ok body =>
      simp only
      cases E.lib.unmarshalMap body with
      | error e => exact h1
      | ok job =>
        simp only [M.bind_apply]
        have h2 := makeGitLabAPIRequest_prefix E "GET"
          ("projects/" ++ projectID ++ "/jobs/" ++ jobID ++ "/trace") (resolved E) w1
        generalize (makeGitLabAPIRequest E "GET" _ (resolved E) w1) = r2 at h2 ⊢
        obtain ⟨r2, w2⟩ := r2
        simp only at h2
        cases job with
        | none => exact h1.trans h2
        | some job =>
          simp only [M.bind_apply]
          have h3 := makeGitLabAPIRequest_prefix E "GET"
            ("projects/" ++ projectID ++ "/jobs/" ++ jobID ++ "/artifacts") (resolved E) w2
          generalize (makeGitLabAPIRequest E "GET" _ (resolved E) w2) = r3 at h3 ⊢
          obtain ⟨r3, w3⟩ := r3
          simp only at h3
          exact (h1.trans h2).trans h3
  · next err hN =>
    have hr := makeGitLabAPIRequest_unbuilt E "GET"
      ("projects/" ++ projectID ++ "/jobs/" ++ jobID) (resolved E) w err hN
    simp only [GetJobDetailsFor, withConfig_eq, M.bind_apply, M.pure_apply, hToken,
      ↓reduceIte, hr]
    split_ifs <;> rfl

/-- The requests of `GetJobDetails` start with the request for the job in the
project that `jobProjectID` gives. -/
theorem GetJobDetails_request (E : Env) (c : Request) (w : World)
    (hToken : (resolved E).Token ≠ "") (hProject : jobProjectID E c ≠ "") :
    firstRequest E "GET" ("projects/" ++ jobProjectID E c ++ "/jobs/" ++ c.Param "id") w
      (GetJobDetails E c w).2 := by
  unfold jobProjectID at hProject ⊢
  unfold GetJobDetails
  by_cases hq : c.Query "project_id" = ""
  · simp only [hq, ↓reduceIte] at hProject ⊢
    simp only [withConfig_eq, hProject, ↓reduceIte]
    exact GetJobDetailsFor_request E _ _ w hToken
  · simp only [hq, ↓reduceIte]
    exact GetJobDetailsFor_request E _ _ w hToken

/-- C28: with a token, `GetGitLabPipeline`, `GetPipelineJobs`,
`GetPipelineDetails`, `GetPipelineTestReportSummary`, `GetPipelineVariables` and
`RetryPipeline` have one upstream request, for the project `P` that is the
configured project id when that is not empty and the `project_id` query
parameter otherwise: it is the only request sent when `http.NewRequest` can
build it, and nothing is sent otherwise. The requests of `GetJobDetails`
start with the request for the job in the project `J` that is the
`project_id` query parameter when that is not empty and the configured project
id otherwise. Whatever the token is, `GetJobDetails` answers with the note
about the missing project id when neither source gives one, and with the note
about the missing token only when a project id is available. No hypothesis is
made about `http.NewRequest`. -/
theorem C28_project_id_resolution (E : Env) (c : Request) (w : World) :
    (∀ P, P = (if (resolved E).ProjectID ≠ "" then (resolved E).ProjectID
        else c.Query "project_id") →
      (resolved E).Token ≠ "" → P ≠ "" →
      oneRequest E "GET" ("projects/" ++ P ++ "/pipelines/" ++ c.Param "id")
        w (GetGitLabPipeline E c w).2 ∧
      oneRequest E "GET" ("projects/" ++ P ++ "/pipelines/" ++ c.Param "id" ++ "/jobs")
        w (GetPipelineJobs E c w).2 ∧
      oneRequest E "GET" ("projects/" ++ P ++ "/pipelines/" ++ c.Param "id")
        w (GetPipelineDetails E c w).2 ∧
      oneRequest E "GET"
        ("projects/" ++ P ++ "/pipelines/" ++ c.Param "id" ++ "/test_report_summary")
        w (GetPipelineTestReportSummary E c w).2 ∧
      oneRequest E "GET" ("projects/" ++ P ++ "/pipelines/" ++ c.Param "id" ++ "/variables")
        w (GetPipelineVariables E c w).2 ∧
      oneRequest E "POST" ("projects/" ++ P ++ "/pipelines/" ++ c.Param "id" ++ "/retry")
        w (RetryPipeline E c w).2) ∧
    (∀ J, J = (if c.Query "project_id" ≠ "" then c.Query "project_id"
        else (resolved E).ProjectID) →
      (resolved E).Token ≠ "" → J ≠ "" →
      firstRequest E "GET" ("projects/" ++ J ++ "/jobs/" ++ c.Param "id")
        w (GetJobDetails E c w).2) ∧
    (c.Query "project_id" = "" → (resolved E).ProjectID = "" →
      (GetJobDetails E c w).1.note = some projectNote ∧
      (GetJobDetails E c w).2.calls = w.calls) ∧
    ((resolved E).Token = "" →
      c.Query "project_id" ≠ "" ∨ (resolved E).ProjectID ≠ "" →
      (GetJobDetails E c w).1.note = some tokenNote ∧
      (GetJobDetails E c w).2.calls = w.calls) := by
  refine ⟨?_, ?_, ?_, ?_⟩
  · intro P hP hToken hne
    rw [← effectiveProjectID_eq] at hP
    subst hP
    exact ⟨GetGitLabPipeline_request E c w hToken hne,
      GetPipelineJobs_request E c w hToken hne,
      GetPipelineDetails_request E c w hToken hne,
      GetPipelineTestReportSummary_request E c w hToken hne,
      GetPipelineVariables_request E c w hToken hne,
      RetryPipeline_request E c w hToken hne⟩
  · intro J hJ hToken hne
    have e : J = jobProjectID E c := by
      rw [hJ]
      unfold jobProjectID
      by_cases hq : c.Query "project_id" = "" <;> simp [hq]
    subst e
    exact GetJobDetails_request E c w hToken hne
  · intro hq hp
    rw [GetJobDetails_noProject E c w hq hp]
    exact ⟨rfl, rfl⟩
  · intro hT hp
    rw [GetJobDetails_noToken E c w hT hp]
    exact ⟨rfl, rfl⟩

/-- C28 at the configured project 7 and the query `project_id=8`:
`GetPipelineJobs` asks project 7, `GetJobDetails` asks project 8; and with a
request builder that refuses control characters, `GetGitLabPipeline` sends
nothing for a query `project_id` that holds a newline. -/
theorem C28_project_id_resolution_witness :
    (resolved (stubEnv fsProject)).ProjectID = "7" ∧
    (requestForProject "1" "8").Query "project_id" = "8" ∧
    (GetPipelineJobs (stubEnv fsProject) (requestForProject "1" "8") World.start).2.calls =
      [callOf (resolved (stubEnv fsProject)) "GET" "projects/7/pipelines/1/jobs"] ∧
    [callOf (resolved (stubEnv fsProject)) "GET" "projects/8/jobs/1"] <+:
      (GetJobDetails (stubEnv fsProject) (requestForProject "1" "8") World.start).2.calls ∧
    (resolved envStrictToken).ProjectID = "" ∧
    (GetGitLabPipeline envStrictToken (requestForProject "1" "a\nb") World.start).2.calls =
      [] := by
  have h := C28_project_id_resolution (stubEnv fsProject) (requestForProject "1" "8")
    World.start
  have h2 := (C28_project_id_resolution envStrictToken (requestForProject "1" "a\nb")
    World.start).1 "a\nb" (by decide) (by decide) (by decide)
  exact ⟨by decide, by decide,
    (h.1 "7" (by decide) (by decide) (by decide)).2.1,
    h.2.1 "8" (by decide) (by decide) (by decide), by decide, h2.1⟩

/-! ## C29: `getConfigFromFile` never fails -/

/-- C29: for every codec and every state of the two stores, `getConfigFromFile` and
`GetGitLabConfig` return a nil error; when the structured store is read and
does not parse, or cannot be read, the configuration is the one obtained with
the structured store absent, which is the scan of the flat store over the
defaults (the defaults when the flat store cannot be read). -/
theorem C29_resolution_never_fails (J : ConfigCodec) (fs : FileSys) :
    (getConfigFromFile J fs).2 = none ∧
    (GetGitLabConfig J fs).2 = none ∧
    (∀ s e, fs.config.read = .ok s → J.unmarshal s = .error e →
      (getConfigFromFile J fs).1 = (getConfigFromFile J { fs with config := fileAbsent }).1) ∧
    (∀ e, fs.config.read = .error e →
      (getConfigFromFile J fs).1 = (getConfigFromFile J { fs with config := fileAbsent }).1) ∧
    (getConfigFromFile J { fs with config := fileAbsent }).1 =
      match fs.dotenv.read with
      | .ok content => scanDotenv defaultConfig content
      | .error _ => defaultConfig := by
  refine ⟨rfl, rfl, ?_, ?_, ?_⟩
  · intro s e hs he
    simp only [getConfigFromFile, hs, he]
    rfl
  · intro e he
    simp only [getConfigFromFile, he]
    rfl
  · simp only [getConfigFromFile]
    rfl

/-- C29 at a structured store that is not JSON: the token of the flat store and
the default URL are returned, without error. -/
theorem C29_resolution_never_fails_witness :
    fsBrokenJSON.config.read = .ok "not json" ∧
    stubCodec.unmarshal "not json" = .error "unexpected end of JSON input" ∧
    getConfigFromFile stubCodec fsBrokenJSON =
      ({ URL := "https://gitlab.com", Token := "secret", ProjectID := "" }, none) := by
  have h := (C29_resolution_never_fails stubCodec fsBrokenJSON).2.2.1 "not json"
    "unexpected end of JSON input" rfl rfl
  refine ⟨rfl, rfl, ?_⟩
  exact Prod.ext (h.trans (by decide)) rfl

/-! ## C30: `RetryPipeline` after a successful upstream answer -/

/-- C30, refuted as stated: an upstream answer 200 with the body `null`, which
is not a JSON object, decodes to the nil map without error, and the response
of `RetryPipeline` has the field `pipeline`, with the value `null`. -/
theorem C30_counterexample :
    (resolved (envAnswering (.response 200 "null" none) fsProject)).Token ≠ "" ∧
    (envAnswering (.response 200 "null" none) fsProject).lib.unmarshalMap "null" = .ok none ∧
    (RetryPipeline (envAnswering (.response 200 "null" none) fsProject) (requestFor "1")
      World.start).1 =
      .json 200 (.obj [
        ("message", .str "Pipeline retry initiated successfully"),
        ("success", .bool true),
        ("pipeline", .null)]) ∧
    (RetryPipeline (envAnswering (.response 200 "null" none) fsProject) (requestFor "1")
      World.start).1.field "pipeline" = some .null :=
  ⟨by decide, rfl, rfl, rfl⟩

/-- C30, as amended: with token and project id available and the request built,
for every upstream answer with status 200 or 201 `RetryPipeline` answers HTTP
200 with `success` true; the field `pipeline` is present if and only if the
body is read without error and decodes without error, and it then holds the
decoded value (the object, or `null` for the nil map). -/
theorem C30_retry_success (E : Env) (c : Request) (w : World) (s : Int) (body : String)
    (readErr : Option String)
    (hToken : (resolved E).Token ≠ "") (hProject : effectiveProjectID (resolved E) c ≠ "")
    (hBuild : E.lib.NewRequest "POST" (retryURL E c) = none)
    (hUp : E.upstream w.calls
      { method := "POST", url := retryURL E c, token := (resolved E).Token } =
      .response s body readErr)
    (hs : s = 200 ∨ s = 201) :
    (RetryPipeline E c w).1.status = 200 ∧
    (RetryPipeline E c w).1.field "success" = some (.bool true) ∧
    (((RetryPipeline E c w).1.field "pipeline").isSome ↔
      readErr = none ∧ ∃ m, E.lib.unmarshalMap body = .ok m) ∧
    (∀ m, readErr = none → E.lib.unmarshalMap body = .ok m →
      (RetryPipeline E c w).1.field "pipeline" = some (GoVal.ofMap m)) := by
  unfold retryURL apiURL at hBuild hUp
  have hn : ¬ (s ≠ 200 ∧ s ≠ 201) := by tauto
  simp only [RetryPipeline, withConfig_eq, RetryPipelineWith, M.bind_apply, M.pure_apply,
    hToken, hProject, ↓reduceIte, hBuild, clientDo, hUp, hn]
  cases readErr with
  | some e =>
    refine ⟨rfl, rfl, ?_, ?_⟩
    · constructor
      · intro h
        exact absurd (show false = true from h) (by decide)
      · rintro ⟨h, _⟩
        cases h
    · intro m h
      cases h
  | none =>
    simp only
    cases hM : E.lib.unmarshalMap body with
    | error e =>
      refine ⟨rfl, rfl, ?_, ?_⟩
      · constructor
        · intro h
          exact absurd (show false = true from h) (by decide)
        · rintro ⟨_, m, h⟩
          cases h
      · intro m _ h
        cases h
    | ok m =>
      refine ⟨rfl, rfl, ?_, ?_⟩
      · constructor
        · intro _
          first | exact ⟨rfl, m, rfl⟩ | exact ⟨trivial, m, rfl⟩
        · intro _
          rfl
      · intro m2 _ h
        cases h
        rfl

/-- C30 at an answer 201 whose body does not parse: `success` is true and
there is no `pipeline`. -/
theorem C30_retry_success_witness :
    (resolved (envAnswering (.response 201 "<html>" none) fsProject)).Token ≠ "" ∧
    (RetryPipeline (envAnswering (.response 201 "<html>" none) fsProject) (requestFor "1")
      World.start).1.field "success" = some (.bool true) ∧
    (RetryPipeline (envAnswering (.response 201 "<html>" none) fsProject) (requestFor "1")
      World.start).1.field "pipeline" = none := by
  have h := C30_retry_success (envAnswering (.response 201 "<html>" none) fsProject)
    (requestFor "1") World.start 201 "<html>" none (by decide) (by decide) rfl rfl
    (Or.inr rfl)
  exact ⟨by decide, h.2.1, rfl⟩

end CitrusOps
